import Mathlib

/-!
# voucher-api: the redemption workflow

A shallow embedding of `internal/models/models.go`, `internal/database/operations.go`
and `internal/handlers/handlers.go`, and the properties of the redemption
handler `Handler.CreateRedemption`, of the store round trip, of the `Validate`
methods and of the create handlers.

Modelling conventions.

* Go `int` is 64 bits wide.  A value of type `int` is an `Int`, and every `int`
  addition and subtraction of the handler is followed by `wrapInt`, the
  two's-complement wrap-around of Go; comparisons need none.  The values read
  from the store are what `Scan` put into an `int`, so they lie between `minInt`
  and `maxInt`.
* Go `time.Time` is an `Int` number of seconds counted from the zero instant,
  so `IsZero` is `= 0` and `Before` is `<`.
* The MySQL database behind `database.DB` is the record `Store`: its tables are
  lists of rows, `SELECT ... WHERE id = ?` followed by `Scan` is the first row
  with that id, and `LastInsertId` is the auto-increment counter.
* A statement sent to the database may fail with a driver error.  Every store
  operation takes a flag saying whether this call fails so; a failed statement
  leaves the tables as they were.  `Faults` gives one flag per store call of a
  run of the handler, so quantifying over `Faults` covers every failure
  pattern.
* `Store.log` records the calls received, in order, with their arguments (what
  `mock.Called` records in `handlers/mocks.go`).  It is how "the value the
  handler passes to the store" is observed.
* Go strings are Lean strings (sequences of Unicode code points).
  `strings.TrimSpace` removes the white space of `unicode.IsSpace`;
  `strings.ToLower` is exact wherever the result is compared with an ASCII word;
  the pattern of `isValidEmail` is matched by derivatives (`Regexp.matchChars`),
  anchored at both ends as `^` and `$` are in Go.
* Concurrent requests are calls of the handler cut at their store calls
  (`Task.step`), interleaved by a schedule (`System.run`); `Task.iter_start`
  shows that a call left alone does exactly what `Handler.CreateRedemption` does.
-/

namespace VoucherApi

/-! ## models.go -/

/-- The smallest value of a Go `int` (64 bits): `math.MinInt64`. -/
def minInt : Int := -9223372036854775808

/-- The largest value of a Go `int` (64 bits): `math.MaxInt64`. -/
def maxInt : Int := 9223372036854775807

/-- The value Go gives to an `int` expression whose exact value is `x`: `x` reduced
modulo 2^64 into the range from `minInt` to `maxInt`. -/
def wrapInt (x : Int) : Int :=
  (x + 9223372036854775808) % 18446744073709551616 - 9223372036854775808

/-- Go `time.Time`: seconds from the zero instant. -/
abbrev Time := Int

/-- Go `t.IsZero()`. -/
def Time.IsZero (t : Time) : Bool := t == 0

/-- Go `t.Before(u)`. -/
def Time.Before (t u : Time) : Bool := decide (t < u)

/-- The sentinel errors of models.go, lines 10-19. -/
inductive ModelError where
  | ErrEmptyName
  | ErrEmptyCode
  | ErrInvalidPointsCost
  | ErrInvalidEmail
  | ErrNegativePoints
  | ErrExpiredVoucher
  | ErrNoItems
  | ErrInvalidStatus
deriving DecidableEq, Repr

/-- The text of `err.Error()` for the sentinel errors. -/
def ModelError.Error : ModelError → String
  | .ErrEmptyName => "name cannot be empty"
  | .ErrEmptyCode => "code cannot be empty"
  | .ErrInvalidPointsCost => "points cost must be positive"
  | .ErrInvalidEmail => "invalid email format"
  | .ErrNegativePoints => "points balance cannot be negative"
  | .ErrExpiredVoucher => "voucher has expired"
  | .ErrNoItems => "redemption must have at least one item"
  | .ErrInvalidStatus => "invalid redemption status"

/-- The struct `models.Voucher`. -/
structure Voucher where
  ID : Int
  BrandID : Int
  Code : String
  Name : String
  Description : String
  PointsCost : Int
  IsActive : Bool
  ValidUntil : Time
  CreatedAt : Time
  UpdatedAt : Time
deriving DecidableEq, Repr

/-- The struct `models.Customer`. -/
structure Customer where
  ID : Int
  Name : String
  Email : String
  PointsBalance : Int
  CreatedAt : Time
  UpdatedAt : Time
deriving DecidableEq, Repr

/-- The struct `models.RedemptionItem`. -/
structure RedemptionItem where
  ID : Int
  RedemptionID : Int
  VoucherID : Int
  PointsCost : Int
  CreatedAt : Time
deriving DecidableEq, Repr

/-- The struct `models.Redemption`. -/
structure Redemption where
  ID : Int
  CustomerID : Int
  TotalPointsCost : Int
  Status : String
  Items : List RedemptionItem
  CreatedAt : Time
  UpdatedAt : Time
deriving DecidableEq, Repr

/-- The struct `models.RedemptionRequest`, the decoded JSON body. -/
structure RedemptionRequest where
  CustomerID : Int
  VoucherIDs : List Int
deriving DecidableEq, Repr

/-- The struct `models.Brand`. -/
structure Brand where
  ID : Int
  Name : String
  Description : String
  CreatedAt : Time
  UpdatedAt : Time
deriving DecidableEq, Repr

/-- The struct `models.CreateBrandRequest`, the decoded JSON body. -/
structure CreateBrandRequest where
  Name : String
  Description : String
deriving DecidableEq, Repr

/-- The struct `models.CreateVoucherRequest`, the decoded JSON body. -/
structure CreateVoucherRequest where
  BrandID : Int
  Code : String
  Name : String
  Description : String
  PointsCost : Int
  ValidUntil : Time
deriving DecidableEq, Repr

/-- Go `unicode.IsSpace`: tab, line feed, vertical tab, form feed, carriage return,
space, U+0085, U+00A0, and the other code points with the White_Space property. -/
def isSpace (c : Char) : Bool :=
  let n := c.toNat
  (9 ≤ n && n ≤ 13) || n == 32 || n == 0x85 || n == 0xA0 || n == 0x1680 ||
    (0x2000 ≤ n && n ≤ 0x200A) || n == 0x2028 || n == 0x2029 || n == 0x202F ||
    n == 0x205F || n == 0x3000

/-- Go `strings.TrimSpace`: the string without its leading and trailing white space. -/
def TrimSpace (s : String) : String :=
  String.mk ((s.toList.dropWhile isSpace).reverse.dropWhile isSpace).reverse

/-- The function `validateBrandInternal` (models.go, lines 106-111); `none` is Go's
`nil` error. -/
def validateBrandInternal (b : Brand) : Option ModelError :=
  if TrimSpace b.Name == "" then some .ErrEmptyName
  else none

/-- The method `Brand.Validate` (models.go, lines 29-31). -/
def Brand.Validate (b : Brand) : Option ModelError :=
  validateBrandInternal b

/-- The expiry test of `validateVoucherInternal` (models.go, line 123), with the
evaluation instant `now` for `time.Now()`. -/
def Voucher.expiredAt (v : Voucher) (now : Time) : Bool :=
  !v.ValidUntil.IsZero && v.ValidUntil.Before now

/-- The function `validateVoucherInternal` (models.go, lines 113-127), with the
evaluation instant `now` for `time.Now()`. -/
def validateVoucherInternal (v : Voucher) (now : Time) : Option ModelError :=
  if TrimSpace v.Code == "" then some .ErrEmptyCode
  else if TrimSpace v.Name == "" then some .ErrEmptyName
  else if v.PointsCost ≤ 0 then some .ErrInvalidPointsCost
  else if !v.ValidUntil.IsZero && v.ValidUntil.Before now then some .ErrExpiredVoucher
  else none

/-- The method `Voucher.Validate` (models.go, lines 46-48). -/
def Voucher.Validate (v : Voucher) (now : Time) : Option ModelError :=
  validateVoucherInternal v now

/-- A regular expression over characters, for the pattern of `isValidEmail`. -/
inductive Regexp where
  /-- No string. -/
  | void
  /-- The empty string. -/
  | eps
  /-- One character of a class. -/
  | cls (p : Char → Bool)
  /-- Concatenation. -/
  | seq (a b : Regexp)
  /-- Alternation. -/
  | alt (a b : Regexp)
  /-- Zero or more repetitions. -/
  | star (a : Regexp)

/-- Whether a regular expression matches the empty string. -/
def Regexp.nullable : Regexp → Bool
  | .void => false
  | .eps => true
  | .cls _ => false
  | .seq a b => a.nullable && b.nullable
  | .alt a b => a.nullable || b.nullable
  | .star _ => true

/-- The derivative of a regular expression by a character: what may follow `c`. -/
def Regexp.deriv (c : Char) : Regexp → Regexp
  | .void => .void
  | .eps => .void
  | .cls p => if p c then .eps else .void
  | .seq a b =>
    if a.nullable then .alt (.seq (a.deriv c) b) (b.deriv c) else .seq (a.deriv c) b
  | .alt a b => .alt (a.deriv c) (b.deriv c)
  | .star a => .seq (a.deriv c) (.star a)

/-- Whether the whole of a list of characters matches (the pattern is anchored by
`^` and `$`). -/
def Regexp.matchChars (r : Regexp) : List Char → Bool
  | [] => r.nullable
  | c :: cs => (r.deriv c).matchChars cs

/-- Go `re.MatchString(s)` for a pattern `^r$`. -/
def Regexp.MatchString (r : Regexp) (s : String) : Bool :=
  r.matchChars s.toList

/-- The repetition `r+`. -/
def Regexp.plus (r : Regexp) : Regexp := .seq r (.star r)

/-- The class `[a-zA-Z]`. -/
def isAlpha (c : Char) : Bool :=
  ('a' ≤ c && c ≤ 'z') || ('A' ≤ c && c ≤ 'Z')

/-- The class `[0-9]`. -/
def isDigit (c : Char) : Bool := '0' ≤ c && c ≤ '9'

/-- The pattern of `isValidEmail` (models.go, line 154), between its anchors:
`[a-zA-Z0-9._%+\-]+@[a-zA-Z0-9.\-]+\.[a-zA-Z]{2,}`. -/
def emailRegex : Regexp :=
  .seq (Regexp.plus (.cls (fun c => isAlpha c || isDigit c || c == '.' || c == '_' ||
          c == '%' || c == '+' || c == '-')))
    (.seq (.cls (fun c => c == '@'))
      (.seq (Regexp.plus (.cls (fun c => isAlpha c || isDigit c || c == '.' || c == '-')))
        (.seq (.cls (fun c => c == '.'))
          (.seq (.cls isAlpha) (.seq (.cls isAlpha) (.star (.cls isAlpha)))))))

/-- The function `isValidEmail` (models.go, lines 153-156). -/
def isValidEmail (email : String) : Bool :=
  emailRegex.MatchString email

/-- The function `validateCustomerInternal` (models.go, lines 129-140). -/
def validateCustomerInternal (c : Customer) : Option ModelError :=
  if TrimSpace c.Name == "" then some .ErrEmptyName
  else if !isValidEmail c.Email then some .ErrInvalidEmail
  else if c.PointsBalance < 0 then some .ErrNegativePoints
  else none

/-- The method `Customer.Validate` (models.go, lines 59-61). -/
def Customer.Validate (c : Customer) : Option ModelError :=
  validateCustomerInternal c

/-- Go `unicode.ToLower` on the runes whose lower case is an ASCII letter: `A`-`Z`,
U+0130 (to `i`) and U+212A (to `k`).  The other runes are left as they are; their
lower case is not an ASCII letter either, so no comparison of the result with
an ASCII word depends on them. -/
def lowerRune (c : Char) : Char :=
  if c.toNat == 0x130 then 'i'
  else if c.toNat == 0x212A then 'k'
  else c.toLower

/-- Go `strings.ToLower`: `unicode.ToLower` on every rune. -/
def toLower (s : String) : String := String.mk (s.toList.map lowerRune)

/-- The function `isValidStatus` (models.go, lines 158-166): a lookup of the
lower-cased status in the map of the four valid statuses. -/
def isValidStatus (status : String) : Bool :=
  let s := toLower status
  s == "pending" || s == "completed" || s == "cancelled" || s == "failed"

/-- The function `validateRedemptionInternal` (models.go, lines 142-150);
`none` is Go's `nil` error. -/
def validateRedemptionInternal (r : Redemption) : Option ModelError :=
  if r.Items.length == 0 then some .ErrNoItems
  else if !isValidStatus r.Status then some .ErrInvalidStatus
  else none

/-- The method `Redemption.Validate` (models.go, lines 73-75). -/
def Redemption.Validate (r : Redemption) : Option ModelError :=
  validateRedemptionInternal r

/-! ## database/operations.go -/

/-- The errors a store operation returns: `sql.ErrNoRows` from `Scan` when no row
matches, or an error of the driver. -/
inductive DbError where
  | ErrNoRows
  | ErrDriver
deriving DecidableEq, Repr

/-- The text of `err.Error()` for a store error. -/
def DbError.Error : DbError → String
  | .ErrNoRows => "sql: no rows in result set"
  | .ErrDriver => "driver: bad connection"

/-- A call received by the store from a handler, with its arguments. -/
inductive Call where
  | GetCustomer (id : Int)
  | GetVoucher (id : Int)
  | CreateRedemption (redemption : Redemption)
  | UpdateCustomerPoints (customerID : Int) (points : Int)
  | CreateBrand (brand : Brand)
  | CreateVoucher (voucher : Voucher)
  | GetRedemption (id : Int)
deriving DecidableEq, Repr

/-- A row of table `redemptions`, as written by the INSERT of `DB.CreateRedemption`
(columns id, customer_id, total_points_cost, status, created_at, updated_at). -/
structure RedemptionRow where
  id : Int
  customer_id : Int
  total_points_cost : Int
  status : String
  created_at : Time
  updated_at : Time
deriving DecidableEq, Repr

/-- A row of table `redemption_items`. -/
structure RedemptionItemRow where
  id : Int
  redemption_id : Int
  voucher_id : Int
  points_cost : Int
  created_at : Time
deriving DecidableEq, Repr

/-- The database: its tables, the auto-increment counters, the clock that stamps
new rows, and the log of calls received. -/
structure Store where
  customers : List Customer
  vouchers : List Voucher
  redemptions : List RedemptionRow
  redemption_items : List RedemptionItemRow
  nextRedemptionID : Int
  clock : Time
  log : List Call
  brands : List Brand := []
  nextBrandID : Int := 1
  nextVoucherID : Int := 1
deriving DecidableEq, Repr

/-- The row selected by `SELECT ... FROM customers WHERE id = ?`. -/
def Store.findCustomer (d : Store) (id : Int) : Option Customer :=
  d.customers.find? (fun c => c.ID == id)

/-- The row selected by `SELECT ... FROM vouchers WHERE id = ?`. -/
def Store.findVoucher (d : Store) (id : Int) : Option Voucher :=
  d.vouchers.find? (fun v => v.ID == id)

/-- The `points_balance` of customer `id`, when the row exists. -/
def Store.balance (d : Store) (id : Int) : Option Int :=
  (d.findCustomer id).map (fun c => c.PointsBalance)

/-- The store after receiving call `c`. -/
def Store.record (d : Store) (c : Call) : Store :=
  { d with log := d.log ++ [c] }

/-- The statement `INSERT INTO redemptions (customer_id, total_points_cost, status)
VALUES (?, ?, ?)`: the new row takes the next id, and the clock for its
timestamps. -/
def Store.insertRedemption (d : Store) (r : Redemption) : Store :=
  { d with
    redemptions := d.redemptions ++
      [{ id := d.nextRedemptionID, customer_id := r.CustomerID,
         total_points_cost := r.TotalPointsCost, status := r.Status,
         created_at := d.clock, updated_at := d.clock }],
    nextRedemptionID := d.nextRedemptionID + 1 }

/-- The statement `UPDATE customers SET points_balance = ? WHERE id = ?`. -/
def Store.setPoints (d : Store) (customerID : Int) (points : Int) : Store :=
  { d with
    customers := d.customers.map (fun c =>
      if c.ID == customerID then { c with PointsBalance := points } else c) }

/-- The statement `INSERT INTO brands (name, description) VALUES (?, ?)`. -/
def Store.insertBrand (d : Store) (b : Brand) : Store :=
  { d with
    brands := d.brands ++
      [{ ID := d.nextBrandID, Name := b.Name, Description := b.Description,
         CreatedAt := d.clock, UpdatedAt := d.clock }],
    nextBrandID := d.nextBrandID + 1 }

/-- The statement `INSERT INTO vouchers (brand_id, code, name, description,
points_cost, is_active, valid_until) VALUES (?, ?, ?, ?, ?, ?, ?)`. -/
def Store.insertVoucher (d : Store) (v : Voucher) : Store :=
  { d with
    vouchers := d.vouchers ++
      [{ ID := d.nextVoucherID, BrandID := v.BrandID, Code := v.Code, Name := v.Name,
         Description := v.Description, PointsCost := v.PointsCost, IsActive := v.IsActive,
         ValidUntil := v.ValidUntil, CreatedAt := d.clock, UpdatedAt := d.clock }],
    nextVoucherID := d.nextVoucherID + 1 }

/-- The row selected by `SELECT ... FROM redemptions WHERE id = ?`. -/
def Store.findRedemption (d : Store) (id : Int) : Option RedemptionRow :=
  d.redemptions.find? (fun r => r.id == id)

namespace DB

/-- The method `DB.CreateBrand` (operations.go, lines 70-79). -/
def CreateBrand (d : Store) (fault : Bool) (brand : Brand) : Store × Except DbError Int :=
  let d := d.record (.CreateBrand brand)
  if fault then (d, .error .ErrDriver)
  else (d.insertBrand brand, .ok d.nextBrandID)

/-- The method `DB.CreateVoucher` (operations.go, lines 111-122). -/
def CreateVoucher (d : Store) (fault : Bool) (voucher : Voucher) :
    Store × Except DbError Int :=
  let d := d.record (.CreateVoucher voucher)
  if fault then (d, .error .ErrDriver)
  else (d.insertVoucher voucher, .ok d.nextVoucherID)

/-- The method `DB.GetRedemption` (operations.go, lines 180-190): the columns of the
row of `redemptions` are scanned into a Redemption; `Items` is left at its zero
value, no statement reads `redemption_items`. -/
def GetRedemption (d : Store) (fault : Bool) (id : Int) : Store × Except DbError Redemption :=
  let d := d.record (.GetRedemption id)
  if fault then (d, .error .ErrDriver)
  else
    match d.findRedemption id with
    | none => (d, .error .ErrNoRows)
    | some row =>
      (d, .ok { ID := row.id, CustomerID := row.customer_id,
                TotalPointsCost := row.total_points_cost, Status := row.status, Items := [],
                CreatedAt := row.created_at, UpdatedAt := row.updated_at })

/-- The method `DB.GetCustomer` (operations.go, lines 158-167). -/
def GetCustomer (d : Store) (fault : Bool) (id : Int) : Store × Except DbError Customer :=
  let d := d.record (.GetCustomer id)
  if fault then (d, .error .ErrDriver)
  else
    match d.findCustomer id with
    | none => (d, .error .ErrNoRows)
    | some c => (d, .ok c)

/-- The method `DB.GetVoucher` (operations.go, lines 124-135). -/
def GetVoucher (d : Store) (fault : Bool) (id : Int) : Store × Except DbError Voucher :=
  let d := d.record (.GetVoucher id)
  if fault then (d, .error .ErrDriver)
  else
    match d.findVoucher id with
    | none => (d, .error .ErrNoRows)
    | some v => (d, .ok v)

/-- The method `DB.CreateRedemption` (operations.go, lines 169-178): one INSERT
into `redemptions` of customer_id, total_points_cost and status, and the id
from `LastInsertId` (which does not fail once the INSERT succeeded); the items
of the redemption are not written. -/
def CreateRedemption (d : Store) (fault : Bool) (redemption : Redemption) :
    Store × Except DbError Int :=
  let d := d.record (.CreateRedemption redemption)
  if fault then (d, .error .ErrDriver)
  else (d.insertRedemption redemption, .ok d.nextRedemptionID)

/-- The method `DB.UpdateCustomerPoints` (operations.go, lines 192-196). -/
def UpdateCustomerPoints (d : Store) (fault : Bool) (customerID : Int) (points : Int) :
    Store × Except DbError Unit :=
  let d := d.record (.UpdateCustomerPoints customerID points)
  if fault then (d, .error .ErrDriver)
  else (d.setPoints customerID points, .ok ())

end DB

/-! ## handlers/handlers.go -/

/-- The body of an HTTP response: the text given to `http.Error`, or the JSON
object with the new id. -/
inductive Body where
  | error (msg : String)
  | id (n : Int)
deriving DecidableEq, Repr

/-- An HTTP response: status code and body. -/
structure Response where
  status : Nat
  body : Body
deriving DecidableEq, Repr

/-- Go `http.Error(w, msg, code)`. -/
def httpError (msg : String) (code : Nat) : Response :=
  { status := code, body := .error msg }

/-- The outcome of each store call of one run of `Handler.CreateRedemption`:
`true` is a driver error.  `getVoucher` has one flag per iteration of the loop
(missing flags are `false`). -/
structure Faults where
  getCustomer : Bool
  getVoucher : List Bool
  createRedemption : Bool
  updateCustomerPoints : Bool
deriving DecidableEq, Repr

/-- The flag of the next `GetVoucher` call. -/
def nextFault : List Bool → Bool
  | [] => false
  | b :: _ => b

/-- No store call fails. -/
def Faults.none : Faults :=
  { getCustomer := false, getVoucher := [], createRedemption := false,
    updateCustomerPoints := false }

/-- The composite literal `models.RedemptionItem{VoucherID: vID, PointsCost: cost}`
(handlers.go, lines 185-188); the other fields are zero. -/
def newItem (vID : Int) (cost : Int) : RedemptionItem :=
  { ID := 0, RedemptionID := 0, VoucherID := vID, PointsCost := cost, CreatedAt := 0 }

/-- The composite literal `&models.Redemption{CustomerID: ..., TotalPointsCost: ...,
Status: "pending", Items: ...}` (handlers.go, lines 196-201). -/
def newRedemption (customerID : Int) (totalPoints : Int) (items : List RedemptionItem) :
    Redemption :=
  { ID := 0, CustomerID := customerID, TotalPointsCost := totalPoints,
    Status := "pending", Items := items, CreatedAt := 0, UpdatedAt := 0 }

/-- The composite literal `&models.Brand{Name: req.Name, Description: req.Description}`
(handlers.go, lines 47-50). -/
def newBrand (req : CreateBrandRequest) : Brand :=
  { ID := 0, Name := req.Name, Description := req.Description, CreatedAt := 0, UpdatedAt := 0 }

/-- The composite literal `&models.Voucher{..., IsActive: true}` (handlers.go, lines
103-111). -/
def newVoucher (req : CreateVoucherRequest) : Voucher :=
  { ID := 0, BrandID := req.BrandID, Code := req.Code, Name := req.Name,
    Description := req.Description, PointsCost := req.PointsCost, IsActive := true,
    ValidUntil := req.ValidUntil, CreatedAt := 0, UpdatedAt := 0 }

namespace Handler

/-- The method `Handler.CreateBrand` (handlers.go, lines 39-65).  `body` is the
result of decoding the JSON request (`none`: the decoder failed). -/
def CreateBrand (d : Store) (fault : Bool) (body : Option CreateBrandRequest) :
    Store × Response :=
  match body with
  | none => (d, httpError "invalid request body" 400)
  | some req =>
    let brand := newBrand req
    match brand.Validate with
    | some err => (d, httpError err.Error 400)
    | none =>
      match DB.CreateBrand d fault brand with
      | (d1, .error err) => (d1, httpError err.Error 500)
      | (d1, .ok id) => (d1, { status := 201, body := .id id })

/-- The method `Handler.CreateVoucher` (handlers.go, lines 95-126), run at the
instant `now`. -/
def CreateVoucher (d : Store) (fault : Bool) (now : Time)
    (body : Option CreateVoucherRequest) : Store × Response :=
  match body with
  | none => (d, httpError "invalid request body" 400)
  | some req =>
    let voucher := newVoucher req
    match voucher.Validate now with
    | some err => (d, httpError err.Error 400)
    | none =>
      match DB.CreateVoucher d fault voucher with
      | (d1, .error err) => (d1, httpError err.Error 500)
      | (d1, .ok id) => (d1, { status := 201, body := .id id })

/-- The loop of `Handler.CreateRedemption` (handlers.go, lines 174-189) over the
voucher ids still to visit, with the running `totalPoints` and `items`.  An
early return of the handler is an `error` with its response. -/
def pricingLoop (d : Store) (fv : List Bool) :
    List Int → Int → List RedemptionItem → Store × Except Response (Int × List RedemptionItem)
  | [], totalPoints, items => (d, .ok (totalPoints, items))
  | vID :: rest, totalPoints, items =>
    match DB.GetVoucher d (nextFault fv) vID with
    | (d1, .error _) => (d1, .error (httpError "Voucher not found" 404))
    | (d1, .ok voucher) =>
      if !voucher.IsActive then (d1, .error (httpError "Voucher is not active" 400))
      else
        pricingLoop d1 fv.tail rest (wrapInt (totalPoints + voucher.PointsCost))
          (items ++ [newItem vID voucher.PointsCost])

/-- The method `Handler.CreateRedemption` (handlers.go, lines 157-218).  `body` is
the result of decoding the JSON request (`none`: the decoder failed, and the
text of its error stands for whatever the decoder reports). -/
def CreateRedemption (d : Store) (f : Faults) (body : Option RedemptionRequest) :
    Store × Response :=
  match body with
  | none => (d, httpError "invalid request body" 400)
  | some req =>
    match DB.GetCustomer d f.getCustomer req.CustomerID with
    | (d1, .error _) => (d1, httpError "Customer not found" 404)
    | (d1, .ok customer) =>
      match pricingLoop d1 f.getVoucher req.VoucherIDs 0 [] with
      | (d2, .error resp) => (d2, resp)
      | (d2, .ok (totalPoints, items)) =>
        if customer.PointsBalance < totalPoints then
          (d2, httpError "Insufficient points" 400)
        else
          let redemption := newRedemption req.CustomerID totalPoints items
          match DB.CreateRedemption d2 f.createRedemption redemption with
          | (d3, .error err) => (d3, httpError err.Error 500)
          | (d3, .ok id) =>
            match DB.UpdateCustomerPoints d3 f.updateCustomerPoints customer.ID
                (wrapInt (customer.PointsBalance - totalPoints)) with
            | (d4, .error err) => (d4, httpError err.Error 500)
            | (d4, .ok _) => (d4, { status := 201, body := .id id })

end Handler

/-! ## Observations on a run -/

/-- The store after receiving the calls `cs` in order. -/
def Store.recordAll (d : Store) (cs : List Call) : Store :=
  { d with log := d.log ++ cs }

/-- The calls the store received between state `d` and the later state `e`. -/
def callsMade (d e : Store) : List Call := e.log.drop d.log.length

/-- The `points_cost` of the voucher with id `id` in the catalog (0 when absent). -/
def Store.cost (d : Store) (id : Int) : Int :=
  ((d.findVoucher id).map (fun v => v.PointsCost)).getD 0

/-- The exact sum of the `points_cost` of the requested vouchers, with multiplicity. -/
def Store.sumCost (d : Store) (ids : List Int) : Int :=
  (ids.map d.cost).sum

/-- The value of `totalPoints` after the loop of handlers.go, lines 174-189, has
visited the vouchers `ids` starting from the value `t`: each `+=` wraps. -/
def Store.totalFrom (d : Store) (t : Int) (ids : List Int) : Int :=
  ids.foldl (fun acc id => wrapInt (acc + d.cost id)) t

/-- The total the handler computes for the requested vouchers: the `int` sum of
their `points_cost`, from 0, in request order. -/
def Store.requestedCost (d : Store) (ids : List Int) : Int :=
  d.totalFrom 0 ids

/-- The reads of a run that reaches the balance check: the customer, then each
voucher in request order. -/
def readCalls (req : RedemptionRequest) : List Call :=
  Call.GetCustomer req.CustomerID :: req.VoucherIDs.map Call.GetVoucher

/-- One item per requested id, in request order, at the catalog price. -/
def pricedItems (d : Store) (ids : List Int) : List RedemptionItem :=
  ids.map (fun id => newItem id (d.cost id))

/-- What a run that passed the reads does: the balance check, the insert, the
debit, with the outcome of each store write. -/
def Handler.commit (d : Store) (f : Faults) (req : RedemptionRequest) (c : Customer) :
    Store × Response :=
  let e := d.recordAll (readCalls req)
  let t := d.requestedCost req.VoucherIDs
  let r := newRedemption req.CustomerID t (pricedItems d req.VoucherIDs)
  if c.PointsBalance < t then (e, httpError "Insufficient points" 400)
  else if f.createRedemption = true then
    (e.record (.CreateRedemption r), httpError DbError.ErrDriver.Error 500)
  else if f.updateCustomerPoints = true then
    (((e.record (.CreateRedemption r)).insertRedemption r).record
        (.UpdateCustomerPoints req.CustomerID (wrapInt (c.PointsBalance - t))),
      httpError DbError.ErrDriver.Error 500)
  else
    ((((e.record (.CreateRedemption r)).insertRedemption r).record
        (.UpdateCustomerPoints req.CustomerID (wrapInt (c.PointsBalance - t)))).setPoints
        req.CustomerID (wrapInt (c.PointsBalance - t)),
      { status := 201, body := .id d.nextRedemptionID })

/-- The sum of `PointsCost` over a list of items. -/
def itemsCost (items : List RedemptionItem) : Int :=
  (items.map (fun i => i.PointsCost)).sum

/-- Whether a call is one of the two writes of the redemption handler. -/
def Call.isWrite : Call → Bool
  | .CreateRedemption _ => true
  | .UpdateCustomerPoints _ _ => true
  | _ => false

/-- A store for the examples: customer 1 with `balance` points, and vouchers 1 and
2 costing 100 and 200, both active. -/
def demoStore (balance : Int) : Store :=
  { customers := [{ ID := 1, Name := "Ann", Email := "ann@example.com",
                    PointsBalance := balance, CreatedAt := 0, UpdatedAt := 0 }],
    vouchers := [{ ID := 1, BrandID := 1, Code := "V1", Name := "Voucher 1", Description := "",
                   PointsCost := 100, IsActive := true, ValidUntil := 0, CreatedAt := 0,
                   UpdatedAt := 0 },
                 { ID := 2, BrandID := 1, Code := "V2", Name := "Voucher 2", Description := "",
                   PointsCost := 200, IsActive := true, ValidUntil := 0, CreatedAt := 0,
                   UpdatedAt := 0 }],
    redemptions := [], redemption_items := [], nextRedemptionID := 1, clock := 1000, log := [] }

/-- A store for the expiry example: customer 1 with 1000 points and voucher 1, active,
costing 100, with `valid_until` at instant 500; the clock is at 1000. -/
def expiredStore : Store :=
  { customers := [{ ID := 1, Name := "Ann", Email := "ann@example.com",
                    PointsBalance := 1000, CreatedAt := 0, UpdatedAt := 0 }],
    vouchers := [{ ID := 1, BrandID := 1, Code := "V1", Name := "Voucher 1", Description := "",
                   PointsCost := 100, IsActive := true, ValidUntil := 500, CreatedAt := 0,
                   UpdatedAt := 0 }],
    redemptions := [], redemption_items := [], nextRedemptionID := 1, clock := 1000, log := [] }

/-! ## Concurrent calls

Each request runs `Handler.CreateRedemption` on its own goroutine against the one
store.  A call is cut at its store calls: a step of a call is one store call
together with the local computation that follows it, and a schedule chooses
which call takes the next step.  The store calls themselves are atomic. -/

/-- Where a call of `Handler.CreateRedemption` stands between two of its steps, with
the values of its local variables. -/
inductive Phase where
  /-- Before `GetCustomer` (handlers.go, line 165). -/
  | start
  /-- In the loop of lines 174-189, before the `GetVoucher` of the first id still to
  visit; with no id left, before the balance check of line 191. -/
  | pricing (customer : Customer) (fv : List Bool) (rest : List Int) (totalPoints : Int)
      (items : List RedemptionItem)
  /-- After `CreateRedemption` returned `id`, before `UpdateCustomerPoints` (line 210). -/
  | inserted (customer : Customer) (totalPoints : Int) (id : Int)
  /-- Returned, with the response written. -/
  | done (resp : Response)
deriving DecidableEq, Repr

/-- One call of the handler in progress: its request, the outcome of its store calls,
and where it stands. -/
structure Task where
  req : RedemptionRequest
  faults : Faults
  phase : Phase
deriving DecidableEq, Repr

/-- One step of a call against the store: the next store call of
`Handler.CreateRedemption` and the code up to the following one.  The balance
check of line 191 is a step of its own when it rejects; otherwise it is part
of the step of `CreateRedemption`. -/
def Task.step (d : Store) (t : Task) : Store × Task :=
  match t.phase with
  | .start =>
    match DB.GetCustomer d t.faults.getCustomer t.req.CustomerID with
    | (d1, .error _) => (d1, { t with phase := .done (httpError "Customer not found" 404) })
    | (d1, .ok customer) =>
      (d1, { t with phase := .pricing customer t.faults.getVoucher t.req.VoucherIDs 0 [] })
  | .pricing customer fv (vID :: rest) totalPoints items =>
    match DB.GetVoucher d (nextFault fv) vID with
    | (d1, .error _) => (d1, { t with phase := .done (httpError "Voucher not found" 404) })
    | (d1, .ok voucher) =>
      if !voucher.IsActive then
        (d1, { t with phase := .done (httpError "Voucher is not active" 400) })
      else
        (d1, { t with phase := .pricing customer fv.tail rest
                        (wrapInt (totalPoints + voucher.PointsCost))
                        (items ++ [newItem vID voucher.PointsCost]) })
  | .pricing customer _ [] totalPoints items =>
    if customer.PointsBalance < totalPoints then
      (d, { t with phase := .done (httpError "Insufficient points" 400) })
    else
      match DB.CreateRedemption d t.faults.createRedemption
          (newRedemption t.req.CustomerID totalPoints items) with
      | (d1, .error err) => (d1, { t with phase := .done (httpError err.Error 500) })
      | (d1, .ok id) => (d1, { t with phase := .inserted customer totalPoints id })
  | .inserted customer totalPoints id =>
    match DB.UpdateCustomerPoints d t.faults.updateCustomerPoints customer.ID
        (wrapInt (customer.PointsBalance - totalPoints)) with
    | (d1, .error err) => (d1, { t with phase := .done (httpError err.Error 500) })
    | (d1, .ok _) => (d1, { t with phase := .done { status := 201, body := .id id } })
  | .done _ => (d, t)

/-- The store and the calls in progress. -/
structure System where
  store : Store
  tasks : List Task
deriving DecidableEq, Repr

/-- The system in which call `i` takes its next step (nothing happens when there
is no call `i`). -/
def System.step (s : System) (i : Nat) : System :=
  match s.tasks[i]? with
  | none => s
  | some t => { store := (t.step s.store).1, tasks := s.tasks.set i (t.step s.store).2 }

/-- The system after the steps of a schedule, a list of call numbers. -/
def System.run (s : System) : List Nat → System
  | [] => s
  | i :: sched => (s.step i).run sched

/-- The system at the arrival of the requests `calls`, each with the outcome of
its store calls. -/
def System.init (d : Store) (calls : List (RedemptionRequest × Faults)) : System :=
  { store := d,
    tasks := calls.map (fun c => { req := c.1, faults := c.2, phase := .start }) }

/-- The response of call `i`, once it has returned. -/
def System.response (s : System) (i : Nat) : Option Response :=
  match s.tasks[i]? with
  | some { phase := .done resp, .. } => some resp
  | _ => none

/-- A store for the race of the specification: customer 1 with 150 points and voucher 1,
active, costing 100. -/
def raceStore : Store :=
  { customers := [{ ID := 1, Name := "Ann", Email := "ann@example.com",
                    PointsBalance := 150, CreatedAt := 0, UpdatedAt := 0 }],
    vouchers := [{ ID := 1, BrandID := 1, Code := "V1", Name := "Voucher 1", Description := "",
                   PointsCost := 100, IsActive := true, ValidUntil := 0, CreatedAt := 0,
                   UpdatedAt := 0 }],
    redemptions := [], redemption_items := [], nextRedemptionID := 1, clock := 1000, log := [] }

/-- The two concurrent calls of the race: customer 1 redeems voucher 1, twice,
and no store call fails. -/
def raceSystem : System :=
  System.init raceStore [(⟨1, [1]⟩, Faults.none), (⟨1, [1]⟩, Faults.none)]

/-- What holds of the local variables of a call between two steps, on a store
whose voucher table is that of `d`, with non-negative costs: the balance read
lies between 0 and `maxInt`; in the loop the total so far is non-negative
and, with the costs still to add, does not exceed `maxInt`; after the insert
the total lies between 0 and the balance read (the check of line 191 passed). -/
def Phase.ok (d : Store) : Phase → Prop
  | .pricing customer _ rest totalPoints _ =>
    0 ≤ customer.PointsBalance ∧ customer.PointsBalance ≤ maxInt ∧
    0 ≤ totalPoints ∧ totalPoints + d.sumCost rest ≤ maxInt
  | .inserted customer totalPoints _ =>
    0 ≤ totalPoints ∧ totalPoints ≤ customer.PointsBalance ∧ customer.PointsBalance ≤ maxInt
  | _ => True

/-- A call whose local variables satisfy `Phase.ok` and whose requested vouchers
cost, in sum, at most `maxInt`. -/
def Task.ok (d : Store) (t : Task) : Prop :=
  t.phase.ok d ∧ d.sumCost t.req.VoucherIDs ≤ maxInt

/-- The invariant of the concurrent system started on store `d0`: every balance
lies between 0 and `maxInt`, the voucher table is that of `d0`, every call
satisfies `Task.ok`, and every `UpdateCustomerPoints` received since the start
carries a non-negative value. -/
def System.Inv (d0 : Store) (s : System) : Prop :=
  (∀ c ∈ s.store.customers, 0 ≤ c.PointsBalance ∧ c.PointsBalance ≤ maxInt) ∧
  s.store.vouchers = d0.vouchers ∧
  (∀ t ∈ s.tasks, t.ok d0) ∧
  ∃ cs : List Call, s.store.log = d0.log ++ cs ∧
    ∀ id p, Call.UpdateCustomerPoints id p ∈ cs → 0 ≤ p

/-- The call `t` taking `n` steps in a row against store `d`. -/
def Task.iter : Nat → Store → Task → Store × Task
  | 0, d, t => (d, t)
  | n + 1, d, t => Task.iter n (t.step d).1 (t.step d).2

/-- The end of `Handler.CreateRedemption` from the balance check on (handlers.go,
lines 191-218), for the customer read `c`, the total `t` and the items, on the
store `e` reached after the loop. -/
def Handler.writes (e : Store) (f : Faults) (customerID : Int) (c : Customer) (t : Int)
    (items : List RedemptionItem) : Store × Response :=
  if c.PointsBalance < t then (e, httpError "Insufficient points" 400)
  else
    match DB.CreateRedemption e f.createRedemption (newRedemption customerID t items) with
    | (e1, .error err) => (e1, httpError err.Error 500)
    | (e1, .ok id) =>
      match DB.UpdateCustomerPoints e1 f.updateCustomerPoints c.ID
          (wrapInt (c.PointsBalance - t)) with
      | (e2, .error err) => (e2, httpError err.Error 500)
      | (e2, .ok _) => (e2, { status := 201, body := .id id })

/-- The customer row of the race, with balance `b`. -/
def raceCustomer (b : Int) : Customer :=
  { ID := 1, Name := "Ann", Email := "ann@example.com", PointsBalance := b,
    CreatedAt := 0, UpdatedAt := 0 }

/-- The phases a call of the race can be in while the balance in the store is `b`:
a call that read 150 goes on to insert and debit; a call can have read 50, or
have been rejected, only once the balance in the store is 50. -/
def Phase.inRace (b : Int) (ph : Phase) : Prop :=
  ph = .start ∨
  (∃ sb : Int, (sb = 150 ∨ (sb = 50 ∧ b = 50)) ∧
    ph = .pricing (raceCustomer sb) [] [1] 0 []) ∨
  (∃ sb : Int, (sb = 150 ∨ (sb = 50 ∧ b = 50)) ∧
    ph = .pricing (raceCustomer sb) [] [] 100 [newItem 1 100]) ∨
  (∃ id : Int, ph = .inserted (raceCustomer 150) 100 id) ∨
  (∃ id : Int, ph = .done { status := 201, body := .id id }) ∨
  (ph = .done (httpError "Insufficient points" 400) ∧ b = 50)

/-- A call of the race: the request of customer 1 for voucher 1, no failing store call,
in one of the phases of `Phase.inRace`. -/
def Task.inRace (b : Int) (t : Task) : Prop :=
  t.req = ⟨1, [1]⟩ ∧ t.faults = Faults.none ∧ t.phase.inRace b

/-- The invariant of the race: the balance is 150 or 50, and it is 50 only once a
call has returned 201; every debit sent to the store is "customer 1, 50 points". -/
def System.RaceInv (s : System) : Prop :=
  ∃ b : Int, (b = 150 ∨ b = 50) ∧ s.store.customers = [raceCustomer b] ∧
    s.store.vouchers = raceStore.vouchers ∧
    (∀ t ∈ s.tasks, t.inRace b) ∧
    (b = 50 → ∃ (j : Nat) (t : Task) (id : Int), s.tasks[j]? = some t ∧
      t.phase = .done { status := 201, body := .id id }) ∧
    (∀ id p, Call.UpdateCustomerPoints id p ∈ s.store.log → id = 1 ∧ p = 50)

/-- A string is blank when it consists of white space only (the empty string is
blank). -/
def isBlank (s : String) : Bool := s.toList.all isSpace

/-- The voucher of the cases of `TestVoucher_Validate`, with the fields they vary. -/
def testVoucher (code name : String) (cost : Int) (validUntil : Time) : Voucher :=
  { ID := 0, BrandID := 1, Code := code, Name := name, Description := "", PointsCost := cost,
    IsActive := true, ValidUntil := validUntil, CreatedAt := 0, UpdatedAt := 0 }

/-- The customer of the cases of `TestCustomer_Validate`, with the fields they vary. -/
def testCustomer (name email : String) (balance : Int) : Customer :=
  { ID := 0, Name := name, Email := email, PointsBalance := balance, CreatedAt := 0,
    UpdatedAt := 0 }

/-- The check of one voucher in the words of the precedence rule: its lookup (which
fails on a driver error or a missing row), then its `is_active` flag.  `none`:
the voucher passes. -/
def voucherCheck (d : Store) (fault : Bool) (id : Int) : Option Response :=
  if fault then some (httpError "Voucher not found" 404)
  else
    match d.findVoucher id with
    | none => some (httpError "Voucher not found" 404)
    | some v => if v.IsActive then none else some (httpError "Voucher is not active" 400)

/-- A store for the precedence example: customer 1 with 50 points, voucher 1 inactive
and costing 100. -/
def inactiveStore : Store :=
  { customers := [{ ID := 1, Name := "Ann", Email := "ann@example.com",
                    PointsBalance := 50, CreatedAt := 0, UpdatedAt := 0 }],
    vouchers := [{ ID := 1, BrandID := 1, Code := "V1", Name := "Voucher 1", Description := "",
                   PointsCost := 100, IsActive := false, ValidUntil := 0, CreatedAt := 0,
                   UpdatedAt := 0 }],
    redemptions := [], redemption_items := [], nextRedemptionID := 1, clock := 1000, log := [] }

/-- Whether a call is `UpdateCustomerPoints`. -/
def Call.isDebit : Call → Bool
  | .UpdateCustomerPoints _ _ => true
  | _ => false

/-- A store for the overflow examples: customer 1 with `balance` points and voucher 1,
active, costing `math.MaxInt64` points. -/
def overflowStore (balance : Int) : Store :=
  { customers := [{ ID := 1, Name := "Ann", Email := "ann@example.com",
                    PointsBalance := balance, CreatedAt := 0, UpdatedAt := 0 }],
    vouchers := [{ ID := 1, BrandID := 1, Code := "V1", Name := "Voucher 1", Description := "",
                   PointsCost := 9223372036854775807, IsActive := true, ValidUntil := 0,
                   CreatedAt := 0, UpdatedAt := 0 }],
    redemptions := [], redemption_items := [], nextRedemptionID := 1, clock := 1000, log := [] }

/-- The phases of a call of the race that read the balance 150 at its start. -/
def Phase.read150 (ph : Phase) : Prop :=
  ph = .pricing (raceCustomer 150) [] [1] 0 [] ∨
  ph = .pricing (raceCustomer 150) [] [] 100 [newItem 1 100] ∨
  (∃ id : Int, ph = .inserted (raceCustomer 150) 100 id) ∨
  (∃ id : Int, ph = .done { status := 201, body := .id id })

/-- Whether the call has inserted its redemption: it stands between the insert and
the debit, or has answered 201. -/
def Phase.pastInsert : Phase → Bool
  | .inserted _ _ _ => true
  | .done resp => resp.status == 201
  | _ => false

/-- Every call of the race has read the balance 150. -/
def System.Read150 (s : System) : Prop :=
  s.store.vouchers = raceStore.vouchers ∧
  ∀ t ∈ s.tasks, t.req = ⟨1, [1]⟩ ∧ t.faults = Faults.none ∧ t.phase.read150

/-- The bookkeeping of the race: there are as many redemption rows as calls that
have inserted, and once a call has answered 201 the balance is 50. -/
def System.RaceCount (s : System) : Prop :=
  s.store.redemptions.length = s.tasks.countP (fun t => t.phase.pastInsert) ∧
  ((∃ t ∈ s.tasks, ∃ id : Int, t.phase = .done { status := 201, body := .id id }) →
    s.store.customers = [raceCustomer 50])

/-! ## Lemmas on the store and on the loop -/

@[simp] theorem findVoucher_record (d : Store) (c : Call) (id : Int) :
    (d.record c).findVoucher id = d.findVoucher id := rfl

@[simp] theorem findCustomer_record (d : Store) (c : Call) (id : Int) :
    (d.record c).findCustomer id = d.findCustomer id := rfl

@[simp] theorem cost_record (d : Store) (c : Call) :
    (d.record c).cost = d.cost := rfl

@[simp] theorem requestedCost_record (d : Store) (c : Call) (ids : List Int) :
    (d.record c).requestedCost ids = d.requestedCost ids := rfl

@[simp] theorem totalFrom_record (d : Store) (c : Call) (t : Int) (ids : List Int) :
    (d.record c).totalFrom t ids = d.totalFrom t ids := rfl

@[simp] theorem sumCost_record (d : Store) (c : Call) (ids : List Int) :
    (d.record c).sumCost ids = d.sumCost ids := rfl

/-- An `int` expression whose exact value is in range has that value. -/
theorem wrapInt_of_range {x : Int} (h1 : minInt ≤ x) (h2 : x ≤ maxInt) : wrapInt x = x := by
  unfold minInt at h1
  unfold maxInt at h2
  unfold wrapInt
  omega

theorem wrapInt_range (x : Int) : minInt ≤ wrapInt x ∧ wrapInt x ≤ maxInt := by
  unfold minInt maxInt wrapInt
  omega

theorem wrapInt_wrapInt_add (a b : Int) : wrapInt (wrapInt a + b) = wrapInt (a + b) := by
  unfold wrapInt
  omega

theorem wrapInt_sub_wrapInt (a b : Int) : wrapInt (a - wrapInt b) = wrapInt (a - b) := by
  unfold wrapInt
  omega

theorem wrapInt_wrapInt (a : Int) : wrapInt (wrapInt a) = wrapInt a := by
  unfold wrapInt
  omega

theorem totalFrom_cons (d : Store) (t : Int) (id : Int) (ids : List Int) :
    d.totalFrom t (id :: ids) = d.totalFrom (wrapInt (t + d.cost id)) ids := rfl

/-- The total of the loop is the exact sum reduced into the range of `int`. -/
theorem totalFrom_wrapInt (d : Store) (ids : List Int) :
    ∀ t : Int, d.totalFrom (wrapInt t) ids = wrapInt (t + d.sumCost ids) := by
  induction ids with
  | nil => intro t; simp [Store.totalFrom, Store.sumCost]
  | cons id ids ih =>
    intro t
    rw [totalFrom_cons, wrapInt_wrapInt_add, ih]
    simp [Store.sumCost, add_assoc]

theorem requestedCost_eq_wrapInt (d : Store) (ids : List Int) :
    d.requestedCost ids = wrapInt (d.sumCost ids) := by
  have h := totalFrom_wrapInt d ids 0
  have h0 : wrapInt 0 = 0 := by decide
  rw [h0, zero_add] at h
  exact h

/-- When the exact sum is in range, the total of the loop is the exact sum. -/
theorem requestedCost_eq_sumCost (d : Store) (ids : List Int)
    (h1 : minInt ≤ d.sumCost ids) (h2 : d.sumCost ids ≤ maxInt) :
    d.requestedCost ids = d.sumCost ids := by
  rw [requestedCost_eq_wrapInt, wrapInt_of_range h1 h2]

theorem pricingLoop_cons (d : Store) (fv : List Bool) (vID : Int) (rest : List Int) (t : Int)
    (items : List RedemptionItem) :
    Handler.pricingLoop d fv (vID :: rest) t items =
      if nextFault fv = true then
        (d.record (.GetVoucher vID), .error (httpError "Voucher not found" 404))
      else
        match d.findVoucher vID with
        | none => (d.record (.GetVoucher vID), .error (httpError "Voucher not found" 404))
        | some v =>
          if v.IsActive = true then
            Handler.pricingLoop (d.record (.GetVoucher vID)) fv.tail rest
              (wrapInt (t + v.PointsCost)) (items ++ [newItem vID v.PointsCost])
          else (d.record (.GetVoucher vID), .error (httpError "Voucher is not active" 400)) := by
  rw [Handler.pricingLoop]
  unfold DB.GetVoucher
  cases hb : nextFault fv
  · cases hv : d.findVoucher vID with
    | none => simp [hv]
    | some v => cases ha : v.IsActive <;> simp [hv, ha]
  · simp

theorem pricingLoop_ok (ids : List Int) : ∀ (d : Store) (fv : List Bool) (t : Int)
    (items : List RedemptionItem) (e : Store) (t' : Int) (items' : List RedemptionItem),
    Handler.pricingLoop d fv ids t items = (e, .ok (t', items')) →
    e = { d with log := d.log ++ ids.map Call.GetVoucher } ∧
    t' = d.totalFrom t ids ∧
    items' = items ++ ids.map (fun id => newItem id (d.cost id)) ∧
    (∀ id ∈ ids, ∃ v, d.findVoucher id = some v ∧ v.IsActive = true) := by
  induction ids with
  | nil =>
    intro d fv t items e t' items' h
    simp [Handler.pricingLoop] at h
    obtain ⟨rfl, rfl, rfl⟩ := h
    simp [Store.totalFrom]
  | cons vID rest ih =>
    intro d fv t items e t' items' h
    rw [pricingLoop_cons] at h
    cases hb : nextFault fv
    · cases hv : d.findVoucher vID with
      | none => simp [hb, hv] at h
      | some v =>
        cases ha : v.IsActive
        · simp [hb, hv, ha] at h
        · simp only [hb, hv, ha, if_true, Bool.false_eq_true, if_false] at h
          obtain ⟨h1, h2, h3, h4⟩ := ih _ _ _ _ _ _ _ h
          have hc : d.cost vID = v.PointsCost := by simp [Store.cost, hv]
          refine ⟨?_, ?_, ?_, ?_⟩
          · rw [h1]; simp [Store.record]
          · rw [h2, totalFrom_record, totalFrom_cons, hc]
          · rw [h3]; simp [hc]
          · intro id hid
            rcases List.mem_cons.1 hid with rfl | hid
            · exact ⟨v, hv, ha⟩
            · simpa using h4 id hid
    · simp [hb] at h

theorem pricingLoop_error (ids : List Int) : ∀ (d : Store) (fv : List Bool) (t : Int)
    (items : List RedemptionItem) (e : Store) (resp : Response),
    Handler.pricingLoop d fv ids t items = (e, .error resp) →
    (∃ n, n < ids.length ∧
      e = { d with log := d.log ++ (ids.take (n + 1)).map Call.GetVoucher } ∧
      ((resp = httpError "Voucher not found" 404 ∧
          (nextFault (fv.drop n) = true ∨ d.findVoucher (ids.getD n 0) = none)) ∨
       (resp = httpError "Voucher is not active" 400 ∧
          ∃ v, d.findVoucher (ids.getD n 0) = some v ∧ v.IsActive = false))) := by
  induction ids with
  | nil =>
    intro d fv t items e resp h
    simp [Handler.pricingLoop] at h
  | cons vID rest ih =>
    intro d fv t items e resp h
    rw [pricingLoop_cons] at h
    cases hb : nextFault fv
    · cases hv : d.findVoucher vID with
      | none =>
        simp only [hb, hv, Bool.false_eq_true, if_false, Prod.mk.injEq, Except.error.injEq] at h
        exact ⟨0, by simp, by simp [← h.1, Store.record], Or.inl ⟨h.2.symm, Or.inr (by simpa using hv)⟩⟩
      | some v =>
        cases ha : v.IsActive
        · simp only [hb, hv, ha, Bool.false_eq_true, if_false, Prod.mk.injEq,
            Except.error.injEq] at h
          exact ⟨0, by simp, by simp [← h.1, Store.record],
            Or.inr ⟨h.2.symm, v, by simpa using hv, ha⟩⟩
        · simp only [hb, hv, ha, if_true, Bool.false_eq_true, if_false] at h
          obtain ⟨n, hn, h1, h2⟩ := ih _ _ _ _ _ _ h
          refine ⟨n + 1, by simpa using hn, ?_, ?_⟩
          · rw [h1]; simp [Store.record]
          · simpa using h2
    · simp only [hb, if_true, Prod.mk.injEq, Except.error.injEq] at h
      exact ⟨0, by simp, by simp [← h.1, Store.record], Or.inl ⟨h.2.symm, Or.inl (by simpa using hb)⟩⟩

theorem pricingLoop_total (ids : List Int) : ∀ (d : Store) (fv : List Bool) (t : Int)
    (items : List RedemptionItem),
    (∀ b ∈ fv, b = false) →
    (∀ id ∈ ids, ∃ v, d.findVoucher id = some v ∧ v.IsActive = true) →
    Handler.pricingLoop d fv ids t items =
      ({ d with log := d.log ++ ids.map Call.GetVoucher },
        .ok (d.totalFrom t ids, items ++ ids.map (fun id => newItem id (d.cost id)))) := by
  induction ids with
  | nil => intro d fv t items _ _; simp [Handler.pricingLoop, Store.totalFrom]
  | cons vID rest ih =>
    intro d fv t items hf hv
    obtain ⟨v, hv1, hv2⟩ := hv vID (by simp)
    have hb : nextFault fv = false := by
      cases fv with
      | nil => rfl
      | cons b tl => exact hf b (by simp)
    have hc : d.cost vID = v.PointsCost := by simp [Store.cost, hv1]
    rw [pricingLoop_cons]
    simp only [hb, hv1, hv2, if_true, Bool.false_eq_true, if_false]
    rw [ih]
    · simp only [cost_record, totalFrom_record, totalFrom_cons]
      simp [Store.record, hc]
    · intro b hb; exact hf b (List.mem_of_mem_tail hb)
    · intro id hid; simpa using hv id (by simp [hid])

theorem findCustomer_id {d : Store} {id : Int} {c : Customer}
    (h : d.findCustomer id = some c) : c.ID = id := by
  have := List.find?_some h
  simpa using this

theorem find?_map_setPoints (cs : List Customer) (id p : Int) :
    (cs.map (fun c => if c.ID == id then { c with PointsBalance := p } else c)).find?
        (fun c => c.ID == id)
      = (cs.find? (fun c => c.ID == id)).map (fun c => { c with PointsBalance := p }) := by
  induction cs with
  | nil => rfl
  | cons c tl ih =>
    rw [List.map_cons, List.find?_cons, List.find?_cons]
    cases hc : c.ID == id
    · simp only [Bool.false_eq_true, if_false, hc]
      exact ih
    · simp only [if_true, hc, Option.map_some']

@[simp] theorem balance_record (d : Store) (c : Call) (id : Int) :
    (d.record c).balance id = d.balance id := rfl

@[simp] theorem balance_insertRedemption (d : Store) (r : Redemption) (id : Int) :
    (d.insertRedemption r).balance id = d.balance id := rfl

theorem balance_setPoints (d : Store) (id p : Int) :
    (d.setPoints id p).balance id = (d.balance id).map (fun _ => p) := by
  unfold Store.balance Store.findCustomer Store.setPoints
  rw [find?_map_setPoints]
  cases List.find? (fun c => c.ID == id) d.customers <;> rfl

theorem callsMade_eq (d e : Store) (cs : List Call) (h : e.log = d.log ++ cs) :
    callsMade d e = cs := by
  simp [callsMade, h]

theorem CreateRedemption_customer_error (d : Store) (f : Faults) (req : RedemptionRequest)
    (h : f.getCustomer = true ∨ d.findCustomer req.CustomerID = none) :
    Handler.CreateRedemption d f (some req) =
      (d.record (.GetCustomer req.CustomerID), httpError "Customer not found" 404) := by
  unfold Handler.CreateRedemption DB.GetCustomer
  rcases h with h | h
  · simp [h]
  · cases hf : f.getCustomer <;> simp [h]

theorem CreateRedemption_loop_error (d : Store) (f : Faults) (req : RedemptionRequest)
    (c : Customer) (e : Store) (resp : Response)
    (hf : f.getCustomer = false) (hc : d.findCustomer req.CustomerID = some c)
    (hl : Handler.pricingLoop (d.record (.GetCustomer req.CustomerID)) f.getVoucher
      req.VoucherIDs 0 [] = (e, .error resp)) :
    Handler.CreateRedemption d f (some req) = (e, resp) := by
  unfold Handler.CreateRedemption DB.GetCustomer
  simp [hf, hc, hl]

theorem CreateRedemption_priced (d : Store) (f : Faults) (req : RedemptionRequest)
    (c : Customer) (e : Store) (t : Int) (items : List RedemptionItem)
    (hf : f.getCustomer = false) (hc : d.findCustomer req.CustomerID = some c)
    (hl : Handler.pricingLoop (d.record (.GetCustomer req.CustomerID)) f.getVoucher
      req.VoucherIDs 0 [] = (e, .ok (t, items))) :
    Handler.CreateRedemption d f (some req) =
      if c.PointsBalance < t then (e, httpError "Insufficient points" 400)
      else if f.createRedemption = true then
        (e.record (.CreateRedemption (newRedemption req.CustomerID t items)),
          httpError DbError.ErrDriver.Error 500)
      else if f.updateCustomerPoints = true then
        (((e.record (.CreateRedemption (newRedemption req.CustomerID t items))).insertRedemption
            (newRedemption req.CustomerID t items)).record
            (.UpdateCustomerPoints req.CustomerID (wrapInt (c.PointsBalance - t))),
          httpError DbError.ErrDriver.Error 500)
      else
        ((((e.record (.CreateRedemption (newRedemption req.CustomerID t items))).insertRedemption
            (newRedemption req.CustomerID t items)).record
            (.UpdateCustomerPoints req.CustomerID (wrapInt (c.PointsBalance - t)))).setPoints
            req.CustomerID (wrapInt (c.PointsBalance - t)),
          { status := 201, body := .id e.nextRedemptionID }) := by
  have hid := findCustomer_id hc
  unfold Handler.CreateRedemption DB.GetCustomer
  simp only [hf, findCustomer_record, hc, hl, Bool.false_eq_true, if_false]
  by_cases hlt : c.PointsBalance < t
  · simp [hlt]
  · simp only [hlt, if_false]
    unfold DB.CreateRedemption DB.UpdateCustomerPoints
    cases h1 : f.createRedemption
    · cases h2 : f.updateCustomerPoints
      · simp [hid]; rfl
      · simp [hid]
    · simp

/-! ## Lemmas on the handler -/

/-- A run that answers 201 went through every step: the customer row exists,
every voucher was found active, the balance covers the total, no store call
failed; the final store and the response are the ones given. -/
theorem CreateRedemption_created (d : Store) (f : Faults) (req : RedemptionRequest)
    (h : (Handler.CreateRedemption d f (some req)).2.status = 201) :
    ∃ c : Customer, d.findCustomer req.CustomerID = some c ∧
      (∀ id ∈ req.VoucherIDs, ∃ v, d.findVoucher id = some v ∧ v.IsActive = true) ∧
      d.requestedCost req.VoucherIDs ≤ c.PointsBalance ∧
      Handler.CreateRedemption d f (some req) =
        (((((d.recordAll (readCalls req)).record
            (.CreateRedemption (newRedemption req.CustomerID (d.requestedCost req.VoucherIDs)
              (pricedItems d req.VoucherIDs)))).insertRedemption
            (newRedemption req.CustomerID (d.requestedCost req.VoucherIDs)
              (pricedItems d req.VoucherIDs))).record
            (.UpdateCustomerPoints req.CustomerID
              (wrapInt (c.PointsBalance - d.requestedCost req.VoucherIDs)))).setPoints
            req.CustomerID (wrapInt (c.PointsBalance - d.requestedCost req.VoucherIDs)),
          { status := 201, body := .id d.nextRedemptionID }) := by
  cases hf : f.getCustomer
  swap
  · rw [CreateRedemption_customer_error d f req (Or.inl hf)] at h
    simp [httpError] at h
  cases hc : d.findCustomer req.CustomerID with
  | none =>
    rw [CreateRedemption_customer_error d f req (Or.inr hc)] at h
    simp [httpError] at h
  | some c =>
    rcases hl : Handler.pricingLoop (d.record (.GetCustomer req.CustomerID)) f.getVoucher
      req.VoucherIDs 0 [] with ⟨e, resp | ⟨t, items⟩⟩
    · rw [CreateRedemption_loop_error d f req c e resp hf hc hl] at h
      obtain ⟨n, -, -, hr | hr⟩ := pricingLoop_error _ _ _ _ _ _ _ hl
      · rw [hr.1] at h; simp [httpError] at h
      · rw [hr.1] at h; simp [httpError] at h
    · obtain ⟨he, ht, hi, hv⟩ := pricingLoop_ok _ _ _ _ _ _ _ _ hl
      simp only [List.nil_append, totalFrom_record, cost_record, findVoucher_record] at ht hi hv
      have ht : t = d.requestedCost req.VoucherIDs := ht
      have hrun := CreateRedemption_priced d f req c e t items hf hc hl
      rw [hrun] at h
      by_cases hlt : c.PointsBalance < t
      · simp [hlt, httpError] at h
      cases h1 : f.createRedemption
      swap
      · simp [hlt, h1, httpError] at h
      cases h2 : f.updateCustomerPoints
      swap
      · simp [hlt, h1, h2, httpError] at h
      have he2 : e = d.recordAll (readCalls req) := by
        rw [he]; simp [Store.record, Store.recordAll, readCalls]
      refine ⟨c, rfl, hv, by rw [← ht]; exact not_lt.1 hlt, ?_⟩
      rw [hrun]
      simp only [hlt, h1, h2, if_false, Bool.false_eq_true]
      subst ht hi he2
      rfl

@[simp] theorem log_record (d : Store) (c : Call) : (d.record c).log = d.log ++ [c] := rfl

@[simp] theorem log_recordAll (d : Store) (cs : List Call) :
    (d.recordAll cs).log = d.log ++ cs := rfl

@[simp] theorem log_insertRedemption (d : Store) (r : Redemption) :
    (d.insertRedemption r).log = d.log := rfl

@[simp] theorem log_setPoints (d : Store) (id p : Int) : (d.setPoints id p).log = d.log := rfl

@[simp] theorem balance_recordAll (d : Store) (cs : List Call) (id : Int) :
    (d.recordAll cs).balance id = d.balance id := rfl

@[simp] theorem redemptions_record (d : Store) (c : Call) :
    (d.record c).redemptions = d.redemptions := rfl

@[simp] theorem redemptions_recordAll (d : Store) (cs : List Call) :
    (d.recordAll cs).redemptions = d.redemptions := rfl

@[simp] theorem redemptions_setPoints (d : Store) (id p : Int) :
    (d.setPoints id p).redemptions = d.redemptions := rfl

@[simp] theorem customers_record (d : Store) (c : Call) :
    (d.record c).customers = d.customers := rfl

@[simp] theorem customers_recordAll (d : Store) (cs : List Call) :
    (d.recordAll cs).customers = d.customers := rfl

@[simp] theorem customers_insertRedemption (d : Store) (r : Redemption) :
    (d.insertRedemption r).customers = d.customers := rfl

theorem balance_of_findCustomer {d : Store} {id : Int} {c : Customer}
    (h : d.findCustomer id = some c) : d.balance id = some c.PointsBalance := by
  simp [Store.balance, h]

/-- Every run of the handler on a decoded request either is rejected during the
reads, having made only some first reads and no write, or passed all reads
(customer found, every voucher found active) and continues as `Handler.commit`. -/
theorem CreateRedemption_cases (d : Store) (f : Faults) (req : RedemptionRequest) :
    (∃ (n : Nat) (resp : Response),
        Handler.CreateRedemption d f (some req) = (d.recordAll ((readCalls req).take n), resp) ∧
        (resp = httpError "Customer not found" 404 ∨ resp = httpError "Voucher not found" 404 ∨
          resp = httpError "Voucher is not active" 400)) ∨
    (∃ c : Customer, d.findCustomer req.CustomerID = some c ∧ f.getCustomer = false ∧
        (∀ id ∈ req.VoucherIDs, ∃ v, d.findVoucher id = some v ∧ v.IsActive = true) ∧
        Handler.CreateRedemption d f (some req) = Handler.commit d f req c) := by
  cases hf : f.getCustomer
  swap
  · left
    refine ⟨1, _, ?_, Or.inl rfl⟩
    rw [CreateRedemption_customer_error d f req (Or.inl hf)]
    rfl
  cases hc : d.findCustomer req.CustomerID with
  | none =>
    left
    refine ⟨1, _, ?_, Or.inl rfl⟩
    rw [CreateRedemption_customer_error d f req (Or.inr hc)]
    rfl
  | some c =>
    rcases hl : Handler.pricingLoop (d.record (.GetCustomer req.CustomerID)) f.getVoucher
      req.VoucherIDs 0 [] with ⟨e, resp | ⟨t, items⟩⟩
    · left
      obtain ⟨n, -, he, hr⟩ := pricingLoop_error _ _ _ _ _ _ _ hl
      refine ⟨n + 2, resp, ?_, ?_⟩
      · rw [CreateRedemption_loop_error d f req c e resp hf hc hl, he]
        simp [Store.record, Store.recordAll, readCalls, List.map_take]
      · rcases hr with hr | hr
        · exact Or.inr (Or.inl hr.1)
        · exact Or.inr (Or.inr hr.1)
    · right
      obtain ⟨he, ht, hi, hv⟩ := pricingLoop_ok _ _ _ _ _ _ _ _ hl
      simp only [List.nil_append, totalFrom_record, cost_record, findVoucher_record] at ht hi hv
      have ht : t = d.requestedCost req.VoucherIDs := ht
      have he2 : e = d.recordAll (readCalls req) := by
        rw [he]; simp [Store.record, Store.recordAll, readCalls]
      refine ⟨c, rfl, rfl, hv, ?_⟩
      rw [CreateRedemption_priced d f req c e t items hf hc hl]
      subst ht hi he2
      rfl

/-! ## The claims -/

theorem callsMade_self (d : Store) : callsMade d d = [] := by
  simp [callsMade]

theorem callsMade_recordAll (d : Store) (cs : List Call) : callsMade d (d.recordAll cs) = cs :=
  callsMade_eq d _ cs rfl

/-- The calls of a run that passed the reads. -/
theorem callsMade_commit (d : Store) (f : Faults) (req : RedemptionRequest) (c : Customer) :
    callsMade d (Handler.commit d f req c).1 =
      readCalls req ++
        (if c.PointsBalance < d.requestedCost req.VoucherIDs then []
         else if f.createRedemption = true then
          [Call.CreateRedemption (newRedemption req.CustomerID (d.requestedCost req.VoucherIDs)
            (pricedItems d req.VoucherIDs))]
         else
          [Call.CreateRedemption (newRedemption req.CustomerID (d.requestedCost req.VoucherIDs)
            (pricedItems d req.VoucherIDs)),
           Call.UpdateCustomerPoints req.CustomerID
            (wrapInt (c.PointsBalance - d.requestedCost req.VoucherIDs))]) := by
  apply callsMade_eq
  unfold Handler.commit
  by_cases h1 : c.PointsBalance < d.requestedCost req.VoucherIDs
  · simp [h1]
  · by_cases h2 : f.createRedemption = true
    · simp [h1, h2]
    · by_cases h3 : f.updateCustomerPoints = true
      · simp [h1, h2, h3]
      · simp [h1, h2, h3]

theorem not_isWrite_of_mem_readCalls (req : RedemptionRequest) (c : Call)
    (h : c ∈ readCalls req) : c.isWrite = false := by
  simp only [readCalls, List.mem_cons, List.mem_map] at h
  rcases h with rfl | ⟨id, -, rfl⟩ <;> rfl

/-- C2 (atomicity) fails as stated: when the insert succeeds and the debit fails, the handler
answers 500, the balance is unchanged, and the redemption row of this call is in
the store. -/
theorem C2_atomicity_counterexample :
    (Handler.CreateRedemption (demoStore 1000)
        { getCustomer := false, getVoucher := [], createRedemption := false,
          updateCustomerPoints := true } (some ⟨1, [1]⟩)).2.status = 500 ∧
    (Handler.CreateRedemption (demoStore 1000)
        { getCustomer := false, getVoucher := [], createRedemption := false,
          updateCustomerPoints := true } (some ⟨1, [1]⟩)).1.balance 1 = some 1000 ∧
    (demoStore 1000).redemptions = [] ∧
    (Handler.CreateRedemption (demoStore 1000)
        { getCustomer := false, getVoucher := [], createRedemption := false,
          updateCustomerPoints := true } (some ⟨1, [1]⟩)).1.redemptions =
      [{ id := 1, customer_id := 1, total_points_cost := 100, status := "pending",
         created_at := 1000, updated_at := 1000 }] := by
  decide

/-- C2 as amended.  When the handler returns an error (any response other than 201), the
customers table, hence every balance, is unchanged.  If `UpdateCustomerPoints`
was not called, no redemption row was created.  If it was called (and failed),
the response is 500 and the one row inserted just before it is in the store. -/
theorem C2_atomicity_amended (d : Store) (f : Faults) (body : Option RedemptionRequest)
    (h : (Handler.CreateRedemption d f body).2.status ≠ 201) :
    (Handler.CreateRedemption d f body).1.customers = d.customers ∧
    ((∀ id p, Call.UpdateCustomerPoints id p ∉
        callsMade d (Handler.CreateRedemption d f body).1) →
      (Handler.CreateRedemption d f body).1.redemptions = d.redemptions) ∧
    ((∃ id p, Call.UpdateCustomerPoints id p ∈
        callsMade d (Handler.CreateRedemption d f body).1) →
      (Handler.CreateRedemption d f body).2.status = 500 ∧
      ∃ row : RedemptionRow, row.id = d.nextRedemptionID ∧
        (Handler.CreateRedemption d f body).1.redemptions = d.redemptions ++ [row]) := by
  cases body with
  | none =>
    have hrun : Handler.CreateRedemption d f none = (d, httpError "invalid request body" 400) := rfl
    rw [hrun]
    simp [callsMade_self]
  | some req =>
    rcases CreateRedemption_cases d f req with ⟨n, resp, hrun, -⟩ | ⟨c, -, -, -, hrun⟩
    · rw [hrun]
      simp only [customers_recordAll, redemptions_recordAll, callsMade_recordAll, true_and]
      refine ⟨fun _ => trivial, ?_⟩
      rintro ⟨id, p, hmem⟩
      have := not_isWrite_of_mem_readCalls req _ (List.mem_of_mem_take hmem)
      simp [Call.isWrite] at this
    · rw [hrun] at h ⊢
      rw [callsMade_commit]
      unfold Handler.commit at h ⊢
      have hro : ∀ id p, Call.UpdateCustomerPoints id p ∉ readCalls req := by
        intro id p hmem
        have := not_isWrite_of_mem_readCalls req _ hmem
        simp [Call.isWrite] at this
      by_cases h1 : c.PointsBalance < d.requestedCost req.VoucherIDs
      · simp [h1, hro]
      · by_cases h2 : f.createRedemption = true
        · simp [h1, h2, hro]
        · by_cases h3 : f.updateCustomerPoints = true
          · simp [h1, h2, h3, hro, httpError, Store.insertRedemption]
            rfl
          · simp [h1, h2, h3] at h

/-- C2 as amended, on an input where the insert fails: 500, nothing written. -/
theorem C2_atomicity_amended_witness :
    (Handler.CreateRedemption (demoStore 1000)
        { getCustomer := false, getVoucher := [], createRedemption := true,
          updateCustomerPoints := false } (some ⟨1, [1]⟩)).2.status ≠ 201 ∧
    (Handler.CreateRedemption (demoStore 1000)
        { getCustomer := false, getVoucher := [], createRedemption := true,
          updateCustomerPoints := false } (some ⟨1, [1]⟩)).1.customers =
      (demoStore 1000).customers :=
  ⟨by decide,
   (C2_atomicity_amended (demoStore 1000)
      { getCustomer := false, getVoucher := [], createRedemption := true,
        updateCustomerPoints := false } (some ⟨1, [1]⟩) (by decide)).1⟩

/-- A run whose reads all succeed continues as `Handler.commit`. -/
theorem CreateRedemption_valid (d : Store) (f : Faults) (req : RedemptionRequest) (c : Customer)
    (hf : f.getCustomer = false) (hc : d.findCustomer req.CustomerID = some c)
    (hfv : ∀ b ∈ f.getVoucher, b = false)
    (hv : ∀ id ∈ req.VoucherIDs, ∃ v, d.findVoucher id = some v ∧ v.IsActive = true) :
    Handler.CreateRedemption d f (some req) = Handler.commit d f req c := by
  have hl := pricingLoop_total req.VoucherIDs (d.record (.GetCustomer req.CustomerID))
    f.getVoucher 0 [] hfv (by simpa using hv)
  rw [CreateRedemption_priced d f req c _ _ _ hf hc hl]
  simp only [zero_add, List.nil_append, requestedCost_record, cost_record]
  have he2 : ({ d.record (.GetCustomer req.CustomerID) with
      log := (d.record (.GetCustomer req.CustomerID)).log ++
        req.VoucherIDs.map Call.GetVoucher } : Store) = d.recordAll (readCalls req) := by
    simp [Store.record, Store.recordAll, readCalls]
  rw [he2]
  rfl

/-- The handler rejects a request with a missing or inactive voucher (or a failed
lookup) without any write: the tables are unchanged and no write call is made. -/
theorem CreateRedemption_rejects_missing_or_inactive (d : Store) (f : Faults)
    (req : RedemptionRequest) (id : Int) (hid : id ∈ req.VoucherIDs)
    (h : d.findVoucher id = none ∨ ∃ v, d.findVoucher id = some v ∧ v.IsActive = false) :
    ((Handler.CreateRedemption d f (some req)).2.status = 404 ∨
      (Handler.CreateRedemption d f (some req)).2.status = 400) ∧
    (Handler.CreateRedemption d f (some req)).1.customers = d.customers ∧
    (Handler.CreateRedemption d f (some req)).1.redemptions = d.redemptions ∧
    ∀ call ∈ callsMade d (Handler.CreateRedemption d f (some req)).1, call.isWrite = false := by
  rcases CreateRedemption_cases d f req with ⟨n, resp, hrun, hr⟩ | ⟨c, -, -, hv, -⟩
  · rw [hrun]
    simp only [customers_recordAll, redemptions_recordAll, callsMade_recordAll, true_and]
    refine ⟨?_, fun call hc => not_isWrite_of_mem_readCalls req _ (List.mem_of_mem_take hc)⟩
    rcases hr with rfl | rfl | rfl <;> simp [httpError]
  · obtain ⟨v, h1, h2⟩ := hv id hid
    rcases h with h | ⟨w, h3, h4⟩
    · rw [h] at h1; cases h1
    · rw [h3] at h1; cases h1; rw [h2] at h4; cases h4

/-- C4 (no commit on an invalid voucher) is broken by the code for expired vouchers: voucher 1
is active with `valid_until` 500, which is set and before the instant 1000 of
the request, yet the handler answers 201, inserts the redemption and debits 100. -/
theorem C4_expired_voucher_redeemed :
    (expiredStore.findVoucher 1).map (fun v => v.expiredAt expiredStore.clock) = some true ∧
    (Handler.CreateRedemption expiredStore Faults.none (some ⟨1, [1]⟩)).2.status = 201 ∧
    (Handler.CreateRedemption expiredStore Faults.none (some ⟨1, [1]⟩)).1.balance 1 = some 900 ∧
    (Handler.CreateRedemption expiredStore Faults.none (some ⟨1, [1]⟩)).1.redemptions =
      [{ id := 1, customer_id := 1, total_points_cost := 100, status := "pending",
         created_at := 1000, updated_at := 1000 }] := by
  decide

theorem itemsCost_pricedItems (d : Store) (ids : List Int) :
    itemsCost (pricedItems d ids) = d.sumCost ids := by
  simp [itemsCost, pricedItems, Store.sumCost, newItem, Function.comp_def]

/-- The write calls of a run: none, or the insert of the redemption built from the
request, followed or not by the debit. -/
theorem createRedemption_call_eq (d : Store) (f : Faults) (body : Option RedemptionRequest)
    (r : Redemption)
    (h : Call.CreateRedemption r ∈ callsMade d (Handler.CreateRedemption d f body).1) :
    ∃ req, body = some req ∧
      r = newRedemption req.CustomerID (d.requestedCost req.VoucherIDs)
        (pricedItems d req.VoucherIDs) := by
  cases body with
  | none =>
    have hrun : Handler.CreateRedemption d f none = (d, httpError "invalid request body" 400) := rfl
    rw [hrun] at h
    simp [callsMade_self] at h
  | some req =>
    refine ⟨req, rfl, ?_⟩
    rcases CreateRedemption_cases d f req with ⟨n, resp, hrun, -⟩ | ⟨c, -, -, -, hrun⟩
    · rw [hrun] at h
      simp only [callsMade_recordAll] at h
      have := not_isWrite_of_mem_readCalls req _ (List.mem_of_mem_take h)
      simp [Call.isWrite] at this
    · rw [hrun, callsMade_commit] at h
      rcases List.mem_append.1 h with h | h
      · have := not_isWrite_of_mem_readCalls req _ h
        simp [Call.isWrite] at this
      · by_cases h1 : c.PointsBalance < d.requestedCost req.VoucherIDs
        · simp [h1] at h
        · by_cases h2 : f.createRedemption = true
          · simpa [h1, h2] using h
          · simpa [h1, h2] using h

/-- C8 (non-empty request) is broken by the code: on a request with an empty `voucher_ids` the
handler answers 201, having passed to the store a redemption with no item (one
that `Redemption.Validate` rejects with `ErrNoItems`) and having inserted its
row with total 0. -/
theorem C8_empty_request_accepted :
    (Handler.CreateRedemption (demoStore 1000) Faults.none (some ⟨1, []⟩)).2.status = 201 ∧
    callsMade (demoStore 1000)
        (Handler.CreateRedemption (demoStore 1000) Faults.none (some ⟨1, []⟩)).1 =
      [Call.GetCustomer 1, Call.CreateRedemption (newRedemption 1 0 []),
       Call.UpdateCustomerPoints 1 1000] ∧
    (newRedemption 1 0 []).Validate = some ModelError.ErrNoItems ∧
    (Handler.CreateRedemption (demoStore 1000) Faults.none (some ⟨1, []⟩)).1.redemptions =
      [{ id := 1, customer_id := 1, total_points_cost := 0, status := "pending",
         created_at := 1000, updated_at := 1000 }] := by
  decide

theorem pricedItems_append (d : Store) (xs ys : List Int) :
    pricedItems d (xs ++ ys) = pricedItems d xs ++ pricedItems d ys := by
  simp [pricedItems]

/-- The calls of a run that answers 201: the reads, the insert, the debit. -/
theorem callsMade_created (d : Store) (f : Faults) (req : RedemptionRequest)
    (h : (Handler.CreateRedemption d f (some req)).2.status = 201) :
    ∃ c : Customer, d.findCustomer req.CustomerID = some c ∧
      callsMade d (Handler.CreateRedemption d f (some req)).1 =
        readCalls req ++
          [Call.CreateRedemption (newRedemption req.CustomerID (d.requestedCost req.VoucherIDs)
              (pricedItems d req.VoucherIDs)),
           Call.UpdateCustomerPoints req.CustomerID
              (wrapInt (c.PointsBalance - d.requestedCost req.VoucherIDs))] := by
  obtain ⟨c, hc, -, -, hrun⟩ := CreateRedemption_created d f req h
  refine ⟨c, hc, ?_⟩
  apply callsMade_eq
  rw [hrun]
  simp

/-- C10 (frozen item prices in request order).  On every run that answers 201 exactly one
Redemption `r` is passed to the store; its `Items` have the length of
`voucher_ids`, and item `i` carries `voucher_ids[i]` and the `points_cost` of
the voucher the store holds for that id during the run.  The items are values
of the redemption: whatever the vouchers table becomes afterwards, the
redemption that was passed is the same. -/
theorem C10_items_frozen_in_order (d : Store) (f : Faults) (req : RedemptionRequest)
    (h : (Handler.CreateRedemption d f (some req)).2.status = 201) :
    ∃ r : Redemption,
      Call.CreateRedemption r ∈ callsMade d (Handler.CreateRedemption d f (some req)).1 ∧
      (∀ r2, Call.CreateRedemption r2 ∈
          callsMade d (Handler.CreateRedemption d f (some req)).1 → r2 = r) ∧
      r.Items.length = req.VoucherIDs.length ∧
      (∀ (i : Nat) (id : Int), req.VoucherIDs[i]? = some id →
        ∃ (v : Voucher) (item : RedemptionItem),
          (DB.GetVoucher d false id).2 = .ok v ∧ r.Items[i]? = some item ∧
          item.VoucherID = id ∧ item.PointsCost = v.PointsCost) ∧
      (∀ vs : List Voucher, Call.CreateRedemption r ∈
        callsMade d { (Handler.CreateRedemption d f (some req)).1 with vouchers := vs }) := by
  obtain ⟨c, -, hv, -, -⟩ := CreateRedemption_created d f req h
  obtain ⟨c2, -, hcalls⟩ := callsMade_created d f req h
  have hmem : Call.CreateRedemption (newRedemption req.CustomerID
      (d.requestedCost req.VoucherIDs) (pricedItems d req.VoucherIDs)) ∈
      callsMade d (Handler.CreateRedemption d f (some req)).1 := by
    rw [hcalls]; simp
  refine ⟨_, hmem, ?_, ?_, ?_, ?_⟩
  · intro r2 h2
    obtain ⟨req2, hreq, rfl⟩ := createRedemption_call_eq d f (some req) r2 h2
    cases hreq
    rfl
  · simp [newRedemption, pricedItems]
  · intro i id hi
    obtain ⟨v, hv1, -⟩ := hv id (List.getElem?_mem hi)
    refine ⟨v, newItem id v.PointsCost, ?_, ?_, rfl, rfl⟩
    · simp [DB.GetVoucher, hv1]
    · simp [newRedemption, pricedItems, List.getElem?_map, hi, Store.cost, hv1]
  · intro vs
    exact hmem

/-- C10 on the scenario of the specification: items (1, 100) and (2, 200), in this order. -/
theorem C10_items_frozen_in_order_witness :
    callsMade (demoStore 1000)
        (Handler.CreateRedemption (demoStore 1000) Faults.none (some ⟨1, [1, 2]⟩)).1 =
      [Call.GetCustomer 1, Call.GetVoucher 1, Call.GetVoucher 2,
       Call.CreateRedemption (newRedemption 1 300 [newItem 1 100, newItem 2 200]),
       Call.UpdateCustomerPoints 1 700] ∧
    ∃ r : Redemption,
      Call.CreateRedemption r ∈ callsMade (demoStore 1000)
        (Handler.CreateRedemption (demoStore 1000) Faults.none (some ⟨1, [1, 2]⟩)).1 ∧
      (∀ r2, Call.CreateRedemption r2 ∈ callsMade (demoStore 1000)
        (Handler.CreateRedemption (demoStore 1000) Faults.none (some ⟨1, [1, 2]⟩)).1 → r2 = r) ∧
      r.Items.length = [(1 : Int), 2].length ∧
      (∀ (i : Nat) (id : Int), [(1 : Int), 2][i]? = some id →
        ∃ (v : Voucher) (item : RedemptionItem),
          (DB.GetVoucher (demoStore 1000) false id).2 = .ok v ∧ r.Items[i]? = some item ∧
          item.VoucherID = id ∧ item.PointsCost = v.PointsCost) ∧
      (∀ vs : List Voucher, Call.CreateRedemption r ∈
        callsMade (demoStore 1000)
          { (Handler.CreateRedemption (demoStore 1000) Faults.none (some ⟨1, [1, 2]⟩)).1 with
            vouchers := vs }) :=
  ⟨by decide, C10_items_frozen_in_order (demoStore 1000) Faults.none ⟨1, [1, 2]⟩ (by decide)⟩

/-- The handler is its reads followed by `Handler.writes`. -/
theorem CreateRedemption_eq_writes (d : Store) (f : Faults) (req : RedemptionRequest) :
    Handler.CreateRedemption d f (some req) =
      match DB.GetCustomer d f.getCustomer req.CustomerID with
      | (d1, .error _) => (d1, httpError "Customer not found" 404)
      | (d1, .ok customer) =>
        match Handler.pricingLoop d1 f.getVoucher req.VoucherIDs 0 [] with
        | (d2, .error resp) => (d2, resp)
        | (d2, .ok (totalPoints, items)) =>
          Handler.writes d2 f req.CustomerID customer totalPoints items := rfl

theorem Task.iter_done (n : Nat) (d : Store) (req : RedemptionRequest) (f : Faults)
    (resp : Response) :
    Task.iter n d { req := req, faults := f, phase := .done resp } =
      (d, { req := req, faults := f, phase := .done resp }) := by
  induction n with
  | zero => rfl
  | succ n ih => simpa [Task.iter, Task.step] using ih

/-- From the balance check on, two steps of a call do what the handler does. -/
theorem Task.iter_writes (n : Nat) (hn : 2 ≤ n) (d : Store) (req : RedemptionRequest)
    (f : Faults) (c : Customer) (fv : List Bool) (t : Int) (items : List RedemptionItem) :
    Task.iter n d { req := req, faults := f, phase := .pricing c fv [] t items } =
      ((Handler.writes d f req.CustomerID c t items).1,
        { req := req, faults := f,
          phase := .done (Handler.writes d f req.CustomerID c t items).2 }) := by
  obtain ⟨m, rfl⟩ : ∃ m, n = m + 2 := ⟨n - 2, by omega⟩
  simp only [Task.iter, Task.step, Handler.writes]
  by_cases hlt : c.PointsBalance < t
  · simp only [hlt, if_true]
    exact Task.iter_done _ _ _ _ _
  · simp only [hlt, if_false]
    cases hcr : f.createRedemption
    · simp only [DB.CreateRedemption, Bool.false_eq_true, if_false, Task.step]
      cases hup : f.updateCustomerPoints
      · simp only [DB.UpdateCustomerPoints, Bool.false_eq_true, if_false]
        exact Task.iter_done _ _ _ _ _
      · simp only [DB.UpdateCustomerPoints, if_true]
        exact Task.iter_done _ _ _ _ _
    · simp only [DB.CreateRedemption, if_true, Task.step]
      exact Task.iter_done _ _ _ _ _

/-- In the loop, the steps of a call do what the loop of the handler does. -/
theorem Task.iter_pricing (req : RedemptionRequest) (f : Faults) (c : Customer)
    (rest : List Int) : ∀ (n : Nat) (d : Store) (fv : List Bool) (t : Int)
    (items : List RedemptionItem), rest.length + 2 ≤ n →
    Task.iter n d { req := req, faults := f, phase := .pricing c fv rest t items } =
      match Handler.pricingLoop d fv rest t items with
      | (e, .error resp) => (e, { req := req, faults := f, phase := .done resp })
      | (e, .ok (t2, items2)) =>
        ((Handler.writes e f req.CustomerID c t2 items2).1,
          { req := req, faults := f,
            phase := .done (Handler.writes e f req.CustomerID c t2 items2).2 }) := by
  induction rest with
  | nil =>
    intro n d fv t items hn
    simp only [Handler.pricingLoop]
    exact Task.iter_writes n (by simpa using hn) d req f c fv t items
  | cons vID rest ih =>
    intro n d fv t items hn
    obtain ⟨m, rfl⟩ : ∃ m, n = m + 1 := ⟨n - 1, by simp at hn; omega⟩
    have hm : rest.length + 2 ≤ m := by simp at hn; omega
    rw [pricingLoop_cons]
    simp only [Task.iter, Task.step, DB.GetVoucher]
    cases hb : nextFault fv
    · cases hv : d.findVoucher vID with
      | none =>
        simp only [Bool.false_eq_true, if_false, findVoucher_record, hv]
        exact Task.iter_done _ _ _ _ _
      | some v =>
        cases ha : v.IsActive
        · simp only [Bool.false_eq_true, if_false, findVoucher_record, hv, ha, Bool.not_false,
            if_true]
          exact Task.iter_done _ _ _ _ _
        · simp only [Bool.false_eq_true, if_false, findVoucher_record, hv, ha, Bool.not_true,
            if_true]
          exact ih m _ _ _ _ hm
    · simp only [if_true]
      exact Task.iter_done _ _ _ _ _

/-- A call left to run alone does what `Handler.CreateRedemption` does: after one step
per store call (at most the number of vouchers plus three) it has returned with
the response of the handler, and the store is the store the handler leaves. -/
theorem Task.iter_start (d : Store) (f : Faults) (req : RedemptionRequest) (n : Nat)
    (hn : req.VoucherIDs.length + 3 ≤ n) :
    Task.iter n d { req := req, faults := f, phase := .start } =
      ((Handler.CreateRedemption d f (some req)).1,
        { req := req, faults := f,
          phase := .done (Handler.CreateRedemption d f (some req)).2 }) := by
  obtain ⟨m, rfl⟩ : ∃ m, n = m + 1 := ⟨n - 1, by omega⟩
  have hm : req.VoucherIDs.length + 2 ≤ m := by omega
  rw [CreateRedemption_eq_writes]
  simp only [Task.iter, Task.step, DB.GetCustomer]
  cases hf : f.getCustomer
  · cases hc : d.findCustomer req.CustomerID with
    | none =>
      simp only [Bool.false_eq_true, if_false, findCustomer_record, hc]
      exact Task.iter_done _ _ _ _ _
    | some c =>
      simp only [Bool.false_eq_true, if_false, findCustomer_record, hc]
      rw [Task.iter_pricing req f c req.VoucherIDs m _ _ _ _ hm]
      rcases Handler.pricingLoop (d.record (.GetCustomer req.CustomerID)) f.getVoucher
        req.VoucherIDs 0 [] with ⟨e, resp | ⟨t, items⟩⟩ <;> rfl
  · simp only [if_true]
    exact Task.iter_done _ _ _ _ _

theorem Phase.inRace_mono {b : Int} {ph : Phase} (h : ph.inRace b) : ph.inRace 50 := by
  rcases h with h | ⟨sb, hsb, h⟩ | ⟨sb, hsb, h⟩ | h | h | ⟨h, -⟩
  · exact Or.inl h
  · refine Or.inr (Or.inl ⟨sb, ?_, h⟩); rcases hsb with h1 | ⟨h1, -⟩
    · exact Or.inl h1
    · exact Or.inr ⟨h1, rfl⟩
  · refine Or.inr (Or.inr (Or.inl ⟨sb, ?_, h⟩)); rcases hsb with h1 | ⟨h1, -⟩
    · exact Or.inl h1
    · exact Or.inr ⟨h1, rfl⟩
  · exact Or.inr (Or.inr (Or.inr (Or.inl h)))
  · exact Or.inr (Or.inr (Or.inr (Or.inr (Or.inl h))))
  · exact Or.inr (Or.inr (Or.inr (Or.inr (Or.inr ⟨h, rfl⟩))))

theorem Task.step_start (d : Store) (req : RedemptionRequest) (c : Customer)
    (hc : d.findCustomer req.CustomerID = some c) :
    Task.step d { req := req, faults := Faults.none, phase := .start } =
      (d.record (.GetCustomer req.CustomerID),
        { req := req, faults := Faults.none, phase := .pricing c [] req.VoucherIDs 0 [] }) := by
  simp [Task.step, DB.GetCustomer, Faults.none, hc]

theorem Task.step_voucher (d : Store) (req : RedemptionRequest) (c : Customer) (v : Voucher)
    (vID : Int) (rest : List Int) (t : Int) (items : List RedemptionItem)
    (hv : d.findVoucher vID = some v) (ha : v.IsActive = true) :
    Task.step d { req := req, faults := Faults.none,
                  phase := .pricing c [] (vID :: rest) t items } =
      (d.record (.GetVoucher vID),
        { req := req, faults := Faults.none,
          phase := .pricing c [] rest (wrapInt (t + v.PointsCost))
            (items ++ [newItem vID v.PointsCost]) }) := by
  simp [Task.step, DB.GetVoucher, nextFault, hv, ha]

theorem Task.step_reject (d : Store) (req : RedemptionRequest) (c : Customer) (t : Int)
    (items : List RedemptionItem) (hlt : c.PointsBalance < t) :
    Task.step d { req := req, faults := Faults.none, phase := .pricing c [] [] t items } =
      (d, { req := req, faults := Faults.none,
            phase := .done (httpError "Insufficient points" 400) }) := by
  simp [Task.step, hlt]

theorem Task.step_insert (d : Store) (req : RedemptionRequest) (c : Customer) (t : Int)
    (items : List RedemptionItem) (hle : t ≤ c.PointsBalance) :
    Task.step d { req := req, faults := Faults.none, phase := .pricing c [] [] t items } =
      ((d.record (.CreateRedemption (newRedemption req.CustomerID t items))).insertRedemption
          (newRedemption req.CustomerID t items),
        { req := req, faults := Faults.none,
          phase := .inserted c t d.nextRedemptionID }) := by
  simp only [Task.step, not_lt.2 hle, if_false, DB.CreateRedemption, Faults.none,
    Bool.false_eq_true]
  rfl

theorem Task.step_debit (d : Store) (req : RedemptionRequest) (c : Customer) (t id : Int) :
    Task.step d { req := req, faults := Faults.none, phase := .inserted c t id } =
      ((d.record (.UpdateCustomerPoints c.ID (wrapInt (c.PointsBalance - t)))).setPoints c.ID
          (wrapInt (c.PointsBalance - t)),
        { req := req, faults := Faults.none,
          phase := .done { status := 201, body := .id id } }) := by
  simp [Task.step, DB.UpdateCustomerPoints, Faults.none]

theorem Task.step_done (d : Store) (req : RedemptionRequest) (f : Faults) (resp : Response) :
    Task.step d { req := req, faults := f, phase := .done resp } =
      (d, { req := req, faults := f, phase := .done resp }) := rfl

/-- One step of a call of the race. -/
theorem Task.step_race (d : Store) (t : Task) (b : Int) (hb : b = 150 ∨ b = 50)
    (hcust : d.customers = [raceCustomer b]) (hvs : d.vouchers = raceStore.vouchers)
    (hlog : ∀ id p, Call.UpdateCustomerPoints id p ∈ d.log → id = 1 ∧ p = 50)
    (ht : t.inRace b) :
    ∃ b2 : Int, (b2 = b ∨ (b2 = 50 ∧ ∃ id, (t.step d).2.phase =
        .done { status := 201, body := .id id })) ∧
      (t.step d).1.customers = [raceCustomer b2] ∧
      (t.step d).1.vouchers = raceStore.vouchers ∧
      (t.step d).2.inRace b2 ∧
      (∀ id p, Call.UpdateCustomerPoints id p ∈ (t.step d).1.log → id = 1 ∧ p = 50) ∧
      (∀ resp, t.phase = .done resp → (t.step d).2 = t) := by
  obtain ⟨req, f, phase⟩ := t
  obtain ⟨hreq, hf, hph⟩ := ht
  simp only at hreq hf hph
  subst hreq hf
  have hfc : d.findCustomer 1 = some (raceCustomer b) := by
    simp [Store.findCustomer, hcust, raceCustomer]
  have hfv : d.findVoucher 1 = some
      { ID := 1, BrandID := 1, Code := "V1", Name := "Voucher 1", Description := "",
        PointsCost := 100, IsActive := true, ValidUntil := 0, CreatedAt := 0,
        UpdatedAt := 0 } := by
    simp [Store.findVoucher, hvs, raceStore]
  have hlog1 : ∀ (c : Call), c.isWrite = false → ∀ id p,
      Call.UpdateCustomerPoints id p ∈ (d.record c).log → id = 1 ∧ p = 50 := by
    intro c hc id p hmem
    simp only [log_record, List.mem_append, List.mem_singleton] at hmem
    rcases hmem with hmem | rfl
    · exact hlog id p hmem
    · simp [Call.isWrite] at hc
  rcases hph with h | ⟨sb, hsb, h⟩ | ⟨sb, hsb, h⟩ | ⟨id, h⟩ | ⟨id, h⟩ | ⟨h, hb50⟩
  · subst h
    rw [Task.step_start d ⟨1, [1]⟩ _ hfc]
    refine ⟨b, Or.inl rfl, hcust, hvs, ⟨rfl, rfl, Or.inr (Or.inl ⟨b, ?_, rfl⟩)⟩,
      hlog1 _ rfl, fun resp h => by cases h⟩
    rcases hb with hb | hb
    · exact Or.inl hb
    · exact Or.inr ⟨hb, hb⟩
  · subst h
    rw [Task.step_voucher d ⟨1, [1]⟩ _ _ 1 [] 0 [] hfv rfl]
    exact ⟨b, Or.inl rfl, hcust, hvs, ⟨rfl, rfl, Or.inr (Or.inr (Or.inl ⟨sb, hsb, rfl⟩))⟩,
      hlog1 _ rfl, fun resp h => by cases h⟩
  · subst h
    rcases hsb with hsb | ⟨hsb, hb50⟩
    · subst hsb
      rw [Task.step_insert d ⟨1, [1]⟩ (raceCustomer 150) 100 _ (by simp [raceCustomer])]
      refine ⟨b, Or.inl rfl, hcust, hvs, ⟨rfl, rfl, Or.inr (Or.inr (Or.inr (Or.inl ⟨_, rfl⟩)))⟩,
        ?_, fun resp h => by cases h⟩
      intro id p hmem
      simp only [log_insertRedemption, log_record, List.mem_append, List.mem_singleton] at hmem
      rcases hmem with hmem | hmem
      · exact hlog id p hmem
      · cases hmem
    · subst hsb
      rw [Task.step_reject d ⟨1, [1]⟩ (raceCustomer 50) 100 _ (by simp [raceCustomer])]
      exact ⟨b, Or.inl rfl, hcust, hvs,
        ⟨rfl, rfl, Or.inr (Or.inr (Or.inr (Or.inr (Or.inr ⟨rfl, hb50⟩))))⟩,
        hlog, fun resp h => by cases h⟩
  · subst h
    rw [Task.step_debit]
    refine ⟨50, Or.inr ⟨rfl, id, rfl⟩, ?_, hvs,
      ⟨rfl, rfl, Or.inr (Or.inr (Or.inr (Or.inr (Or.inl ⟨id, rfl⟩))))⟩, ?_,
      fun resp h => by cases h⟩
    · have hw : wrapInt 50 = 50 := by decide
      simp [Store.setPoints, hcust, raceCustomer, hw]
    · intro id2 p hmem
      simp only [log_setPoints, log_record, List.mem_append, List.mem_singleton,
        Call.UpdateCustomerPoints.injEq] at hmem
      rcases hmem with hmem | ⟨rfl, rfl⟩
      · exact hlog id2 p hmem
      · have hw : wrapInt 50 = 50 := by decide
        simp [raceCustomer, hw]
  · subst h
    exact ⟨b, Or.inl rfl, hcust, hvs,
      ⟨rfl, rfl, Or.inr (Or.inr (Or.inr (Or.inr (Or.inl ⟨id, rfl⟩))))⟩, hlog, fun _ _ => rfl⟩
  · subst h
    exact ⟨b, Or.inl rfl, hcust, hvs,
      ⟨rfl, rfl, Or.inr (Or.inr (Or.inr (Or.inr (Or.inr ⟨rfl, hb50⟩))))⟩, hlog, fun _ _ => rfl⟩

theorem System.step_raceInv (s : System) (i : Nat) (h : s.RaceInv) : (s.step i).RaceInv := by
  obtain ⟨b, hb, hcust, hvs, htasks, h50, hlog⟩ := h
  unfold System.step
  cases hti : s.tasks[i]? with
  | none => exact ⟨b, hb, hcust, hvs, htasks, h50, hlog⟩
  | some t =>
    have hi : i < s.tasks.length := (List.getElem?_eq_some.1 hti).1
    obtain ⟨b2, hb2, hc2, hv2, ht2, hl2, hdone⟩ :=
      Task.step_race s.store t b hb hcust hvs hlog (htasks t (List.getElem?_mem hti))
    refine ⟨b2, ?_, hc2, hv2, ?_, ?_, hl2⟩
    · rcases hb2 with rfl | ⟨rfl, -⟩
      · exact hb
      · exact Or.inr rfl
    · intro u hu
      rcases List.mem_or_eq_of_mem_set hu with hu | rfl
      · obtain ⟨h1, h2, h3⟩ := htasks u hu
        rcases hb2 with rfl | ⟨rfl, -⟩
        · exact ⟨h1, h2, h3⟩
        · exact ⟨h1, h2, Phase.inRace_mono h3⟩
      · exact ht2
    · intro hb50
      rcases hb2 with rfl | ⟨-, id, hid⟩
      · obtain ⟨j, u, id, hj, hu⟩ := h50 hb50
        by_cases hij : i = j
        · subst hij
          rw [hti] at hj
          cases hj
          refine ⟨i, (t.step s.store).2, id, List.getElem?_set_self hi, ?_⟩
          rw [hdone _ hu]; exact hu
        · exact ⟨j, u, id, by rw [List.getElem?_set_ne hij]; exact hj, hu⟩
      · exact ⟨i, (t.step s.store).2, id, List.getElem?_set_self hi, hid⟩

theorem System.run_raceInv (sched : List Nat) :
    ∀ s : System, s.RaceInv → (s.run sched).RaceInv := by
  induction sched with
  | nil => intro s h; exact h
  | cons i sched ih => intro s h; exact ih _ (System.step_raceInv s i h)

theorem raceSystem_raceInv : raceSystem.RaceInv := by
  refine ⟨150, Or.inl rfl, rfl, rfl, ?_, ?_, ?_⟩
  · intro t ht
    simp only [raceSystem, System.init, List.map_cons, List.map_nil, List.mem_cons,
      List.mem_singleton, List.not_mem_nil, or_false, or_self] at ht
    subst ht
    exact ⟨rfl, rfl, Or.inl rfl⟩
  · intro h; norm_num at h
  · intro id p hmem
    simp [raceSystem, System.init, raceStore] at hmem

theorem System.length_step (s : System) (i : Nat) : (s.step i).tasks.length = s.tasks.length := by
  unfold System.step
  cases s.tasks[i]? <;> simp

theorem System.length_run (sched : List Nat) :
    ∀ s : System, (s.run sched).tasks.length = s.tasks.length := by
  induction sched with
  | nil => intro s; rfl
  | cons i sched ih => intro s; rw [System.run, ih, System.length_step]

theorem System.run_append (a b : List Nat) : ∀ s : System, s.run (a ++ b) = (s.run a).run b := by
  induction a with
  | nil => intro s; rfl
  | cons i a ih => intro s; simp only [List.cons_append, System.run]; exact ih _

/-- Steps of call `i` in a row are the steps of `Task.iter`. -/
theorem System.run_replicate (n : Nat) : ∀ (s : System) (i : Nat) (t : Task),
    s.tasks[i]? = some t →
    s.run (List.replicate n i) =
      { store := (Task.iter n s.store t).1, tasks := s.tasks.set i (Task.iter n s.store t).2 } := by
  induction n with
  | zero =>
    intro s i t h
    have hi : i < s.tasks.length := (List.getElem?_eq_some.1 h).1
    have : s.tasks.set i t = s.tasks := by
      apply List.ext_getElem? ; intro j
      by_cases hij : i = j
      · subst hij; rw [List.getElem?_set_self hi, h]
      · rw [List.getElem?_set_ne hij]
    simp [System.run, Task.iter, this]
  | succ n ih =>
    intro s i t h
    have hi : i < s.tasks.length := (List.getElem?_eq_some.1 h).1
    simp only [List.replicate_succ, System.run, Task.iter]
    have hstep : s.step i =
        { store := (t.step s.store).1, tasks := s.tasks.set i (t.step s.store).2 } := by
      simp [System.step, h]
    rw [hstep, ih _ i (t.step s.store).2 (by simpa using List.getElem?_set_self hi)]
    simp

/-- Two calls run one after the other are two runs of the handler, the second on the
store the first one left. -/
theorem System.run_serial (d : Store) (r0 r1 : RedemptionRequest) (f0 f1 : Faults) (m n : Nat)
    (hm : r0.VoucherIDs.length + 3 ≤ m) (hn : r1.VoucherIDs.length + 3 ≤ n) :
    (System.init d [(r0, f0), (r1, f1)]).run (List.replicate m 0 ++ List.replicate n 1) =
      { store := (Handler.CreateRedemption (Handler.CreateRedemption d f0 (some r0)).1 f1
          (some r1)).1,
        tasks :=
          [{ req := r0, faults := f0,
             phase := .done (Handler.CreateRedemption d f0 (some r0)).2 },
           { req := r1, faults := f1,
             phase := .done (Handler.CreateRedemption
              (Handler.CreateRedemption d f0 (some r0)).1 f1 (some r1)).2 }] } := by
  have h0 : (System.init d [(r0, f0), (r1, f1)]).run (List.replicate m 0) =
      { store := (Handler.CreateRedemption d f0 (some r0)).1,
        tasks :=
          [{ req := r0, faults := f0,
             phase := .done (Handler.CreateRedemption d f0 (some r0)).2 },
           { req := r1, faults := f1, phase := .start }] } := by
    refine (System.run_replicate m (System.init d [(r0, f0), (r1, f1)]) 0
      { req := r0, faults := f0, phase := .start } rfl).trans ?_
    simp only [System.init, List.map, Task.iter_start d f0 r0 m hm, List.set]
  rw [System.run_append, h0]
  refine (System.run_replicate n
    { store := (Handler.CreateRedemption d f0 (some r0)).1,
      tasks :=
        [{ req := r0, faults := f0,
           phase := .done (Handler.CreateRedemption d f0 (some r0)).2 },
         { req := r1, faults := f1, phase := .start }] } 1
    { req := r1, faults := f1, phase := .start } rfl).trans ?_
  simp only [Task.iter_start _ f1 r1 n hn, List.set]

/-- Two calls run one after the other, the second call first. -/
theorem System.run_serial_rev (d : Store) (r0 r1 : RedemptionRequest) (f0 f1 : Faults)
    (m n : Nat) (hm : r1.VoucherIDs.length + 3 ≤ m) (hn : r0.VoucherIDs.length + 3 ≤ n) :
    (System.init d [(r0, f0), (r1, f1)]).run (List.replicate m 1 ++ List.replicate n 0) =
      { store := (Handler.CreateRedemption (Handler.CreateRedemption d f1 (some r1)).1 f0
          (some r0)).1,
        tasks :=
          [{ req := r0, faults := f0,
             phase := .done (Handler.CreateRedemption
              (Handler.CreateRedemption d f1 (some r1)).1 f0 (some r0)).2 },
           { req := r1, faults := f1,
             phase := .done (Handler.CreateRedemption d f1 (some r1)).2 }] } := by
  have h0 : (System.init d [(r0, f0), (r1, f1)]).run (List.replicate m 1) =
      { store := (Handler.CreateRedemption d f1 (some r1)).1,
        tasks :=
          [{ req := r0, faults := f0, phase := .start },
           { req := r1, faults := f1,
             phase := .done (Handler.CreateRedemption d f1 (some r1)).2 }] } := by
    refine (System.run_replicate m (System.init d [(r0, f0), (r1, f1)]) 1
      { req := r1, faults := f1, phase := .start } rfl).trans ?_
    simp only [System.init, List.map, Task.iter_start d f1 r1 m hm, List.set]
  rw [System.run_append, h0]
  refine (System.run_replicate n
    { store := (Handler.CreateRedemption d f1 (some r1)).1,
      tasks :=
        [{ req := r0, faults := f0, phase := .start },
         { req := r1, faults := f1,
           phase := .done (Handler.CreateRedemption d f1 (some r1)).2 }] } 0
    { req := r0, faults := f0, phase := .start } rfl).trans ?_
  simp only [Task.iter_start _ f0 r0 n hn, List.set]

theorem System.response_eq_some (s : System) (i : Nat) (resp : Response)
    (h : s.response i = some resp) :
    ∃ t, s.tasks[i]? = some t ∧ t.phase = .done resp := by
  unfold System.response at h
  cases hti : s.tasks[i]? with
  | none => simp [hti] at h
  | some t =>
    obtain ⟨req, f, phase⟩ := t
    cases phase <;> simp [hti] at h
    exact ⟨_, rfl, by rw [h]⟩

/-- C7 (no lost update) fails as stated: when the two calls of the race take their steps in
turn, both read the balance 150 before either debits, both answer 201, two
redemptions are inserted, and the balance ends at 50. -/
theorem C7_two_successes :
    (raceSystem.run [0, 1, 0, 1, 0, 1, 0, 1]).response 0 =
      some { status := 201, body := .id 1 } ∧
    (raceSystem.run [0, 1, 0, 1, 0, 1, 0, 1]).response 1 =
      some { status := 201, body := .id 2 } ∧
    (raceSystem.run [0, 1, 0, 1, 0, 1, 0, 1]).store.balance 1 = some 50 ∧
    (raceSystem.run [0, 1, 0, 1, 0, 1, 0, 1]).store.redemptions.length = 2 := by
  decide

/-- What does survive the round trip through the store: when the new id is not yet
taken, `DB.GetRedemption` returns the customer id, total and status given to
`DB.CreateRedemption`, and no item. -/
theorem GetRedemption_after_CreateRedemption (d : Store) (r : Redemption)
    (hfresh : ∀ row ∈ d.redemptions, row.id ≠ d.nextRedemptionID) :
    (DB.CreateRedemption d false r).2 = .ok d.nextRedemptionID ∧
    (DB.GetRedemption (DB.CreateRedemption d false r).1 false d.nextRedemptionID).2 =
      .ok { ID := d.nextRedemptionID, CustomerID := r.CustomerID,
            TotalPointsCost := r.TotalPointsCost, Status := r.Status, Items := [],
            CreatedAt := d.clock, UpdatedAt := d.clock } := by
  refine ⟨rfl, ?_⟩
  have hfind : ∀ (rows : List RedemptionRow) (x : RedemptionRow) (id : Int), x.id = id →
      (∀ row ∈ rows, row.id ≠ id) →
      (rows ++ [x]).find? (fun r => r.id == id) = some x := by
    intro rows x id hx h
    induction rows with
    | nil => simp [hx]
    | cons y ys ih =>
      have hy : (y.id == id) = false := by simpa using h y (by simp)
      rw [List.cons_append, List.find?_cons, hy]
      exact ih (fun row hrow => h row (by simp [hrow]))
  simp only [DB.GetRedemption, DB.CreateRedemption, Bool.false_eq_true, if_false,
    Store.findRedemption, Store.record, Store.insertRedemption]
  rw [hfind d.redemptions _ d.nextRedemptionID rfl hfresh]

/-- C11 (store round trip including items) is broken by the code: a redemption with one item
(voucher 1, cost 100) is given to `DB.CreateRedemption`, which returns id 1;
`DB.GetRedemption` of id 1 returns customer id 1, total 100 and status
"pending", but no item, and no row was written to `redemption_items`. -/
theorem C11_items_lost_in_store :
    (DB.CreateRedemption (demoStore 1000) false
        (newRedemption 1 100 [newItem 1 100])).2 = .ok 1 ∧
    (DB.GetRedemption
        (DB.CreateRedemption (demoStore 1000) false (newRedemption 1 100 [newItem 1 100])).1
        false 1).2 =
      .ok { ID := 1, CustomerID := 1, TotalPointsCost := 100, Status := "pending", Items := [],
            CreatedAt := 1000, UpdatedAt := 1000 } ∧
    (newRedemption 1 100 [newItem 1 100]).Items ≠ [] ∧
    (DB.CreateRedemption (demoStore 1000) false
        (newRedemption 1 100 [newItem 1 100])).1.redemption_items = [] :=
  ⟨rfl, rfl, by decide, rfl⟩

/-- C13 (creation state).  Every Redemption that `Handler.CreateRedemption` passes to the store
has status "pending" and the customer id of the request; and a run inserts no
row, or one row with status "pending" and that customer id. -/
theorem C13_created_pending (d : Store) (f : Faults) (body : Option RedemptionRequest) :
    (∀ r, Call.CreateRedemption r ∈ callsMade d (Handler.CreateRedemption d f body).1 →
      ∃ req, body = some req ∧ r.Status = "pending" ∧ r.CustomerID = req.CustomerID) ∧
    ((Handler.CreateRedemption d f body).1.redemptions = d.redemptions ∨
      ∃ (req : RedemptionRequest) (row : RedemptionRow), body = some req ∧
        row.status = "pending" ∧ row.customer_id = req.CustomerID ∧
        (Handler.CreateRedemption d f body).1.redemptions = d.redemptions ++ [row]) := by
  constructor
  · intro r h
    obtain ⟨req, hreq, rfl⟩ := createRedemption_call_eq d f body r h
    exact ⟨req, hreq, rfl, rfl⟩
  · cases body with
    | none => exact Or.inl rfl
    | some req =>
      rcases CreateRedemption_cases d f req with ⟨n, resp, hrun, -⟩ | ⟨c, -, -, -, hrun⟩
      · rw [hrun]; exact Or.inl rfl
      · rw [hrun]
        unfold Handler.commit
        by_cases h1 : c.PointsBalance < d.requestedCost req.VoucherIDs
        · simp [h1]
        · by_cases h2 : f.createRedemption = true
          · simp [h1, h2]
          · right
            refine ⟨req,
              { id := d.nextRedemptionID, customer_id := req.CustomerID,
                total_points_cost := d.requestedCost req.VoucherIDs, status := "pending",
                created_at := d.clock, updated_at := d.clock }, rfl, rfl, rfl, ?_⟩
            by_cases h3 : f.updateCustomerPoints = true
            · simp only [h1, h2, h3, if_false, if_true]
              rfl
            · simp only [h1, h2, h3, if_false]
              rfl

theorem nextFault_drop_succ (fv : List Bool) (j : Nat) :
    nextFault (fv.drop (j + 1)) = nextFault (fv.tail.drop j) := by
  cases fv <;> simp

/-- C13 on the scenario of the specification: the redemption passed to the store is pending and
belongs to customer 1. -/
theorem C13_created_pending_witness :
    ∃ req : RedemptionRequest, some (⟨1, [1, 2]⟩ : RedemptionRequest) = some req ∧
      (newRedemption 1 300 [newItem 1 100, newItem 2 200]).Status = "pending" ∧
      (newRedemption 1 300 [newItem 1 100, newItem 2 200]).CustomerID = req.CustomerID :=
  (C13_created_pending (demoStore 1000) Faults.none (some ⟨1, [1, 2]⟩)).1
    (newRedemption 1 300 [newItem 1 100, newItem 2 200]) (by decide)

/-- The loop stops with "Voucher not found" at the first lookup that fails, for a
driver error as for a missing row. -/
theorem pricingLoop_lookup_fails (ids : List Int) : ∀ (d : Store) (fv : List Bool) (t : Int)
    (items : List RedemptionItem) (k : Nat), k < ids.length →
    (∀ j, j < k → nextFault (fv.drop j) = false ∧
      ∃ v, d.findVoucher (ids.getD j 0) = some v ∧ v.IsActive = true) →
    (nextFault (fv.drop k) = true ∨ d.findVoucher (ids.getD k 0) = none) →
    (Handler.pricingLoop d fv ids t items).2 = .error (httpError "Voucher not found" 404) := by
  induction ids with
  | nil => intro d fv t items k hk; simp at hk
  | cons vID rest ih =>
    intro d fv t items k hk hprev hfail
    rw [pricingLoop_cons]
    cases k with
    | zero =>
      simp only [List.drop_zero, List.getD_cons_zero] at hfail
      rcases hfail with h | h
      · simp [h]
      · cases hb : nextFault fv <;> simp [h]
    | succ k =>
      obtain ⟨hb, v, hv, ha⟩ := hprev 0 (Nat.succ_pos k)
      simp only [List.drop_zero, List.getD_cons_zero] at hb hv
      simp only [hb, hv, ha, Bool.false_eq_true, if_false, if_true]
      apply ih _ _ _ _ k (by simpa using hk)
      · intro j hj
        have := hprev (j + 1) (by omega)
        simpa [nextFault_drop_succ] using this
      · simpa [nextFault_drop_succ] using hfail

/-- C12 (persistence failures are not masked) fails as stated: customer 1 and voucher 1 are in
the store, yet a driver error on `GetCustomer`, or on `GetVoucher`, is answered
404 "... not found", not 500. -/
theorem C12_read_failure_masked :
    (demoStore 1000).findCustomer 1 ≠ none ∧ (demoStore 1000).findVoucher 1 ≠ none ∧
    (Handler.CreateRedemption (demoStore 1000)
        { getCustomer := true, getVoucher := [], createRedemption := false,
          updateCustomerPoints := false } (some ⟨1, [1]⟩)).2 =
      httpError "Customer not found" 404 ∧
    (Handler.CreateRedemption (demoStore 1000)
        { getCustomer := false, getVoucher := [true], createRedemption := false,
          updateCustomerPoints := false } (some ⟨1, [1]⟩)).2 =
      httpError "Voucher not found" 404 := by
  decide

/-- C12 as amended.  A failure of `GetCustomer`, or of the first failing `GetVoucher`, is
answered 404, for a driver error as for an absent row.  A failure of the
store's `CreateRedemption` or `UpdateCustomerPoints`, when the run reaches the
writes, is answered 500.  Status 500 is returned only when one of the two
writes fails, and status 404 only when a lookup fails: a driver error or an
absent row. -/
theorem C12_failures_amended (d : Store) (f : Faults) (req : RedemptionRequest) :
    (f.getCustomer = true →
      (Handler.CreateRedemption d f (some req)).2 = httpError "Customer not found" 404) ∧
    (∀ (c : Customer) (k : Nat), f.getCustomer = false →
      d.findCustomer req.CustomerID = some c → k < req.VoucherIDs.length →
      (∀ j, j < k → nextFault (f.getVoucher.drop j) = false ∧
        ∃ v, d.findVoucher (req.VoucherIDs.getD j 0) = some v ∧ v.IsActive = true) →
      nextFault (f.getVoucher.drop k) = true →
      (Handler.CreateRedemption d f (some req)).2 = httpError "Voucher not found" 404) ∧
    (∀ c : Customer, f.getCustomer = false → d.findCustomer req.CustomerID = some c →
      (∀ b ∈ f.getVoucher, b = false) →
      (∀ id ∈ req.VoucherIDs, ∃ v, d.findVoucher id = some v ∧ v.IsActive = true) →
      d.requestedCost req.VoucherIDs ≤ c.PointsBalance →
      (f.createRedemption = true ∨ f.updateCustomerPoints = true) →
      (Handler.CreateRedemption d f (some req)).2.status = 500) ∧
    ((Handler.CreateRedemption d f (some req)).2.status = 500 →
      f.createRedemption = true ∨ f.updateCustomerPoints = true) ∧
    ((Handler.CreateRedemption d f (some req)).2.status = 404 →
      f.getCustomer = true ∨ d.findCustomer req.CustomerID = none ∨
      ∃ k, k < req.VoucherIDs.length ∧
        (nextFault (f.getVoucher.drop k) = true ∨
          d.findVoucher (req.VoucherIDs.getD k 0) = none)) := by
  refine ⟨?_, ?_, ?_, ?_, ?_⟩
  · intro hf
    rw [CreateRedemption_customer_error d f req (Or.inl hf)]
  · intro c k hf hc hk hprev hfail
    have hl := pricingLoop_lookup_fails req.VoucherIDs (d.record (.GetCustomer req.CustomerID))
      f.getVoucher 0 [] k hk (by simpa using hprev) (Or.inl hfail)
    rcases hrun : Handler.pricingLoop (d.record (.GetCustomer req.CustomerID)) f.getVoucher
      req.VoucherIDs 0 [] with ⟨e, r⟩
    rw [hrun] at hl
    simp only at hl
    subst hl
    rw [CreateRedemption_loop_error d f req c e _ hf hc hrun]
  · intro c hf hc hfv hv hle hw
    rw [CreateRedemption_valid d f req c hf hc hfv hv]
    unfold Handler.commit
    by_cases h2 : f.createRedemption = true
    · simp [not_lt.2 hle, h2, httpError]
    · have h3 : f.updateCustomerPoints = true := by
        rcases hw with hw | hw
        · exact absurd hw h2
        · exact hw
      simp [not_lt.2 hle, h2, h3, httpError]
  · intro h
    rcases CreateRedemption_cases d f req with ⟨n, resp, hrun, hr⟩ | ⟨c, -, -, -, hrun⟩
    · rw [hrun] at h
      rcases hr with rfl | rfl | rfl <;> simp [httpError] at h
    · rw [hrun] at h
      unfold Handler.commit at h
      by_cases h1 : c.PointsBalance < d.requestedCost req.VoucherIDs
      · simp [h1, httpError] at h
      · by_cases h2 : f.createRedemption = true
        · exact Or.inl h2
        · by_cases h3 : f.updateCustomerPoints = true
          · exact Or.inr h3
          · simp [h1, h2, h3] at h
  · intro h
    cases hf : f.getCustomer
    swap
    · exact Or.inl rfl
    right
    cases hc : d.findCustomer req.CustomerID with
    | none => exact Or.inl rfl
    | some c =>
      right
      rcases hl : Handler.pricingLoop (d.record (.GetCustomer req.CustomerID)) f.getVoucher
        req.VoucherIDs 0 [] with ⟨e, resp | ⟨t, items⟩⟩
      · obtain ⟨n, hn, -, hr | hr⟩ := pricingLoop_error _ _ _ _ _ _ _ hl
        · exact ⟨n, hn, by simpa using hr.2⟩
        · rw [CreateRedemption_loop_error d f req c e resp hf hc hl, hr.1] at h
          simp [httpError] at h
      · rw [CreateRedemption_priced d f req c e t items hf hc hl] at h
        by_cases h1 : c.PointsBalance < t
        · simp [h1, httpError] at h
        · by_cases h2 : f.createRedemption = true
          · simp [h1, h2, httpError] at h
          · by_cases h3 : f.updateCustomerPoints = true
            · simp [h1, h2, h3, httpError] at h
            · simp [h1, h2, h3] at h

theorem dropWhile_eq_nil_iff_all (p : Char → Bool) (l : List Char) :
    l.dropWhile p = [] ↔ l.all p = true := by
  induction l with
  | nil => simp
  | cons c cs ih =>
    cases hc : p c
    · simp [List.dropWhile_cons, hc]
    · simp only [List.dropWhile_cons, hc, if_true, List.all_cons, Bool.true_and]
      exact ih

theorem all_dropWhile (p : Char → Bool) (l : List Char) :
    (l.dropWhile p).all p = l.all p := by
  induction l with
  | nil => rfl
  | cons c cs ih =>
    cases hc : p c
    · simp [List.dropWhile_cons, hc]
    · simp only [List.dropWhile_cons, hc, if_true, List.all_cons, Bool.true_and]
      exact ih

/-- C12 as amended, on the store of the examples: a driver error on `GetCustomer` is answered
404, a driver error on the insert 500. -/
theorem C12_failures_amended_witness :
    (Handler.CreateRedemption (demoStore 1000)
        { getCustomer := true, getVoucher := [], createRedemption := false,
          updateCustomerPoints := false } (some ⟨1, [1]⟩)).2 =
      httpError "Customer not found" 404 ∧
    (Handler.CreateRedemption (demoStore 1000)
        { getCustomer := false, getVoucher := [], createRedemption := true,
          updateCustomerPoints := false } (some ⟨1, [1]⟩)).2.status = 500 :=
  ⟨(C12_failures_amended (demoStore 1000)
      { getCustomer := true, getVoucher := [], createRedemption := false,
        updateCustomerPoints := false } ⟨1, [1]⟩).1 rfl,
   (C12_failures_amended (demoStore 1000)
      { getCustomer := false, getVoucher := [], createRedemption := true,
        updateCustomerPoints := false } ⟨1, [1]⟩).2.2.1
      { ID := 1, Name := "Ann", Email := "ann@example.com", PointsBalance := 1000,
        CreatedAt := 0, UpdatedAt := 0 }
      rfl rfl (by decide)
      (by intro id hid
          simp only [List.mem_singleton] at hid
          subst hid
          exact ⟨_, rfl, rfl⟩)
      (by decide) (Or.inl rfl)⟩

/-- `strings.TrimSpace(s) == ""` says that `s` is blank. -/
theorem TrimSpace_eq_empty_iff (s : String) : (TrimSpace s == "") = isBlank s := by
  have h1 : (TrimSpace s == "") = true ↔ isBlank s = true := by
    rw [beq_iff_eq]
    unfold TrimSpace isBlank
    have hmk : ∀ l : List Char, String.mk l = String.mk [] ↔ l = [] :=
      fun l => ⟨fun h => by injection h, fun h => by rw [h]⟩
    rw [show ("" : String) = String.mk [] from rfl, hmk, List.reverse_eq_nil_iff,
      dropWhile_eq_nil_iff_all, List.all_reverse, all_dropWhile]
  cases hb : isBlank s
  · cases ht : (TrimSpace s == "")
    · rfl
    · rw [h1.1 ht] at hb; cases hb
  · exact h1.2 hb

/-- C14 (Voucher.Validate).  At the instant `now` the method returns the first applicable of:
`ErrEmptyCode` when the code is blank, `ErrEmptyName` when the name is blank,
`ErrInvalidPointsCost` when the cost is not positive, `ErrExpiredVoucher` when
`ValidUntil` is set and before `now`; and no error otherwise.  A voucher whose
`ValidUntil` is not set is never rejected as expired. -/
theorem C14_voucher_validate (v : Voucher) (now : Time) :
    (isBlank v.Code = true → v.Validate now = some .ErrEmptyCode) ∧
    (isBlank v.Code = false → isBlank v.Name = true → v.Validate now = some .ErrEmptyName) ∧
    (isBlank v.Code = false → isBlank v.Name = false → v.PointsCost ≤ 0 →
      v.Validate now = some .ErrInvalidPointsCost) ∧
    (isBlank v.Code = false → isBlank v.Name = false → 0 < v.PointsCost →
      v.ValidUntil ≠ 0 → v.ValidUntil < now → v.Validate now = some .ErrExpiredVoucher) ∧
    (isBlank v.Code = false → isBlank v.Name = false → 0 < v.PointsCost →
      (v.ValidUntil = 0 ∨ now ≤ v.ValidUntil) → v.Validate now = none) ∧
    (v.ValidUntil = 0 → v.Validate now ≠ some .ErrExpiredVoucher) := by
  unfold Voucher.Validate validateVoucherInternal
  simp only [TrimSpace_eq_empty_iff, Time.IsZero, Time.Before]
  refine ⟨?_, ?_, ?_, ?_, ?_, ?_⟩
  · intro h; simp [h]
  · intro h1 h2; simp [h1, h2]
  · intro h1 h2 h3; simp [h1, h2, h3]
  · intro h1 h2 h3 h4 h5; simp [h1, h2, not_le.2 h3, h4, h5]
  · intro h1 h2 h3 h4
    rcases h4 with h4 | h4
    · simp [h1, h2, not_le.2 h3, h4]
    · simp [h1, h2, not_le.2 h3, not_lt.2 h4]
  · intro h
    cases isBlank v.Code <;> cases isBlank v.Name <;> by_cases h3 : v.PointsCost ≤ 0 <;>
      simp [h, h3]

/-- C14 on the cases of `TestVoucher_Validate`, at instant 1000: a valid voucher, an empty
code, an empty name, a negative cost, an expired voucher; a valid voucher
whose `ValidUntil` is not set; and a code made of white space. -/
theorem C14_voucher_validate_witness :
    (testVoucher "TEST123" "Test Voucher" 100 2000).Validate 1000 = none ∧
    (testVoucher "" "Test Voucher" 100 2000).Validate 1000 = some .ErrEmptyCode ∧
    (testVoucher "TEST123" "" 100 2000).Validate 1000 = some .ErrEmptyName ∧
    (testVoucher "TEST123" "Test Voucher" (-100) 2000).Validate 1000 =
      some .ErrInvalidPointsCost ∧
    (testVoucher "TEST123" "Test Voucher" 100 500).Validate 1000 = some .ErrExpiredVoucher ∧
    (testVoucher "TEST123" "Test Voucher" 100 0).Validate 1000 = none ∧
    (testVoucher " \t " "Test Voucher" 100 0).Validate 1000 = some .ErrEmptyCode :=
  ⟨(C14_voucher_validate (testVoucher "TEST123" "Test Voucher" 100 2000) 1000).2.2.2.2.1
      (by decide) (by decide) (by decide) (Or.inr (by decide)),
   (C14_voucher_validate (testVoucher "" "Test Voucher" 100 2000) 1000).1 (by decide),
   (C14_voucher_validate (testVoucher "TEST123" "" 100 2000) 1000).2.1 (by decide) (by decide),
   (C14_voucher_validate (testVoucher "TEST123" "Test Voucher" (-100) 2000) 1000).2.2.1
      (by decide) (by decide) (by decide),
   (C14_voucher_validate (testVoucher "TEST123" "Test Voucher" 100 500) 1000).2.2.2.1
      (by decide) (by decide) (by decide) (by decide) (by decide),
   (C14_voucher_validate (testVoucher "TEST123" "Test Voucher" 100 0) 1000).2.2.2.2.1
      (by decide) (by decide) (by decide) (Or.inl rfl),
   (C14_voucher_validate (testVoucher " \t " "Test Voucher" 100 0) 1000).1 (by decide)⟩

/-- C15 (Redemption.Validate) fails as stated: with one item and status "PENDING", which is
none of the four enum values, the method returns no error. -/
theorem C15_uppercase_status_accepted :
    Redemption.Validate { ID := 0, CustomerID := 1, TotalPointsCost := 100, Status := "PENDING",
                          Items := [newItem 1 100], CreatedAt := 0, UpdatedAt := 0 } = none ∧
    "PENDING" ≠ "pending" ∧ "PENDING" ≠ "completed" ∧ "PENDING" ≠ "cancelled" ∧
    "PENDING" ≠ "failed" := by
  decide

/-- C15 as amended.  `Redemption.Validate` returns no error if and only if `Items` is
non-empty and `Status`, once lower-cased, is one of "pending", "completed",
"cancelled", "failed"; it returns `ErrNoItems` when `Items` is empty, whatever
the status, and `ErrInvalidStatus` when `Items` is non-empty and the lower-cased
status is none of the four.  The four values themselves are accepted. -/
theorem C15_redemption_validate_amended (r : Redemption) :
    (r.Validate = none ↔ r.Items ≠ [] ∧
      (toLower r.Status = "pending" ∨ toLower r.Status = "completed" ∨
        toLower r.Status = "cancelled" ∨ toLower r.Status = "failed")) ∧
    (r.Items = [] → r.Validate = some .ErrNoItems) ∧
    (r.Items ≠ [] →
      ¬(toLower r.Status = "pending" ∨ toLower r.Status = "completed" ∨
        toLower r.Status = "cancelled" ∨ toLower r.Status = "failed") →
      r.Validate = some .ErrInvalidStatus) ∧
    (r.Items ≠ [] →
      (r.Status = "pending" ∨ r.Status = "completed" ∨ r.Status = "cancelled" ∨
        r.Status = "failed") →
      r.Validate = none) := by
  have hst : isValidStatus r.Status = true ↔
      (toLower r.Status = "pending" ∨ toLower r.Status = "completed" ∨
        toLower r.Status = "cancelled" ∨ toLower r.Status = "failed") := by
    simp [isValidStatus, or_assoc]
  unfold Redemption.Validate validateRedemptionInternal
  refine ⟨?_, ?_, ?_, ?_⟩
  · by_cases hi : r.Items = []
    · simp [hi]
    · by_cases hs : isValidStatus r.Status = true
      · simp [hi, hs, ← hst]
      · simp [hi, hs, ← hst]
  · intro hi; simp [hi]
  · intro hi hs
    rw [← hst] at hs
    simp [hi, hs]
  · intro hi hs
    have : isValidStatus r.Status = true := by
      rcases hs with h | h | h | h <;> rw [h] <;> decide
    simp [hi, this]

/-- C15 as amended, on the cases of `TestRedemption_Validate`: status "pending" with one
item is accepted. -/
theorem C15_redemption_validate_amended_witness :
    Redemption.Validate (newRedemption 1 100 [newItem 1 100]) = none ∧
    Redemption.Validate (newRedemption 1 100 []) = some .ErrNoItems :=
  ⟨(C15_redemption_validate_amended (newRedemption 1 100 [newItem 1 100])).2.2.2
      (by decide) (Or.inl rfl),
   (C15_redemption_validate_amended (newRedemption 1 100 [])).2.1 rfl⟩

/-- C16 (Customer.Validate).  The method returns no error exactly when the name is not blank,
the email is accepted by `isValidEmail` and the balance is not negative; it
returns `ErrEmptyName`, `ErrInvalidEmail`, `ErrNegativePoints` in this order of
precedence.  So every customer with a negative balance is rejected. -/
theorem C16_customer_validate (c : Customer) :
    (c.Validate = none ↔
      isBlank c.Name = false ∧ isValidEmail c.Email = true ∧ 0 ≤ c.PointsBalance) ∧
    (isBlank c.Name = true → c.Validate = some .ErrEmptyName) ∧
    (isBlank c.Name = false → isValidEmail c.Email = false →
      c.Validate = some .ErrInvalidEmail) ∧
    (isBlank c.Name = false → isValidEmail c.Email = true → c.PointsBalance < 0 →
      c.Validate = some .ErrNegativePoints) ∧
    (c.PointsBalance < 0 → c.Validate ≠ none) := by
  unfold Customer.Validate validateCustomerInternal
  simp only [TrimSpace_eq_empty_iff]
  cases hn : isBlank c.Name <;> cases he : isValidEmail c.Email <;>
    by_cases hb : c.PointsBalance < 0 <;> simp [hb]
  all_goals omega

/-- C16 on the cases of `TestCustomer_Validate`: balance 0 with a name and a well-formed
email is accepted; a malformed email and a negative balance are rejected, and a
blank name comes first. -/
theorem C16_customer_validate_witness :
    (testCustomer "John Doe" "john@example.com" 0).Validate = none ∧
    (testCustomer "John Doe" "invalid-email" 0).Validate = some .ErrInvalidEmail ∧
    (testCustomer "John Doe" "john@example.com" (-100)).Validate = some .ErrNegativePoints ∧
    (testCustomer "  " "invalid-email" (-100)).Validate = some .ErrEmptyName :=
  ⟨(C16_customer_validate (testCustomer "John Doe" "john@example.com" 0)).1.2
      ⟨by decide, by decide, by decide⟩,
   (C16_customer_validate (testCustomer "John Doe" "invalid-email" 0)).2.2.1
      (by decide) (by decide),
   (C16_customer_validate (testCustomer "John Doe" "john@example.com" (-100))).2.2.2.1
      (by decide) (by decide) (by decide),
   (C16_customer_validate (testCustomer "  " "invalid-email" (-100))).2.1 (by decide)⟩

/-- C17 (the create handlers never store an invalid entity).  On a decoded request,
`Handler.CreateBrand` calls the store's `CreateBrand` exactly when the brand
built from the request passes `Validate`, and then with that brand; when
validation fails the response is 400 and the store is untouched; when it
passes and the store returns `id` the response is 201 with `id`.  The same
holds of `Handler.CreateVoucher` at the instant `now`, and every voucher it
passes to the store has `IsActive` set. -/
theorem C17_create_validated (d : Store) (fault : Bool) (now : Time)
    (breq : CreateBrandRequest) (vreq : CreateVoucherRequest) :
    ((∀ b, Call.CreateBrand b ∈ callsMade d (Handler.CreateBrand d fault (some breq)).1 ↔
        (b = newBrand breq ∧ (newBrand breq).Validate = none)) ∧
      ((newBrand breq).Validate ≠ none →
        (Handler.CreateBrand d fault (some breq)).2.status = 400 ∧
        (Handler.CreateBrand d fault (some breq)).1 = d) ∧
      (∀ id, (newBrand breq).Validate = none →
        (DB.CreateBrand d fault (newBrand breq)).2 = .ok id →
        (Handler.CreateBrand d fault (some breq)).2 = { status := 201, body := .id id })) ∧
    ((∀ v, Call.CreateVoucher v ∈
          callsMade d (Handler.CreateVoucher d fault now (some vreq)).1 ↔
        (v = newVoucher vreq ∧ (newVoucher vreq).Validate now = none)) ∧
      ((newVoucher vreq).Validate now ≠ none →
        (Handler.CreateVoucher d fault now (some vreq)).2.status = 400 ∧
        (Handler.CreateVoucher d fault now (some vreq)).1 = d) ∧
      (∀ id, (newVoucher vreq).Validate now = none →
        (DB.CreateVoucher d fault (newVoucher vreq)).2 = .ok id →
        (Handler.CreateVoucher d fault now (some vreq)).2 = { status := 201, body := .id id }) ∧
      (∀ v, Call.CreateVoucher v ∈
          callsMade d (Handler.CreateVoucher d fault now (some vreq)).1 →
        v.IsActive = true)) := by
  have hb : ∀ b, Call.CreateBrand b ∈ callsMade d (Handler.CreateBrand d fault (some breq)).1 ↔
      (b = newBrand breq ∧ (newBrand breq).Validate = none) := by
    intro b
    unfold Handler.CreateBrand
    cases hval : (newBrand breq).Validate with
    | some err => simp [hval, callsMade_self]
    | none =>
      cases fault
      · simp [hval, DB.CreateBrand, callsMade, Store.record, Store.insertBrand]
      · simp [hval, DB.CreateBrand, callsMade, Store.record]
  have hv : ∀ v, Call.CreateVoucher v ∈
      callsMade d (Handler.CreateVoucher d fault now (some vreq)).1 ↔
      (v = newVoucher vreq ∧ (newVoucher vreq).Validate now = none) := by
    intro v
    unfold Handler.CreateVoucher
    cases hval : (newVoucher vreq).Validate now with
    | some err => simp [hval, callsMade_self]
    | none =>
      cases fault
      · simp [hval, DB.CreateVoucher, callsMade, Store.record, Store.insertVoucher]
      · simp [hval, DB.CreateVoucher, callsMade, Store.record]
  refine ⟨⟨hb, ?_, ?_⟩, ⟨hv, ?_, ?_, ?_⟩⟩
  · intro hne
    unfold Handler.CreateBrand
    cases hval : (newBrand breq).Validate with
    | some err => simp [hval, httpError]
    | none => exact absurd hval hne
  · intro id hval hid
    unfold Handler.CreateBrand
    cases fault
    · simp only [DB.CreateBrand, Bool.false_eq_true, if_false, Except.ok.injEq] at hid
      simp [hval, DB.CreateBrand, hid]
    · simp [DB.CreateBrand] at hid
  · intro hne
    unfold Handler.CreateVoucher
    cases hval : (newVoucher vreq).Validate now with
    | some err => simp [hval, httpError]
    | none => exact absurd hval hne
  · intro id hval hid
    unfold Handler.CreateVoucher
    cases fault
    · simp only [DB.CreateVoucher, Bool.false_eq_true, if_false, Except.ok.injEq] at hid
      simp [hval, DB.CreateVoucher, hid]
    · simp [DB.CreateVoucher] at hid
  · intro v hmem
    rw [((hv v).1 hmem).1]
    rfl

/-- C17 on the cases of `TestCreateBrand` and `TestCreateVoucher`: an empty brand name and a
negative `points_cost` are answered 400 without a store call; a valid brand is
stored and answered 201 with the new id. -/
theorem C17_create_validated_witness :
    ((Handler.CreateBrand (demoStore 0) false (some ⟨"", "Test Description"⟩)).2.status = 400 ∧
      (Handler.CreateBrand (demoStore 0) false (some ⟨"", "Test Description"⟩)).1 =
        demoStore 0) ∧
    ((Handler.CreateVoucher (demoStore 0) false 1000
        (some ⟨1, "TEST123", "Test Voucher", "", -100, 2000⟩)).2.status = 400 ∧
      (Handler.CreateVoucher (demoStore 0) false 1000
        (some ⟨1, "TEST123", "Test Voucher", "", -100, 2000⟩)).1 = demoStore 0) ∧
    (Handler.CreateBrand (demoStore 0) false (some ⟨"Test Brand", "Test Description"⟩)).2 =
      { status := 201, body := .id 1 } :=
  ⟨(C17_create_validated (demoStore 0) false 1000 ⟨"", "Test Description"⟩
      ⟨1, "TEST123", "Test Voucher", "", -100, 2000⟩).1.2.1 (by decide),
   (C17_create_validated (demoStore 0) false 1000 ⟨"", "Test Description"⟩
      ⟨1, "TEST123", "Test Voucher", "", -100, 2000⟩).2.2.1 (by decide),
   (C17_create_validated (demoStore 0) false 1000 ⟨"Test Brand", "Test Description"⟩
      ⟨1, "TEST123", "Test Voucher", "", -100, 2000⟩).1.2.2 1 (by decide) rfl⟩

@[simp] theorem voucherCheck_record (d : Store) (c : Call) (fault : Bool) (id : Int) :
    voucherCheck (d.record c) fault id = voucherCheck d fault id := rfl

/-- The loop stops at the first voucher that fails its check, with the response of
that check, having looked up the vouchers up to that one and no other. -/
theorem pricingLoop_first_failure (ids : List Int) : ∀ (d : Store) (fv : List Bool) (t : Int)
    (items : List RedemptionItem) (k : Nat) (r : Response), k < ids.length →
    (∀ j, j < k → voucherCheck d (nextFault (fv.drop j)) (ids.getD j 0) = none) →
    voucherCheck d (nextFault (fv.drop k)) (ids.getD k 0) = some r →
    Handler.pricingLoop d fv ids t items =
      (d.recordAll ((ids.take (k + 1)).map Call.GetVoucher), .error r) := by
  induction ids with
  | nil => intro d fv t items k r hk; simp at hk
  | cons vID rest ih =>
    intro d fv t items k r hk hprev hfail
    rw [pricingLoop_cons]
    cases k with
    | zero =>
      simp only [List.drop_zero, List.getD_cons_zero, voucherCheck] at hfail
      cases hb : nextFault fv
      · cases hv : d.findVoucher vID with
        | none =>
          simp only [hb, hv, Bool.false_eq_true, if_false, Option.some.injEq] at hfail
          simp [hfail, Store.record, Store.recordAll]
        | some v =>
          cases ha : v.IsActive
          · simp only [hb, hv, ha, Bool.false_eq_true, if_false, Option.some.injEq] at hfail
            simp [hfail, ha, Store.record, Store.recordAll]
          · simp [hb, hv, ha] at hfail
      · simp only [hb, if_true, Option.some.injEq] at hfail
        simp [hfail, Store.record, Store.recordAll]
    | succ k =>
      have h0 := hprev 0 (Nat.succ_pos k)
      simp only [List.drop_zero, List.getD_cons_zero, voucherCheck] at h0
      cases hb : nextFault fv
      swap
      · simp [hb] at h0
      cases hv : d.findVoucher vID with
      | none => simp [hb, hv] at h0
      | some v =>
        cases ha : v.IsActive
        · simp [hb, hv, ha] at h0
        · simp only [hb, hv, ha, Bool.false_eq_true, if_false, if_true]
          rw [ih _ _ _ _ k r (by simpa using hk)]
          · simp [Store.record, Store.recordAll]
          · intro j hj
            have := hprev (j + 1) (by omega)
            simpa [nextFault_drop_succ] using this
          · simpa [nextFault_drop_succ] using hfail

/-- When every voucher passes its check the loop runs to its end. -/
theorem all_pass_of_voucherCheck (d : Store) (fv : List Bool) (ids : List Int)
    (h : ∀ j, j < ids.length → voucherCheck d (nextFault (fv.drop j)) (ids.getD j 0) = none) :
    ∃ e t items, Handler.pricingLoop d fv ids 0 [] = (e, .ok (t, items)) := by
  rcases hl : Handler.pricingLoop d fv ids 0 [] with ⟨e, resp | ⟨t, items⟩⟩
  · obtain ⟨n, hn, -, hr⟩ := pricingLoop_error _ _ _ _ _ _ _ hl
    have hn2 := h n hn
    unfold voucherCheck at hn2
    rcases hr with ⟨-, hr | hr⟩ | ⟨-, v, hv, ha⟩
    · rw [hr] at hn2; simp at hn2
    · rw [hr] at hn2
      cases hb : nextFault (fv.drop n) <;> rw [hb] at hn2 <;> simp at hn2
    · rw [hv] at hn2
      cases hb : nextFault (fv.drop n) <;> rw [hb] at hn2 <;> simp [ha] at hn2
  · exact ⟨e, t, items, rfl⟩

/-- C18 (fixed precedence of rejections).  The handler checks the customer lookup, then each
voucher in request order (lookup, then `is_active`), then the balance, and the
first check that fails decides the response.  A failed customer lookup gives
404 "Customer not found" after the single call `GetCustomer`, whatever the
vouchers.  When the customer is found and voucher `k` is the first to fail its
check, the response is that of this check and the vouchers looked up are
exactly those up to `k`, whatever the balance.  When all vouchers pass and the
balance is below the total the loop computed (`Store.requestedCost`, the `int`
sum of the costs, with its wrap-around), the response is 400 "Insufficient
points". -/
theorem C18_rejection_precedence (d : Store) (f : Faults) (req : RedemptionRequest) :
    ((f.getCustomer = true ∨ d.findCustomer req.CustomerID = none) →
      Handler.CreateRedemption d f (some req) =
        (d.recordAll [Call.GetCustomer req.CustomerID], httpError "Customer not found" 404)) ∧
    (∀ (c : Customer) (k : Nat) (r : Response), f.getCustomer = false →
      d.findCustomer req.CustomerID = some c → k < req.VoucherIDs.length →
      (∀ j, j < k →
        voucherCheck d (nextFault (f.getVoucher.drop j)) (req.VoucherIDs.getD j 0) = none) →
      voucherCheck d (nextFault (f.getVoucher.drop k)) (req.VoucherIDs.getD k 0) = some r →
      Handler.CreateRedemption d f (some req) =
        (d.recordAll (Call.GetCustomer req.CustomerID ::
          (req.VoucherIDs.take (k + 1)).map Call.GetVoucher), r)) ∧
    (∀ c : Customer, f.getCustomer = false → d.findCustomer req.CustomerID = some c →
      (∀ j, j < req.VoucherIDs.length →
        voucherCheck d (nextFault (f.getVoucher.drop j)) (req.VoucherIDs.getD j 0) = none) →
      c.PointsBalance < d.requestedCost req.VoucherIDs →
      Handler.CreateRedemption d f (some req) =
        (d.recordAll (readCalls req), httpError "Insufficient points" 400)) := by
  refine ⟨?_, ?_, ?_⟩
  · intro h
    rw [CreateRedemption_customer_error d f req h]
    rfl
  · intro c k r hf hc hk hprev hfail
    have hl := pricingLoop_first_failure req.VoucherIDs (d.record (.GetCustomer req.CustomerID))
      f.getVoucher 0 [] k r hk (by simpa using hprev) (by simpa using hfail)
    rw [CreateRedemption_loop_error d f req c _ r hf hc hl]
    simp [Store.record, Store.recordAll]
  · intro c hf hc hall hlt
    obtain ⟨e, t, items, hl⟩ := all_pass_of_voucherCheck (d.record (.GetCustomer req.CustomerID))
      f.getVoucher req.VoucherIDs (by simpa using hall)
    obtain ⟨he, ht, -, -⟩ := pricingLoop_ok _ _ _ _ _ _ _ _ hl
    simp only [totalFrom_record] at ht
    have ht : t = d.requestedCost req.VoucherIDs := ht
    rw [CreateRedemption_priced d f req c e t items hf hc hl, ht, if_pos hlt, he]
    simp [Store.record, Store.recordAll, readCalls]

/-- C18 on its two examples: a missing customer gets 404 "Customer not found" whatever
the vouchers, and an inactive voucher with an insufficient balance gets 400
"Voucher is not active". -/
theorem C18_rejection_precedence_witness :
    Handler.CreateRedemption inactiveStore Faults.none (some ⟨7, [1]⟩) =
      (inactiveStore.recordAll [Call.GetCustomer 7], httpError "Customer not found" 404) ∧
    Handler.CreateRedemption inactiveStore Faults.none (some ⟨1, [1]⟩) =
      (inactiveStore.recordAll (Call.GetCustomer 1 :: ([(1 : Int)].take (0 + 1)).map
        Call.GetVoucher), httpError "Voucher is not active" 400) ∧
    inactiveStore.balance 1 = some 50 ∧ inactiveStore.requestedCost [1] = 100 :=
  ⟨(C18_rejection_precedence inactiveStore Faults.none ⟨7, [1]⟩).1 (Or.inr (by decide)),
   (C18_rejection_precedence inactiveStore Faults.none ⟨1, [1]⟩).2.1
      { ID := 1, Name := "Ann", Email := "ann@example.com", PointsBalance := 50,
        CreatedAt := 0, UpdatedAt := 0 } 0 (httpError "Voucher is not active" 400)
      rfl (by decide) (by decide) (fun j hj => absurd hj (Nat.not_lt_zero j)) (by decide),
   by decide, by decide⟩

/-- C19 (write order: insert, then debit).  When the store's `CreateRedemption` is called and
fails, the response is 500, `UpdateCustomerPoints` is not called and the
customers table is unchanged.  `UpdateCustomerPoints` is called at most once;
when it is called, the store's `CreateRedemption` was called just before and
succeeded, and the id passed is the id of the customer `GetCustomer`
returned. -/
theorem C19_insert_then_debit (d : Store) (f : Faults) (req : RedemptionRequest) :
    (∀ r, f.createRedemption = true →
      Call.CreateRedemption r ∈ callsMade d (Handler.CreateRedemption d f (some req)).1 →
      (Handler.CreateRedemption d f (some req)).2.status = 500 ∧
      (∀ id p, Call.UpdateCustomerPoints id p ∉
        callsMade d (Handler.CreateRedemption d f (some req)).1) ∧
      (Handler.CreateRedemption d f (some req)).1.customers = d.customers) ∧
    (∀ id p, Call.UpdateCustomerPoints id p ∈
        callsMade d (Handler.CreateRedemption d f (some req)).1 →
      f.createRedemption = false ∧
      ∃ (c : Customer) (r : Redemption),
        (DB.GetCustomer d f.getCustomer req.CustomerID).2 = .ok c ∧ id = c.ID ∧
        callsMade d (Handler.CreateRedemption d f (some req)).1 =
          readCalls req ++ [Call.CreateRedemption r, Call.UpdateCustomerPoints id p]) ∧
    ((callsMade d (Handler.CreateRedemption d f (some req)).1).filter Call.isDebit).length ≤ 1 := by
  have hro : ∀ id p, Call.UpdateCustomerPoints id p ∉ readCalls req := by
    intro id p hmem
    have := not_isWrite_of_mem_readCalls req _ hmem
    simp [Call.isWrite] at this
  have hro2 : ∀ r, Call.CreateRedemption r ∉ readCalls req := by
    intro r hmem
    have := not_isWrite_of_mem_readCalls req _ hmem
    simp [Call.isWrite] at this
  have hfil : (readCalls req).filter Call.isDebit = [] := by
    rw [List.filter_eq_nil_iff]
    intro c hc
    simp only [readCalls, List.mem_cons, List.mem_map] at hc
    rcases hc with rfl | ⟨id, -, rfl⟩ <;> simp [Call.isDebit]
  rcases CreateRedemption_cases d f req with ⟨n, resp, hrun, -⟩ | ⟨c, hc, hf, -, hrun⟩
  · rw [hrun]
    simp only [callsMade_recordAll, customers_recordAll]
    refine ⟨?_, ?_, ?_⟩
    · intro r _ hmem
      exact absurd (List.mem_of_mem_take hmem) (hro2 r)
    · intro id p hmem
      exact absurd (List.mem_of_mem_take hmem) (hro id p)
    · have hsub : ((readCalls req).take n).filter Call.isDebit = [] := by
        rw [List.filter_eq_nil_iff]
        intro c hc
        exact (List.filter_eq_nil_iff.1 hfil) c (List.mem_of_mem_take hc)
      simp [hsub]
  · have hid := findCustomer_id hc
    have hget : (DB.GetCustomer d f.getCustomer req.CustomerID).2 = .ok c := by
      simp [DB.GetCustomer, hf, hc]
    rw [hrun, callsMade_commit]
    by_cases h1 : c.PointsBalance < d.requestedCost req.VoucherIDs
    · simp only [h1, if_true, List.append_nil, hfil, List.length_nil, Nat.zero_le, and_true]
      refine ⟨fun r _ hmem => absurd hmem (hro2 r), fun id p hmem => absurd hmem (hro id p)⟩
    · by_cases h2 : f.createRedemption = true
      · simp only [h1, h2, if_false, if_true, List.filter_append, hfil, List.nil_append]
        refine ⟨?_, ?_, by simp [Call.isDebit, List.filter]⟩
        · intro r _ _
          refine ⟨?_, ?_, ?_⟩
          · simp [Handler.commit, h1, h2, httpError]
          · intro id p hmem
            simp only [List.mem_append, List.mem_singleton] at hmem
            rcases hmem with hmem | hmem
            · exact hro id p hmem
            · cases hmem
          · simp [Handler.commit, h1, h2]
        · intro id p hmem
          simp only [List.mem_append, List.mem_singleton] at hmem
          rcases hmem with hmem | hmem
          · exact absurd hmem (hro id p)
          · cases hmem
      · have h2f : f.createRedemption = false := by simpa using h2
        refine ⟨fun r hr _ => (by rw [h2f] at hr; cases hr), ?_, ?_⟩
        · intro id p hmem
          simp only [h1, h2f, if_false, Bool.false_eq_true] at hmem ⊢
          rcases List.mem_append.1 hmem with hmem | hmem
          · exact absurd hmem (hro id p)
          · simp at hmem
            obtain ⟨rfl, rfl⟩ := hmem
            exact ⟨trivial, c, _, hget, hid.symm, rfl⟩
        · simp [h1, h2f, hfil, Call.isDebit, List.filter]

/-- C19 on the store of the examples, with a failing insert: 500, no debit, balance 1000. -/
theorem C19_insert_then_debit_witness :
    (Handler.CreateRedemption (demoStore 1000)
        { getCustomer := false, getVoucher := [], createRedemption := true,
          updateCustomerPoints := false } (some ⟨1, [1]⟩)).2.status = 500 ∧
    (∀ id p, Call.UpdateCustomerPoints id p ∉
      callsMade (demoStore 1000)
        (Handler.CreateRedemption (demoStore 1000)
          { getCustomer := false, getVoucher := [], createRedemption := true,
            updateCustomerPoints := false } (some ⟨1, [1]⟩)).1) ∧
    (Handler.CreateRedemption (demoStore 1000)
        { getCustomer := false, getVoucher := [], createRedemption := true,
          updateCustomerPoints := false } (some ⟨1, [1]⟩)).1.customers =
      (demoStore 1000).customers :=
  (C19_insert_then_debit (demoStore 1000)
    { getCustomer := false, getVoucher := [], createRedemption := true,
      updateCustomerPoints := false } ⟨1, [1]⟩).1
    (newRedemption 1 100 [newItem 1 100]) rfl (by decide)

theorem wrapInt_add_wrapInt (a b : Int) : wrapInt (a + wrapInt b) = wrapInt (a + b) := by
  unfold wrapInt
  omega

theorem sumCost_append (d : Store) (xs ys : List Int) :
    d.sumCost (xs ++ ys) = d.sumCost xs + d.sumCost ys := by
  simp [Store.sumCost]

theorem sumCost_replicate (d : Store) (k : Nat) (id : Int) :
    d.sumCost (List.replicate k id) = k * d.cost id := by
  simp [Store.sumCost]

/-- C1 (conservation of balance) fails as stated: with balance 0 and voucher 1 (cost
`math.MaxInt64`) requested twice, the `int` total wraps to -2, the handler
answers 201 and leaves balance 2, which is not 0 minus the sum of the costs. -/
theorem C1_conservation_counterexample :
    (Handler.CreateRedemption (overflowStore 0) Faults.none (some ⟨1, [1, 1]⟩)).2.status = 201 ∧
    (overflowStore 0).balance 1 = some 0 ∧
    (overflowStore 0).sumCost [1, 1] = 18446744073709551614 ∧
    (Handler.CreateRedemption (overflowStore 0) Faults.none (some ⟨1, [1, 1]⟩)).1.balance 1 =
      some 2 ∧
    (0 : Int) - 18446744073709551614 ≠ 2 := by
  decide

/-- C1 as amended.  Whenever `Handler.CreateRedemption` answers 201, the customer had a
balance `before`, the balance in the store afterwards is `before` minus the sum
of the `points_cost` of the requested vouchers counted with multiplicity,
reduced into the range of `int` by wrap-around, and `UpdateCustomerPoints` is
called exactly with the customer's id and that value (and with nothing else).
When the exact difference is in the range of `int`, the balance afterwards is
the exact difference. -/
theorem C1_conservation_amended (d : Store) (f : Faults) (req : RedemptionRequest)
    (h : (Handler.CreateRedemption d f (some req)).2.status = 201) :
    ∃ before : Int, d.balance req.CustomerID = some before ∧
      (Handler.CreateRedemption d f (some req)).1.balance req.CustomerID =
        some (wrapInt (before - d.sumCost req.VoucherIDs)) ∧
      Call.UpdateCustomerPoints req.CustomerID (wrapInt (before - d.sumCost req.VoucherIDs)) ∈
        callsMade d (Handler.CreateRedemption d f (some req)).1 ∧
      (∀ id p, Call.UpdateCustomerPoints id p ∈
          callsMade d (Handler.CreateRedemption d f (some req)).1 →
        id = req.CustomerID ∧ p = wrapInt (before - d.sumCost req.VoucherIDs)) ∧
      (minInt ≤ before - d.sumCost req.VoucherIDs →
        before - d.sumCost req.VoucherIDs ≤ maxInt →
        (Handler.CreateRedemption d f (some req)).1.balance req.CustomerID =
          some (before - d.sumCost req.VoucherIDs)) := by
  obtain ⟨c, hc, -, -, hrun⟩ := CreateRedemption_created d f req h
  have hb := balance_of_findCustomer hc
  have hval : wrapInt (c.PointsBalance - d.requestedCost req.VoucherIDs) =
      wrapInt (c.PointsBalance - d.sumCost req.VoucherIDs) := by
    rw [requestedCost_eq_wrapInt, wrapInt_sub_wrapInt]
  have hcalls : callsMade d (Handler.CreateRedemption d f (some req)).1 =
      readCalls req ++
        [Call.CreateRedemption (newRedemption req.CustomerID (d.requestedCost req.VoucherIDs)
            (pricedItems d req.VoucherIDs)),
         Call.UpdateCustomerPoints req.CustomerID
            (wrapInt (c.PointsBalance - d.sumCost req.VoucherIDs))] := by
    apply callsMade_eq
    rw [hrun, hval]
    simp
  have hafter : (Handler.CreateRedemption d f (some req)).1.balance req.CustomerID =
      some (wrapInt (c.PointsBalance - d.sumCost req.VoucherIDs)) := by
    rw [hrun, hval]
    simp [balance_setPoints, hb]
  refine ⟨c.PointsBalance, hb, hafter, ?_, ?_, ?_⟩
  · rw [hcalls]; simp
  · intro id p hmem
    rw [hcalls] at hmem
    simpa [readCalls] using hmem
  · intro h1 h2
    rw [hafter, wrapInt_of_range h1 h2]

/-- C1 as amended, on the scenario of the specification: balance 1000, vouchers costing 100 and
200, success, new balance 700. -/
theorem C1_conservation_amended_witness :
    (Handler.CreateRedemption (demoStore 1000) Faults.none (some ⟨1, [1, 2]⟩)).1.balance 1 =
      some 700 ∧
    ∃ before : Int, (demoStore 1000).balance 1 = some before ∧
      (Handler.CreateRedemption (demoStore 1000) Faults.none (some ⟨1, [1, 2]⟩)).1.balance 1 =
        some (wrapInt (before - (demoStore 1000).sumCost [1, 2])) ∧
      Call.UpdateCustomerPoints 1 (wrapInt (before - (demoStore 1000).sumCost [1, 2])) ∈
        callsMade (demoStore 1000)
          (Handler.CreateRedemption (demoStore 1000) Faults.none (some ⟨1, [1, 2]⟩)).1 ∧
      (∀ id p, Call.UpdateCustomerPoints id p ∈
          callsMade (demoStore 1000)
            (Handler.CreateRedemption (demoStore 1000) Faults.none (some ⟨1, [1, 2]⟩)).1 →
        id = 1 ∧ p = wrapInt (before - (demoStore 1000).sumCost [1, 2])) ∧
      (minInt ≤ before - (demoStore 1000).sumCost [1, 2] →
        before - (demoStore 1000).sumCost [1, 2] ≤ maxInt →
        (Handler.CreateRedemption (demoStore 1000) Faults.none (some ⟨1, [1, 2]⟩)).1.balance 1 =
          some (before - (demoStore 1000).sumCost [1, 2])) :=
  ⟨by decide, C1_conservation_amended (demoStore 1000) Faults.none ⟨1, [1, 2]⟩ (by decide)⟩

/-- C3 (insufficient balance at the boundary) fails as stated: the customer row is read, voucher 1
is read and active both times, the balance 0 is below the total of the costs
(twice `math.MaxInt64`), yet the handler answers 201 and makes both write
calls, because the `int` total it compares with has wrapped to -2. -/
theorem C3_insufficient_boundary_counterexample :
    (overflowStore 0).balance 1 = some 0 ∧
    (∀ id ∈ [1, 1], ∃ v, (overflowStore 0).findVoucher id = some v ∧ v.IsActive = true) ∧
    (0 : Int) < (overflowStore 0).sumCost [1, 1] ∧
    (Handler.CreateRedemption (overflowStore 0) Faults.none (some ⟨1, [1, 1]⟩)).2 =
      { status := 201, body := .id 1 } ∧
    (callsMade (overflowStore 0)
        (Handler.CreateRedemption (overflowStore 0) Faults.none (some ⟨1, [1, 1]⟩)).1).filter
        Call.isWrite =
      [Call.CreateRedemption (newRedemption 1 (-2)
          [newItem 1 9223372036854775807, newItem 1 9223372036854775807]),
       Call.UpdateCustomerPoints 1 2] := by
  decide

/-- C3 as amended.  For a request whose customer row is read, whose vouchers are all read and
active, and whose sum of `points_cost` is in the range of `int`, the handler
answers 400 "Insufficient points" without any write call exactly when the
balance is below that sum; when the balance is at least the sum and the two
writes succeed, it answers 201 and leaves balance minus sum (reduced by
wrap-around, and exactly balance minus sum when that is in the range of `int`;
so a balance equal to the sum leaves 0). -/
theorem C3_insufficient_boundary_amended (d : Store) (f : Faults) (req : RedemptionRequest)
    (c : Customer)
    (hf : f.getCustomer = false) (hc : d.findCustomer req.CustomerID = some c)
    (hfv : ∀ b ∈ f.getVoucher, b = false)
    (hv : ∀ id ∈ req.VoucherIDs, ∃ v, d.findVoucher id = some v ∧ v.IsActive = true)
    (hlo : minInt ≤ d.sumCost req.VoucherIDs) (hhi : d.sumCost req.VoucherIDs ≤ maxInt) :
    (((Handler.CreateRedemption d f (some req)).2 = httpError "Insufficient points" 400 ∧
        ∀ call ∈ callsMade d (Handler.CreateRedemption d f (some req)).1, call.isWrite = false) ↔
      c.PointsBalance < d.sumCost req.VoucherIDs) ∧
    (d.sumCost req.VoucherIDs ≤ c.PointsBalance →
      f.createRedemption = false → f.updateCustomerPoints = false →
      (Handler.CreateRedemption d f (some req)).2.status = 201 ∧
      (Handler.CreateRedemption d f (some req)).1.balance req.CustomerID =
        some (wrapInt (c.PointsBalance - d.sumCost req.VoucherIDs)) ∧
      (c.PointsBalance - d.sumCost req.VoucherIDs ≤ maxInt →
        (Handler.CreateRedemption d f (some req)).1.balance req.CustomerID =
          some (c.PointsBalance - d.sumCost req.VoucherIDs)) ∧
      (c.PointsBalance = d.sumCost req.VoucherIDs →
        (Handler.CreateRedemption d f (some req)).1.balance req.CustomerID = some 0)) := by
  have hrun := CreateRedemption_valid d f req c hf hc hfv hv
  have hb := balance_of_findCustomer hc
  have hreq := requestedCost_eq_sumCost d req.VoucherIDs hlo hhi
  rw [hrun, callsMade_commit]
  unfold Handler.commit
  rw [hreq]
  refine ⟨⟨?_, ?_⟩, ?_⟩
  · rintro ⟨-, hw⟩
    by_contra hlt
    by_cases h2 : f.createRedemption = true
    · have := hw (Call.CreateRedemption (newRedemption req.CustomerID
        (d.sumCost req.VoucherIDs) (pricedItems d req.VoucherIDs))) (by simp [hlt, h2])
      simp [Call.isWrite] at this
    · have := hw (Call.CreateRedemption (newRedemption req.CustomerID
        (d.sumCost req.VoucherIDs) (pricedItems d req.VoucherIDs))) (by simp [hlt, h2])
      simp [Call.isWrite] at this
  · intro hlt
    simp only [hlt, if_true, List.append_nil, true_and]
    exact not_isWrite_of_mem_readCalls req
  · intro hle h1 h2
    have hbal : ((((((d.recordAll (readCalls req)).record
        (.CreateRedemption (newRedemption req.CustomerID (d.sumCost req.VoucherIDs)
          (pricedItems d req.VoucherIDs)))).insertRedemption
        (newRedemption req.CustomerID (d.sumCost req.VoucherIDs)
          (pricedItems d req.VoucherIDs))).record
        (.UpdateCustomerPoints req.CustomerID
          (wrapInt (c.PointsBalance - d.sumCost req.VoucherIDs)))).setPoints
        req.CustomerID (wrapInt (c.PointsBalance - d.sumCost req.VoucherIDs))).balance
          req.CustomerID) = some (wrapInt (c.PointsBalance - d.sumCost req.VoucherIDs)) := by
      simp [balance_setPoints, hb]
    simp only [not_lt.2 hle, h1, h2, if_false, Bool.false_eq_true, true_and, hbal]
    refine ⟨?_, ?_⟩
    · intro h3
      rw [wrapInt_of_range (by unfold minInt; omega) h3]
    · intro h3
      rw [h3, sub_self]
      rfl

/-- C3 as amended, on the scenario of the specification: balance 50, one voucher costing 100. -/
theorem C3_insufficient_boundary_amended_witness :
    (Handler.CreateRedemption (demoStore 50) Faults.none (some ⟨1, [1]⟩)).2 =
        httpError "Insufficient points" 400 ∧
    (Handler.CreateRedemption (demoStore 50) Faults.none (some ⟨1, [1]⟩)).1.balance 1 = some 50 ∧
    ((((Handler.CreateRedemption (demoStore 50) Faults.none (some ⟨1, [1]⟩)).2 =
          httpError "Insufficient points" 400 ∧
        ∀ call ∈ callsMade (demoStore 50)
          (Handler.CreateRedemption (demoStore 50) Faults.none (some ⟨1, [1]⟩)).1,
          call.isWrite = false) ↔
      (50 : Int) < (demoStore 50).sumCost [1]) ∧
    ((demoStore 50).sumCost [1] ≤ (50 : Int) →
      Faults.none.createRedemption = false → Faults.none.updateCustomerPoints = false →
      (Handler.CreateRedemption (demoStore 50) Faults.none (some ⟨1, [1]⟩)).2.status = 201 ∧
      (Handler.CreateRedemption (demoStore 50) Faults.none (some ⟨1, [1]⟩)).1.balance 1 =
        some (wrapInt (50 - (demoStore 50).sumCost [1])) ∧
      ((50 : Int) - (demoStore 50).sumCost [1] ≤ maxInt →
        (Handler.CreateRedemption (demoStore 50) Faults.none (some ⟨1, [1]⟩)).1.balance 1 =
          some (50 - (demoStore 50).sumCost [1])) ∧
      ((50 : Int) = (demoStore 50).sumCost [1] →
        (Handler.CreateRedemption (demoStore 50) Faults.none (some ⟨1, [1]⟩)).1.balance 1 =
          some 0))) :=
  ⟨by decide, by decide,
   C3_insufficient_boundary_amended (demoStore 50) Faults.none ⟨1, [1]⟩
     { ID := 1, Name := "Ann", Email := "ann@example.com", PointsBalance := 50,
       CreatedAt := 0, UpdatedAt := 0 }
     rfl rfl (by decide)
     (by intro id hid
         simp only [List.mem_singleton] at hid
         subst hid
         exact ⟨_, rfl, rfl⟩)
     (by decide) (by decide)⟩

/-- C5 (invariant I2) fails as stated: with voucher 1 (cost `math.MaxInt64`) requested twice,
the Redemption passed to the store has `TotalPointsCost` -2 while the sum of
`PointsCost` over its two items is twice `math.MaxInt64`. -/
theorem C5_total_is_sum_counterexample :
    Call.CreateRedemption (newRedemption 1 (-2)
        [newItem 1 9223372036854775807, newItem 1 9223372036854775807]) ∈
      callsMade (overflowStore 0)
        (Handler.CreateRedemption (overflowStore 0) Faults.none (some ⟨1, [1, 1]⟩)).1 ∧
    (newRedemption 1 (-2)
        [newItem 1 9223372036854775807, newItem 1 9223372036854775807]).TotalPointsCost = -2 ∧
    itemsCost (newRedemption 1 (-2)
        [newItem 1 9223372036854775807, newItem 1 9223372036854775807]).Items =
      18446744073709551614 := by
  decide

/-- C5 as amended.  Every Redemption value that `Handler.CreateRedemption` passes to the store
has `TotalPointsCost` equal to the sum of `PointsCost` over its `Items` reduced
into the range of `int` by wrap-around; it equals the sum itself whenever
that sum is in the range of `int`. -/
theorem C5_total_is_sum_amended (d : Store) (f : Faults) (body : Option RedemptionRequest)
    (r : Redemption) :
    Call.CreateRedemption r ∈ callsMade d (Handler.CreateRedemption d f body).1 →
      r.TotalPointsCost = wrapInt (itemsCost r.Items) ∧
      (minInt ≤ itemsCost r.Items → itemsCost r.Items ≤ maxInt →
        r.TotalPointsCost = itemsCost r.Items) := by
  intro h
  obtain ⟨req, -, rfl⟩ := createRedemption_call_eq d f body r h
  have h1 : (newRedemption req.CustomerID (d.requestedCost req.VoucherIDs)
      (pricedItems d req.VoucherIDs)).TotalPointsCost =
      wrapInt (itemsCost (newRedemption req.CustomerID (d.requestedCost req.VoucherIDs)
        (pricedItems d req.VoucherIDs)).Items) := by
    simp [newRedemption, itemsCost_pricedItems, requestedCost_eq_wrapInt]
  refine ⟨h1, ?_⟩
  intro hlo hhi
  rw [h1, wrapInt_of_range hlo hhi]

/-- C5 as amended, on the scenario of the specification: the redemption passed to the store has
total 300 and items costing 100 and 200. -/
theorem C5_total_is_sum_amended_witness :
    Call.CreateRedemption (newRedemption 1 300 [newItem 1 100, newItem 2 200]) ∈
      callsMade (demoStore 1000)
        (Handler.CreateRedemption (demoStore 1000) Faults.none (some ⟨1, [1, 2]⟩)).1 ∧
    (newRedemption 1 300 [newItem 1 100, newItem 2 200]).TotalPointsCost =
      wrapInt (itemsCost (newRedemption 1 300 [newItem 1 100, newItem 2 200]).Items) ∧
    (minInt ≤ itemsCost (newRedemption 1 300 [newItem 1 100, newItem 2 200]).Items →
      itemsCost (newRedemption 1 300 [newItem 1 100, newItem 2 200]).Items ≤ maxInt →
      (newRedemption 1 300 [newItem 1 100, newItem 2 200]).TotalPointsCost =
        itemsCost (newRedemption 1 300 [newItem 1 100, newItem 2 200]).Items) :=
  ⟨by decide,
   C5_total_is_sum_amended (demoStore 1000) Faults.none (some ⟨1, [1, 2]⟩) _ (by decide)⟩

/-- C9 (duplicates are priced independently) fails as stated: voucher 1 costs `math.MaxInt64`;
the loop on `[1]` returns that cost, the loop on `[1] ++ [1]` returns two
items and the total -2, which is not the sum of the two totals, and the
request for voucher 1 twice is accepted with balance 0 and leaves balance 2. -/
theorem C9_total_additive_counterexample :
    (Handler.pricingLoop (overflowStore 0) [] [1] 0 []).2 =
      .ok (9223372036854775807, [newItem 1 9223372036854775807]) ∧
    (Handler.pricingLoop (overflowStore 0) [] ([1] ++ [1]) 0 []).2 =
      .ok (-2, [newItem 1 9223372036854775807, newItem 1 9223372036854775807]) ∧
    (-2 : Int) ≠ 9223372036854775807 + 9223372036854775807 ∧
    (-2 : Int) ≠ 2 * (overflowStore 0).cost 1 ∧
    (Handler.CreateRedemption (overflowStore 0) Faults.none (some ⟨1, [1, 1]⟩)).2.status = 201 ∧
    (Handler.CreateRedemption (overflowStore 0) Faults.none (some ⟨1, [1, 1]⟩)).1.balance 1 =
      some 2 :=
  ⟨rfl, rfl, by decide, by decide, by decide, by decide⟩

/-- C9 as amended.  On lists of ids of existing active vouchers, with no failing lookup, the
loop of `Handler.CreateRedemption` returns items that are additive over
concatenation and a total that is additive up to the wrap-around of `int`: the
run on `xs ++ ys` returns the concatenation of the items and the wrapped sum of
the totals of the runs on `xs` and on `ys`, which is their sum when that is in
the range of `int`.  So an id occurring `k` times yields `k` items and `k`
times its cost (wrapped), and a request for the same voucher twice, when twice
the cost is in the range of `int` and covered by the balance, is accepted (201)
and debited twice the cost. -/
theorem C9_total_additive_amended (d : Store) (fv : List Bool) (xs ys : List Int)
    (hfv : ∀ b ∈ fv, b = false)
    (hv : ∀ id ∈ xs ++ ys, ∃ v, d.findVoucher id = some v ∧ v.IsActive = true) :
    (∃ t1 i1 t2 i2,
      (Handler.pricingLoop d fv xs 0 []).2 = .ok (t1, i1) ∧
      (Handler.pricingLoop d fv ys 0 []).2 = .ok (t2, i2) ∧
      (Handler.pricingLoop d fv (xs ++ ys) 0 []).2 = .ok (wrapInt (t1 + t2), i1 ++ i2) ∧
      (minInt ≤ t1 + t2 → t1 + t2 ≤ maxInt →
        (Handler.pricingLoop d fv (xs ++ ys) 0 []).2 = .ok (t1 + t2, i1 ++ i2))) ∧
    (∀ (k : Nat) (id : Int), id ∈ xs ++ ys →
      (Handler.pricingLoop d fv (List.replicate k id) 0 []).2 =
        .ok (wrapInt (k * d.cost id), List.replicate k (newItem id (d.cost id))) ∧
      (minInt ≤ k * d.cost id → k * d.cost id ≤ maxInt →
        (Handler.pricingLoop d fv (List.replicate k id) 0 []).2 =
          .ok (k * d.cost id, List.replicate k (newItem id (d.cost id))))) ∧
    (∀ (f : Faults) (c : Customer) (cid id : Int), id ∈ xs ++ ys →
      f.getCustomer = false → f.getVoucher = fv → f.createRedemption = false →
      f.updateCustomerPoints = false → d.findCustomer cid = some c →
      minInt ≤ 2 * d.cost id → 2 * d.cost id ≤ maxInt →
      2 * d.cost id ≤ c.PointsBalance →
      (Handler.CreateRedemption d f (some ⟨cid, [id, id]⟩)).2.status = 201 ∧
      (Handler.CreateRedemption d f (some ⟨cid, [id, id]⟩)).1.balance cid =
        some (wrapInt (c.PointsBalance - 2 * d.cost id))) := by
  have hx : ∀ id ∈ xs, ∃ v, d.findVoucher id = some v ∧ v.IsActive = true :=
    fun id h => hv id (List.mem_append_left _ h)
  have hy : ∀ id ∈ ys, ∃ v, d.findVoucher id = some v ∧ v.IsActive = true :=
    fun id h => hv id (List.mem_append_right _ h)
  have hxy : (Handler.pricingLoop d fv (xs ++ ys) 0 []).2 =
      .ok (wrapInt (d.requestedCost xs + d.requestedCost ys),
        pricedItems d xs ++ pricedItems d ys) := by
    rw [pricingLoop_total (xs ++ ys) d fv 0 [] hfv hv]
    have : d.totalFrom 0 (xs ++ ys) = wrapInt (d.requestedCost xs + d.requestedCost ys) := by
      rw [requestedCost_eq_wrapInt, requestedCost_eq_wrapInt, wrapInt_wrapInt_add,
        wrapInt_add_wrapInt, ← sumCost_append]
      exact requestedCost_eq_wrapInt d (xs ++ ys)
    simp [pricedItems, this]
  have hk : ∀ (k : Nat) (id : Int), id ∈ xs ++ ys →
      (Handler.pricingLoop d fv (List.replicate k id) 0 []).2 =
        .ok (wrapInt (k * d.cost id), List.replicate k (newItem id (d.cost id))) := by
    intro k id hid
    rw [pricingLoop_total (List.replicate k id) d fv 0 [] hfv
      (fun j hj => by rw [List.eq_of_mem_replicate hj]; exact hv id hid)]
    have : d.totalFrom 0 (List.replicate k id) = wrapInt (k * d.cost id) := by
      rw [← sumCost_replicate]
      exact requestedCost_eq_wrapInt d (List.replicate k id)
    simp [this]
  refine ⟨⟨d.requestedCost xs, pricedItems d xs, d.requestedCost ys, pricedItems d ys,
    ?_, ?_, hxy, ?_⟩, ?_, ?_⟩
  · rw [pricingLoop_total xs d fv 0 [] hfv hx]; simp [pricedItems, Store.requestedCost]
  · rw [pricingLoop_total ys d fv 0 [] hfv hy]; simp [pricedItems, Store.requestedCost]
  · intro hlo hhi
    rw [hxy, wrapInt_of_range hlo hhi]
  · intro k id hid
    refine ⟨hk k id hid, ?_⟩
    intro hlo hhi
    rw [hk k id hid, wrapInt_of_range hlo hhi]
  · intro f c cid id hid h1 h2 h3 h4 hc hlo hhi hle
    have hrun := CreateRedemption_valid d f ⟨cid, [id, id]⟩ c h1 hc (by rw [h2]; exact hfv)
      (fun j hj => by
        have : j = id := by simpa using hj
        rw [this]; exact hv id hid)
    have hb := balance_of_findCustomer hc
    have hsum : d.sumCost [id, id] = 2 * d.cost id := by
      simp [Store.sumCost]; ring
    have hcost : d.requestedCost [id, id] = 2 * d.cost id := by
      rw [requestedCost_eq_sumCost d [id, id] (by rw [hsum]; exact hlo) (by rw [hsum]; exact hhi),
        hsum]
    rw [hrun]
    unfold Handler.commit
    simp only [hcost, not_lt.2 hle, h3, h4, if_false, Bool.false_eq_true]
    simp [balance_setPoints, hb]

/-- C9 as amended, on the store of the examples: voucher 1 (cost 100) twice costs 200. -/
theorem C9_total_additive_amended_witness :
    (Handler.pricingLoop (demoStore 1000) [] ([1] ++ [1]) 0 []).2 =
      .ok (200, [newItem 1 100, newItem 1 100]) ∧
    (∀ b ∈ ([] : List Bool), b = false) ∧
    ((∃ t1 i1 t2 i2,
      (Handler.pricingLoop (demoStore 1000) [] [1] 0 []).2 = .ok (t1, i1) ∧
      (Handler.pricingLoop (demoStore 1000) [] [1] 0 []).2 = .ok (t2, i2) ∧
      (Handler.pricingLoop (demoStore 1000) [] ([1] ++ [1]) 0 []).2 =
        .ok (wrapInt (t1 + t2), i1 ++ i2) ∧
      (minInt ≤ t1 + t2 → t1 + t2 ≤ maxInt →
        (Handler.pricingLoop (demoStore 1000) [] ([1] ++ [1]) 0 []).2 =
          .ok (t1 + t2, i1 ++ i2))) ∧
    (∀ (k : Nat) (id : Int), id ∈ [1] ++ [1] →
      (Handler.pricingLoop (demoStore 1000) [] (List.replicate k id) 0 []).2 =
        .ok (wrapInt (k * (demoStore 1000).cost id),
          List.replicate k (newItem id ((demoStore 1000).cost id))) ∧
      (minInt ≤ k * (demoStore 1000).cost id → k * (demoStore 1000).cost id ≤ maxInt →
        (Handler.pricingLoop (demoStore 1000) [] (List.replicate k id) 0 []).2 =
          .ok (k * (demoStore 1000).cost id,
            List.replicate k (newItem id ((demoStore 1000).cost id))))) ∧
    (∀ (f : Faults) (c : Customer) (cid id : Int), id ∈ [1] ++ [1] →
      f.getCustomer = false → f.getVoucher = [] → f.createRedemption = false →
      f.updateCustomerPoints = false → (demoStore 1000).findCustomer cid = some c →
      minInt ≤ 2 * (demoStore 1000).cost id → 2 * (demoStore 1000).cost id ≤ maxInt →
      2 * (demoStore 1000).cost id ≤ c.PointsBalance →
      (Handler.CreateRedemption (demoStore 1000) f (some ⟨cid, [id, id]⟩)).2.status = 201 ∧
      (Handler.CreateRedemption (demoStore 1000) f (some ⟨cid, [id, id]⟩)).1.balance cid =
        some (wrapInt (c.PointsBalance - 2 * (demoStore 1000).cost id)))) :=
  ⟨rfl, by decide,
   C9_total_additive_amended (demoStore 1000) [] [1] [1] (by decide)
     (by intro id hid
         have : id = 1 := by simpa using hid
         subst this
         exact ⟨_, rfl, rfl⟩)⟩

theorem cost_nonneg (d : Store) (hv : ∀ v ∈ d.vouchers, 0 ≤ v.PointsCost) (id : Int) :
    0 ≤ d.cost id := by
  unfold Store.cost Store.findVoucher
  cases h : d.vouchers.find? (fun v => v.ID == id) with
  | none => simp
  | some v => simpa using hv v (List.mem_of_find?_eq_some h)

theorem sumCost_nonneg (d : Store) (hv : ∀ v ∈ d.vouchers, 0 ≤ v.PointsCost) (ids : List Int) :
    0 ≤ d.sumCost ids := by
  unfold Store.sumCost
  apply List.sum_nonneg
  intro x hx
  obtain ⟨id, -, rfl⟩ := List.mem_map.1 hx
  exact cost_nonneg d hv id

theorem sumCost_cons (d : Store) (id : Int) (ids : List Int) :
    d.sumCost (id :: ids) = d.cost id + d.sumCost ids := by
  simp [Store.sumCost]

@[simp] theorem vouchers_record (d : Store) (c : Call) :
    (d.record c).vouchers = d.vouchers := rfl

@[simp] theorem vouchers_insertRedemption (d : Store) (r : Redemption) :
    (d.insertRedemption r).vouchers = d.vouchers := rfl

@[simp] theorem vouchers_setPoints (d : Store) (id p : Int) :
    (d.setPoints id p).vouchers = d.vouchers := rfl

/-- One step of a call keeps the balances between 0 and `maxInt` when no cost is
negative and the costs asked for fit an `int`; it makes at most one call. -/
theorem Task.step_nonneg (d0 d : Store) (t : Task)
    (hv0 : ∀ v ∈ d0.vouchers, 0 ≤ v.PointsCost) (hvs : d.vouchers = d0.vouchers)
    (hc : ∀ c ∈ d.customers, 0 ≤ c.PointsBalance ∧ c.PointsBalance ≤ maxInt)
    (ht : t.ok d0) :
    (∀ c ∈ (t.step d).1.customers, 0 ≤ c.PointsBalance ∧ c.PointsBalance ≤ maxInt) ∧
    (t.step d).1.vouchers = d0.vouchers ∧ (t.step d).2.ok d0 ∧
    ∃ cs : List Call, (t.step d).1.log = d.log ++ cs ∧
      ∀ id p, Call.UpdateCustomerPoints id p ∈ cs → 0 ≤ p := by
  obtain ⟨req, f, phase⟩ := t
  obtain ⟨hph, hsum⟩ := ht
  simp only at hph hsum
  cases phase with
  | start =>
    simp only [Task.step, DB.GetCustomer]
    cases f.getCustomer
    · cases hfc : d.findCustomer req.CustomerID with
      | none =>
        simp [hfc, Task.ok, Phase.ok]
        exact ⟨hc, hvs, hsum⟩
      | some c =>
        have hmem : c ∈ d.customers := List.mem_of_find?_eq_some hfc
        simp [hfc, Task.ok, Phase.ok]
        exact ⟨hc, hvs, ⟨(hc c hmem).1, (hc c hmem).2, hsum⟩, hsum⟩
    · simp [Task.ok, Phase.ok]
      exact ⟨hc, hvs, hsum⟩
  | pricing customer fv rest totalPoints items =>
    simp only [Phase.ok] at hph
    obtain ⟨hb0, hb1, ht0, ht1⟩ := hph
    cases rest with
    | nil =>
      simp only [Task.step, DB.CreateRedemption]
      by_cases hlt : customer.PointsBalance < totalPoints
      · simp [hlt, Task.ok, Phase.ok]
        exact ⟨hc, hvs, hsum⟩
      · cases f.createRedemption
        · simp [hlt, Task.ok, Phase.ok]
          exact ⟨hc, hvs, ⟨ht0, not_lt.1 hlt, hb1⟩, hsum⟩
        · simp [hlt, Task.ok, Phase.ok]
          exact ⟨hc, hvs, hsum⟩
    | cons vID rest =>
      simp only [Task.step, DB.GetVoucher]
      cases nextFault fv
      · cases hfv : d.findVoucher vID with
        | none =>
          simp [hfv, Task.ok, Phase.ok]
          exact ⟨hc, hvs, hsum⟩
        | some v =>
          cases hv : v.IsActive
          · simp [hfv, hv, Task.ok, Phase.ok]
            exact ⟨hc, hvs, hsum⟩
          · have hcost : d0.cost vID = v.PointsCost := by
              have : d0.findVoucher vID = some v := by
                unfold Store.findVoucher at hfv ⊢
                rw [← hvs]; exact hfv
              simp [Store.cost, this]
            have hv0c := cost_nonneg d0 hv0 vID
            have hrest := sumCost_nonneg d0 hv0 rest
            rw [sumCost_cons, hcost] at ht1
            rw [hcost] at hv0c
            have hw : wrapInt (totalPoints + v.PointsCost) = totalPoints + v.PointsCost :=
              wrapInt_of_range (by unfold minInt; omega) (by omega)
            simp [hfv, hv, Task.ok, Phase.ok, hw]
            exact ⟨hc, hvs, ⟨hb0, hb1, by omega, by omega⟩, hsum⟩
      · simp [Task.ok, Phase.ok]
        exact ⟨hc, hvs, hsum⟩
  | inserted customer totalPoints id =>
    simp only [Phase.ok] at hph
    obtain ⟨ht0, hle, hb1⟩ := hph
    have hw : wrapInt (customer.PointsBalance - totalPoints) =
        customer.PointsBalance - totalPoints :=
      wrapInt_of_range (by unfold minInt; omega) (by omega)
    simp only [Task.step, DB.UpdateCustomerPoints, hw]
    cases f.updateCustomerPoints
    · simp only [Bool.false_eq_true, if_false, Task.ok, Phase.ok, true_and,
        vouchers_setPoints, vouchers_record]
      refine ⟨?_, hvs, hsum,
        [Call.UpdateCustomerPoints customer.ID (customer.PointsBalance - totalPoints)],
        rfl, ?_⟩
      · intro c hmem
        simp only [Store.setPoints, customers_record, List.mem_map] at hmem
        obtain ⟨c0, hc0, rfl⟩ := hmem
        by_cases hid : (c0.ID == customer.ID) = true
        · simp only [hid, if_true]; omega
        · simp only [hid, if_false]; exact hc c0 hc0
      · intro id p hmem
        simp only [List.mem_singleton, Call.UpdateCustomerPoints.injEq] at hmem
        omega
    · simp only [if_true, Task.ok, Phase.ok, true_and, customers_record, vouchers_record]
      refine ⟨hc, hvs, hsum,
        [Call.UpdateCustomerPoints customer.ID (customer.PointsBalance - totalPoints)],
        rfl, ?_⟩
      intro id p hmem
      simp only [List.mem_singleton, Call.UpdateCustomerPoints.injEq] at hmem
      omega
  | done resp =>
    simp only [Task.step]
    exact ⟨hc, hvs, ⟨trivial, hsum⟩, [], by simp, by simp⟩

theorem System.step_inv (d0 : Store) (hv0 : ∀ v ∈ d0.vouchers, 0 ≤ v.PointsCost)
    (s : System) (i : Nat) (h : s.Inv d0) : (s.step i).Inv d0 := by
  obtain ⟨hc, hvs, ht, cs, hlog, hcs⟩ := h
  unfold System.step
  cases hti : s.tasks[i]? with
  | none => exact ⟨hc, hvs, ht, cs, hlog, hcs⟩
  | some t =>
    obtain ⟨h1, h1v, h2, cs2, hlog2, hcs2⟩ :=
      Task.step_nonneg d0 s.store t hv0 hvs hc (ht t (List.getElem?_mem hti))
    refine ⟨h1, h1v, ?_, cs ++ cs2, ?_, ?_⟩
    · intro u hu
      rcases List.mem_or_eq_of_mem_set hu with hu | rfl
      · exact ht u hu
      · exact h2
    · simp only [hlog2, hlog, List.append_assoc]
    · intro id p hmem
      rcases List.mem_append.1 hmem with hmem | hmem
      · exact hcs id p hmem
      · exact hcs2 id p hmem

theorem System.run_inv (d0 : Store) (hv0 : ∀ v ∈ d0.vouchers, 0 ≤ v.PointsCost)
    (sched : List Nat) : ∀ s : System, s.Inv d0 → (s.run sched).Inv d0 := by
  induction sched with
  | nil => intro s h; exact h
  | cons i sched ih => intro s h; exact ih _ (System.step_inv d0 hv0 s i h)

theorem System.init_inv (d : Store) (calls : List (RedemptionRequest × Faults))
    (h0 : ∀ c ∈ d.customers, 0 ≤ c.PointsBalance ∧ c.PointsBalance ≤ maxInt)
    (hs : ∀ call ∈ calls, d.sumCost call.1.VoucherIDs ≤ maxInt) :
    (System.init d calls).Inv d := by
  refine ⟨h0, rfl, ?_, [], by simp [System.init], by simp⟩
  intro t ht
  simp only [System.init, List.mem_map] at ht
  obtain ⟨c, hcm, rfl⟩ := ht
  exact ⟨trivial, hs c hcm⟩

/-- C6 (balance non-negativity under every interleaving) fails as stated: one call alone, on a
store in which the only balance is `math.MaxInt64` (non-negative), asking
twice for voucher 1 (cost `math.MaxInt64`), computes the `int` total -2,
passes the balance check, and sends `UpdateCustomerPoints` the wrapped value
of `math.MaxInt64 + 2`, which is negative; the balance in the store is negative
afterwards. -/
theorem C6_balance_nonneg_counterexample :
    (∀ c ∈ (overflowStore 9223372036854775807).customers, 0 ≤ c.PointsBalance) ∧
    ((System.init (overflowStore 9223372036854775807) [(⟨1, [1, 1]⟩, Faults.none)]).run
        [0, 0, 0, 0, 0]).response 0 = some { status := 201, body := .id 1 } ∧
    ((System.init (overflowStore 9223372036854775807) [(⟨1, [1, 1]⟩, Faults.none)]).run
        [0, 0, 0, 0, 0]).store.balance 1 = some (-9223372036854775807) ∧
    Call.UpdateCustomerPoints 1 (-9223372036854775807) ∈
      callsMade (overflowStore 9223372036854775807)
        ((System.init (overflowStore 9223372036854775807) [(⟨1, [1, 1]⟩, Faults.none)]).run
          [0, 0, 0, 0, 0]).store ∧
    (Handler.CreateRedemption (overflowStore 9223372036854775807) Faults.none
        (some ⟨1, [1, 1]⟩)).1.balance 1 = some (-9223372036854775807) := by
  decide

/-- C6 as amended.  Start any finite list of calls of `Handler.CreateRedemption`, with any
outcome of their store calls, on a store in which every balance lies between 0
and the largest `int`, no voucher has a negative `points_cost`, and the sum of
the `points_cost` each call asks for does not exceed the largest `int`; let
the calls take their steps in any order: in the state reached no customer has
a negative balance, and every value passed to `UpdateCustomerPoints` is
non-negative. -/
theorem C6_balance_nonneg_amended (d : Store) (calls : List (RedemptionRequest × Faults))
    (sched : List Nat)
    (h0 : ∀ c ∈ d.customers, 0 ≤ c.PointsBalance ∧ c.PointsBalance ≤ maxInt)
    (hv0 : ∀ v ∈ d.vouchers, 0 ≤ v.PointsCost)
    (hs : ∀ call ∈ calls, d.sumCost call.1.VoucherIDs ≤ maxInt) :
    (∀ c ∈ ((System.init d calls).run sched).store.customers, 0 ≤ c.PointsBalance) ∧
    (∀ id b, ((System.init d calls).run sched).store.balance id = some b → 0 ≤ b) ∧
    (∀ id p, Call.UpdateCustomerPoints id p ∈
        callsMade d ((System.init d calls).run sched).store → 0 ≤ p) := by
  obtain ⟨hc, -, -, cs, hlog, hcs⟩ :=
    System.run_inv d hv0 sched _ (System.init_inv d calls h0 hs)
  refine ⟨fun c hm => (hc c hm).1, ?_, ?_⟩
  · intro id b hb
    simp only [Store.balance, Store.findCustomer, Option.map_eq_some'] at hb
    obtain ⟨c, hfind, rfl⟩ := hb
    exact (hc c (List.mem_of_find?_eq_some hfind)).1
  · intro id p hmem
    rw [callsMade_eq _ _ cs hlog] at hmem
    exact hcs id p hmem

/-- C6 as amended, on the race of the specification, with the two calls interleaved step by
step. -/
theorem C6_balance_nonneg_amended_witness :
    (raceSystem.run [0, 1, 0, 1, 0, 1, 0, 1]).store.balance 1 = some 50 ∧
    ((∀ c ∈ ((System.init raceStore [(⟨1, [1]⟩, Faults.none), (⟨1, [1]⟩, Faults.none)]).run
        [0, 1, 0, 1, 0, 1, 0, 1]).store.customers, 0 ≤ c.PointsBalance) ∧
    (∀ id b, ((System.init raceStore [(⟨1, [1]⟩, Faults.none), (⟨1, [1]⟩, Faults.none)]).run
        [0, 1, 0, 1, 0, 1, 0, 1]).store.balance id = some b → 0 ≤ b) ∧
    (∀ id p, Call.UpdateCustomerPoints id p ∈
        callsMade raceStore
          ((System.init raceStore [(⟨1, [1]⟩, Faults.none), (⟨1, [1]⟩, Faults.none)]).run
            [0, 1, 0, 1, 0, 1, 0, 1]).store → 0 ≤ p)) :=
  ⟨by decide,
   C6_balance_nonneg_amended raceStore [(⟨1, [1]⟩, Faults.none), (⟨1, [1]⟩, Faults.none)]
     [0, 1, 0, 1, 0, 1, 0, 1] (by decide) (by decide) (by decide)⟩

theorem countP_set_add {α : Type} (p : α → Bool) : ∀ (l : List α) (i : Nat) (t u : α),
    l[i]? = some t →
    (l.set i u).countP p + (if p t = true then 1 else 0) =
      l.countP p + (if p u = true then 1 else 0) := by
  intro l
  induction l with
  | nil => intro i t u h; simp at h
  | cons a l ih =>
    intro i t u h
    cases i with
    | zero =>
      simp only [List.getElem?_cons_zero, Option.some.injEq] at h
      subst h
      simp only [List.set_cons_zero, List.countP_cons]
      omega
    | succ i =>
      simp only [List.getElem?_cons_succ] at h
      have := ih i t u h
      simp only [List.set_cons_succ, List.countP_cons]
      omega

/-- A call of the race that read 150 goes on to answer 201, whatever the store holds. -/
theorem Task.read150_step (d : Store) (t : Task) (hvs : d.vouchers = raceStore.vouchers)
    (hreq : t.req = ⟨1, [1]⟩) (hf : t.faults = Faults.none) (h : t.phase.read150) :
    (t.step d).2.req = ⟨1, [1]⟩ ∧ (t.step d).2.faults = Faults.none ∧
      (t.step d).2.phase.read150 := by
  obtain ⟨req, f, phase⟩ := t
  simp only at hreq hf h
  subst hreq hf
  have hfv : d.findVoucher 1 = some
      { ID := 1, BrandID := 1, Code := "V1", Name := "Voucher 1", Description := "",
        PointsCost := 100, IsActive := true, ValidUntil := 0, CreatedAt := 0,
        UpdatedAt := 0 } := by
    simp [Store.findVoucher, hvs, raceStore]
  rcases h with h | h | ⟨id, h⟩ | ⟨id, h⟩
  · subst h
    rw [Task.step_voucher d ⟨1, [1]⟩ _ _ 1 [] 0 [] hfv rfl]
    exact ⟨rfl, rfl, Or.inr (Or.inl rfl)⟩
  · subst h
    rw [Task.step_insert d ⟨1, [1]⟩ (raceCustomer 150) 100 _ (by simp [raceCustomer])]
    exact ⟨rfl, rfl, Or.inr (Or.inr (Or.inl ⟨_, rfl⟩))⟩
  · subst h
    rw [Task.step_debit]
    exact ⟨rfl, rfl, Or.inr (Or.inr (Or.inr ⟨id, rfl⟩))⟩
  · subst h
    exact ⟨rfl, rfl, Or.inr (Or.inr (Or.inr ⟨id, rfl⟩))⟩

theorem System.step_read150 (s : System) (i : Nat) (h : s.Read150) : (s.step i).Read150 := by
  obtain ⟨hvs, htasks⟩ := h
  unfold System.step
  cases hti : s.tasks[i]? with
  | none => exact ⟨hvs, htasks⟩
  | some t =>
    obtain ⟨h1, h2, h3⟩ := htasks t (List.getElem?_mem hti)
    have hstep := Task.read150_step s.store t hvs h1 h2 h3
    refine ⟨?_, ?_⟩
    · show (t.step s.store).1.vouchers = raceStore.vouchers
      obtain ⟨req, f, phase⟩ := t
      simp only at h1 h2 h3
      subst h1 h2
      rcases h3 with h | h | ⟨id, h⟩ | ⟨id, h⟩
      · subst h
        have hfv : s.store.findVoucher 1 = some
            { ID := 1, BrandID := 1, Code := "V1", Name := "Voucher 1", Description := "",
              PointsCost := 100, IsActive := true, ValidUntil := 0, CreatedAt := 0,
              UpdatedAt := 0 } := by
          simp [Store.findVoucher, hvs, raceStore]
        rw [Task.step_voucher s.store ⟨1, [1]⟩ _ _ 1 [] 0 [] hfv rfl]
        exact hvs
      · subst h
        rw [Task.step_insert s.store ⟨1, [1]⟩ (raceCustomer 150) 100 _ (by simp [raceCustomer])]
        exact hvs
      · subst h
        rw [Task.step_debit]
        exact hvs
      · subst h
        exact hvs
    · intro u hu
      rcases List.mem_or_eq_of_mem_set hu with hu | rfl
      · exact htasks u hu
      · exact hstep

theorem System.run_read150 (sched : List Nat) :
    ∀ s : System, s.Read150 → (s.run sched).Read150 := by
  induction sched with
  | nil => intro s h; exact h
  | cons i sched ih => intro s h; exact ih _ (System.step_read150 s i h)

/-- One step of a call of the race inserts a row exactly when the call passes the
insert, and a call that comes to answer 201 has set the balance to 50. -/
theorem Task.step_race_count (d : Store) (t : Task) (b : Int)
    (hcust : d.customers = [raceCustomer b]) (hvs : d.vouchers = raceStore.vouchers)
    (ht : t.inRace b) :
    (t.step d).1.redemptions.length + (if t.phase.pastInsert = true then 1 else 0) =
      d.redemptions.length + (if (t.step d).2.phase.pastInsert = true then 1 else 0) ∧
    (∀ id : Int, (t.step d).2.phase = .done { status := 201, body := .id id } →
      (t.step d).1.customers = [raceCustomer 50] ∨
        t.phase = .done { status := 201, body := .id id }) := by
  obtain ⟨req, f, phase⟩ := t
  obtain ⟨hreq, hf, hph⟩ := ht
  simp only at hreq hf hph
  subst hreq hf
  have hfc : d.findCustomer 1 = some (raceCustomer b) := by
    simp [Store.findCustomer, hcust, raceCustomer]
  have hfv : d.findVoucher 1 = some
      { ID := 1, BrandID := 1, Code := "V1", Name := "Voucher 1", Description := "",
        PointsCost := 100, IsActive := true, ValidUntil := 0, CreatedAt := 0,
        UpdatedAt := 0 } := by
    simp [Store.findVoucher, hvs, raceStore]
  rcases hph with h | ⟨sb, hsb, h⟩ | ⟨sb, hsb, h⟩ | ⟨id, h⟩ | ⟨id, h⟩ | ⟨h, hb50⟩
  · subst h
    rw [Task.step_start d ⟨1, [1]⟩ _ hfc]
    exact ⟨by simp [Phase.pastInsert], fun id h => by cases h⟩
  · subst h
    rw [Task.step_voucher d ⟨1, [1]⟩ _ _ 1 [] 0 [] hfv rfl]
    exact ⟨by simp [Phase.pastInsert], fun id h => by cases h⟩
  · subst h
    rcases hsb with hsb | ⟨hsb, hb50⟩
    · subst hsb
      rw [Task.step_insert d ⟨1, [1]⟩ (raceCustomer 150) 100 _ (by simp [raceCustomer])]
      exact ⟨by simp [Phase.pastInsert, Store.insertRedemption], fun id h => by cases h⟩
    · subst hsb
      rw [Task.step_reject d ⟨1, [1]⟩ (raceCustomer 50) 100 _ (by simp [raceCustomer])]
      exact ⟨by simp [Phase.pastInsert, httpError], fun id h => by simp [httpError] at h⟩
  · subst h
    rw [Task.step_debit]
    refine ⟨by simp [Phase.pastInsert], fun id2 _ => Or.inl ?_⟩
    have hw : wrapInt 50 = 50 := by decide
    simp [Store.setPoints, hcust, raceCustomer, hw]
  · subst h
    exact ⟨by simp [Task.step], fun id2 h => Or.inr h⟩
  · subst h
    exact ⟨by simp [Task.step], fun id2 h => by simp [Task.step, httpError] at h⟩

theorem System.step_raceCount (s : System) (i : Nat) (h : s.RaceInv) (hc : s.RaceCount) :
    (s.step i).RaceCount := by
  obtain ⟨b, hb, hcust, hvs, htasks, h50, hlog⟩ := h
  obtain ⟨hcnt, hdeb⟩ := hc
  unfold System.step
  cases hti : s.tasks[i]? with
  | none => exact ⟨hcnt, hdeb⟩
  | some t =>
    obtain ⟨b2, hb2, hc2, -, -, -, -⟩ :=
      Task.step_race s.store t b hb hcust hvs hlog (htasks t (List.getElem?_mem hti))
    obtain ⟨k1, k2⟩ :=
      Task.step_race_count s.store t b hcust hvs (htasks t (List.getElem?_mem hti))
    have hold : s.store.customers = [raceCustomer 50] →
        (t.step s.store).1.customers = [raceCustomer 50] := by
      intro h1
      have hb50 : b = 50 := by
        have := hcust.symm.trans h1
        simpa [raceCustomer] using this
      rcases hb2 with rfl | ⟨rfl, -⟩
      · rw [hc2, hb50]
      · exact hc2
    refine ⟨?_, ?_⟩
    · show (t.step s.store).1.redemptions.length =
        (s.tasks.set i (t.step s.store).2).countP (fun t => t.phase.pastInsert)
      have := countP_set_add (fun t : Task => t.phase.pastInsert) s.tasks i t
        (t.step s.store).2 hti
      simp only at this
      omega
    · show (∃ u ∈ s.tasks.set i (t.step s.store).2, ∃ id : Int,
          u.phase = .done { status := 201, body := .id id }) →
        (t.step s.store).1.customers = [raceCustomer 50]
      rintro ⟨u, hu, id, hid⟩
      rcases List.mem_or_eq_of_mem_set hu with hu | rfl
      · exact hold (hdeb ⟨u, hu, id, hid⟩)
      · rcases k2 id hid with h1 | h1
        · exact h1
        · exact hold (hdeb ⟨t, List.getElem?_mem hti, id, h1⟩)

theorem System.run_raceCount (sched : List Nat) :
    ∀ s : System, s.RaceInv → s.RaceCount → (s.run sched).RaceCount := by
  induction sched with
  | nil => intro s _ h; exact h
  | cons i sched ih =>
    intro s h hc
    exact ih _ (System.step_raceInv s i h) (System.step_raceCount s i h hc)

theorem raceSystem_raceCount : raceSystem.RaceCount := by
  refine ⟨by decide, ?_⟩
  rintro ⟨t, ht, id, hid⟩
  simp only [raceSystem, System.init, List.map_cons, List.map_nil, List.mem_cons,
    List.mem_singleton, List.not_mem_nil, or_false, or_self] at ht
  subst ht
  cases hid

/-- When both calls of the race have read the customer while the balance is still 150,
both answer 201, two redemption rows are inserted and the balance ends at 50. -/
theorem race_both_read (s1 s2 : List Nat)
    (hstart : ∀ t ∈ (raceSystem.run s1).tasks, t.phase ≠ .start)
    (hbal : (raceSystem.run s1).store.balance 1 = some 150)
    (r0 r1 : Response)
    (h0 : (raceSystem.run (s1 ++ s2)).response 0 = some r0)
    (h1 : (raceSystem.run (s1 ++ s2)).response 1 = some r1) :
    r0.status = 201 ∧ r1.status = 201 ∧
      (raceSystem.run (s1 ++ s2)).store.redemptions.length = 2 ∧
      (raceSystem.run (s1 ++ s2)).store.balance 1 = some 50 := by
  obtain ⟨b1, hb1, hcust1, hvs1, htasks1, -, -⟩ := System.run_raceInv s1 _ raceSystem_raceInv
  have hb150 : b1 = 150 := by
    have : (raceSystem.run s1).store.balance 1 = some b1 := by
      simp [Store.balance, Store.findCustomer, hcust1, raceCustomer]
    rw [this] at hbal
    exact Option.some.inj hbal
  subst hb150
  have hread : (raceSystem.run s1).Read150 := by
    refine ⟨hvs1, fun t ht => ?_⟩
    obtain ⟨k1, k2, k3⟩ := htasks1 t ht
    refine ⟨k1, k2, ?_⟩
    rcases k3 with h | ⟨sb, hsb, h⟩ | ⟨sb, hsb, h⟩ | h | h | ⟨-, h⟩
    · exact absurd h (hstart t ht)
    · rcases hsb with rfl | ⟨-, hb⟩
      · exact Or.inl h
      · norm_num at hb
    · rcases hsb with rfl | ⟨-, hb⟩
      · exact Or.inr (Or.inl h)
      · norm_num at hb
    · exact Or.inr (Or.inr (Or.inl h))
    · exact Or.inr (Or.inr (Or.inr h))
    · norm_num at h
  have hread2 := System.run_read150 s2 _ hread
  rw [← System.run_append] at hread2
  obtain ⟨hcnt, hdeb⟩ := System.run_raceCount (s1 ++ s2) _ raceSystem_raceInv raceSystem_raceCount
  obtain ⟨t0, ht0, hp0⟩ := System.response_eq_some _ 0 r0 h0
  obtain ⟨t1, ht1, hp1⟩ := System.response_eq_some _ 1 r1 h1
  have key : ∀ (t : Task) (r : Response), t ∈ (raceSystem.run (s1 ++ s2)).tasks →
      t.phase = .done r → ∃ id : Int, r = { status := 201, body := .id id } := by
    intro t r hmem hph
    obtain ⟨-, -, h⟩ := hread2.2 t hmem
    rw [hph] at h
    rcases h with h | h | ⟨id, h⟩ | ⟨id, h⟩
    · cases h
    · cases h
    · cases h
    · cases h; exact ⟨id, rfl⟩
  obtain ⟨id0, rfl⟩ := key t0 r0 (List.getElem?_mem ht0) hp0
  obtain ⟨id1, rfl⟩ := key t1 r1 (List.getElem?_mem ht1) hp1
  have hlen : (raceSystem.run (s1 ++ s2)).tasks.length = 2 :=
    System.length_run (s1 ++ s2) raceSystem
  obtain ⟨a, c, hac⟩ := List.length_eq_two.1 hlen
  rw [hac] at ht0 ht1
  simp only [List.getElem?_cons_zero, List.getElem?_cons_succ, Option.some.injEq] at ht0 ht1
  subst ht0 ht1
  refine ⟨rfl, rfl, ?_, ?_⟩
  · rw [hcnt, hac]
    simp [List.countP_cons, hp0, hp1, Phase.pastInsert]
  · have := hdeb ⟨a, by rw [hac]; exact List.mem_cons_self a [c], id0, hp0⟩
    simp [Store.balance, Store.findCustomer, this, raceCustomer]

/-- C7 as amended.  For the two calls of the race (balance 150, each call one voucher costing
100, no failing store call): when one call takes all its steps before the other
starts, the first answers 201 and the second 400 "Insufficient points", and the
balance ends at 50.  Under every schedule the balance is 150 or 50, a call that
has returned answered 201 or 400 "Insufficient points", at least one of two
returned calls answered 201, and every debit sent to the store sets the balance
to 50, the balance read at the start of the call minus 100.  When both calls
have read the customer before either debits, both answer 201, two redemptions
are inserted and the balance ends at 50.  The balance compared with the total
and debited is the one the call read at its start, whatever the store holds at
the time of the check and of the write: a call that read 150 before the other
call debited still passes the check and writes 50 after the balance in the
store has become 50. -/
theorem C7_race_amended (sched : List Nat) (m n : Nat) (hm : 4 ≤ m) (hn : 4 ≤ n) :
    ((raceSystem.run (List.replicate m 0 ++ List.replicate n 1)).response 0 =
        some { status := 201, body := .id 1 } ∧
      (raceSystem.run (List.replicate m 0 ++ List.replicate n 1)).response 1 =
        some (httpError "Insufficient points" 400) ∧
      (raceSystem.run (List.replicate m 0 ++ List.replicate n 1)).store.balance 1 = some 50) ∧
    ((raceSystem.run (List.replicate m 1 ++ List.replicate n 0)).response 1 =
        some { status := 201, body := .id 1 } ∧
      (raceSystem.run (List.replicate m 1 ++ List.replicate n 0)).response 0 =
        some (httpError "Insufficient points" 400) ∧
      (raceSystem.run (List.replicate m 1 ++ List.replicate n 0)).store.balance 1 = some 50) ∧
    ((raceSystem.run sched).store.balance 1 = some 150 ∨
      (raceSystem.run sched).store.balance 1 = some 50) ∧
    (∀ i resp, (raceSystem.run sched).response i = some resp →
      resp.status = 201 ∨ resp = httpError "Insufficient points" 400) ∧
    (∀ r0 r1, (raceSystem.run sched).response 0 = some r0 →
      (raceSystem.run sched).response 1 = some r1 → r0.status = 201 ∨ r1.status = 201) ∧
    (∀ id p, Call.UpdateCustomerPoints id p ∈ callsMade raceStore (raceSystem.run sched).store →
      id = 1 ∧ p = 50) ∧
    (∀ (s1 s2 : List Nat) (r0 r1 : Response),
      (∀ t ∈ (raceSystem.run s1).tasks, t.phase ≠ .start) →
      (raceSystem.run s1).store.balance 1 = some 150 →
      (raceSystem.run (s1 ++ s2)).response 0 = some r0 →
      (raceSystem.run (s1 ++ s2)).response 1 = some r1 →
      r0.status = 201 ∧ r1.status = 201 ∧
        (raceSystem.run (s1 ++ s2)).store.redemptions.length = 2 ∧
        (raceSystem.run (s1 ++ s2)).store.balance 1 = some 50) ∧
    (∀ (d : Store) (req : RedemptionRequest) (c : Customer) (t : Int)
        (items : List RedemptionItem),
      (c.PointsBalance < t →
        (Task.step d { req := req, faults := Faults.none,
                       phase := .pricing c [] [] t items }).2.phase =
          .done (httpError "Insufficient points" 400)) ∧
      (t ≤ c.PointsBalance →
        (Task.step d { req := req, faults := Faults.none,
                       phase := .pricing c [] [] t items }).2.phase =
          .inserted c t d.nextRedemptionID) ∧
      (∀ id : Int, callsMade d (Task.step d { req := req, faults := Faults.none,
                                               phase := .inserted c t id }).1 =
        [Call.UpdateCustomerPoints c.ID (wrapInt (c.PointsBalance - t))])) ∧
    ((raceSystem.run [1, 0, 0, 0, 0]).store.balance 1 = some 50 ∧
      (raceSystem.run [1, 0, 0, 0, 0]).response 0 = some { status := 201, body := .id 1 } ∧
      (raceSystem.run [1, 0, 0, 0, 0]).response 1 = none ∧
      (raceSystem.run [1, 0, 0, 0, 0, 1, 1, 1]).response 1 =
        some { status := 201, body := .id 2 } ∧
      (raceSystem.run [1, 0, 0, 0, 0, 1, 1, 1]).store.redemptions.length = 2 ∧
      (raceSystem.run [1, 0, 0, 0, 0, 1, 1, 1]).store.balance 1 = some 50) := by
  have hs1 := System.run_serial raceStore ⟨1, [1]⟩ ⟨1, [1]⟩ Faults.none Faults.none m n hm hn
  have hs2 := System.run_serial_rev raceStore ⟨1, [1]⟩ ⟨1, [1]⟩ Faults.none Faults.none m n hm hn
  obtain ⟨b, hb, hcust, -, htasks, h50, hlog⟩ := System.run_raceInv sched _ raceSystem_raceInv
  have hlen : (raceSystem.run sched).tasks.length = 2 := System.length_run sched raceSystem
  refine ⟨?_, ?_, ?_, ?_, ?_, ?_, ?_, ?_, ?_⟩
  · rw [show raceSystem = System.init raceStore
      [(⟨1, [1]⟩, Faults.none), (⟨1, [1]⟩, Faults.none)] from rfl, hs1]
    decide
  · rw [show raceSystem = System.init raceStore
      [(⟨1, [1]⟩, Faults.none), (⟨1, [1]⟩, Faults.none)] from rfl, hs2]
    decide
  · have : (raceSystem.run sched).store.balance 1 = some b := by
      simp [Store.balance, Store.findCustomer, hcust, raceCustomer]
    rw [this]
    rcases hb with rfl | rfl
    · exact Or.inl rfl
    · exact Or.inr rfl
  · intro i resp hresp
    obtain ⟨t, hti, hph⟩ := System.response_eq_some _ i resp hresp
    obtain ⟨-, -, h⟩ := htasks t (List.getElem?_mem hti)
    rw [hph] at h
    rcases h with h | ⟨sb, -, h⟩ | ⟨sb, -, h⟩ | ⟨id, h⟩ | ⟨id, h⟩ | ⟨h, -⟩
    · cases h
    · cases h
    · cases h
    · cases h
    · cases h; exact Or.inl rfl
    · cases h; exact Or.inr rfl
  · intro r0 r1 h0 h1
    obtain ⟨t0, ht0, hp0⟩ := System.response_eq_some _ 0 r0 h0
    obtain ⟨t1, ht1, hp1⟩ := System.response_eq_some _ 1 r1 h1
    have key : ∀ (t : Task) (r : Response), t ∈ (raceSystem.run sched).tasks →
        t.phase = .done r → r.status = 201 ∨ b = 50 := by
      intro t r hmem hph
      obtain ⟨-, -, h⟩ := htasks t hmem
      rw [hph] at h
      rcases h with h | ⟨sb, -, h⟩ | ⟨sb, -, h⟩ | ⟨id, h⟩ | ⟨id, h⟩ | ⟨-, h⟩
      · cases h
      · cases h
      · cases h
      · cases h
      · cases h; exact Or.inl rfl
      · exact Or.inr h
    rcases key t0 r0 (List.getElem?_mem ht0) hp0 with h | hb50
    · exact Or.inl h
    · obtain ⟨j, u, id, hj, hu⟩ := h50 hb50
      have hjlt : j < 2 := by
        have := (List.getElem?_eq_some.1 hj).1
        omega
      rcases Nat.lt_succ_iff_lt_or_eq.1 hjlt with hj0 | hj1
      · have : j = 0 := by omega
        subst this
        rw [ht0] at hj; cases hj
        rw [hp0] at hu; cases hu
        exact Or.inl rfl
      · subst hj1
        rw [ht1] at hj; cases hj
        rw [hp1] at hu; cases hu
        exact Or.inr rfl
  · intro id p hmem
    have : callsMade raceStore (raceSystem.run sched).store = (raceSystem.run sched).store.log := by
      simp [callsMade, raceStore]
    rw [this] at hmem
    exact hlog id p hmem
  · intro s1 s2 r0 r1 hstart hbal h0 h1
    exact race_both_read s1 s2 hstart hbal r0 r1 h0 h1
  · intro d req c t items
    refine ⟨fun hlt => ?_, fun hle => ?_, fun id => ?_⟩
    · rw [Task.step_reject d req c t items hlt]
    · rw [Task.step_insert d req c t items hle]
    · rw [Task.step_debit]
      apply callsMade_eq
      simp
  · decide

/-- C7 as amended, at the shortest serial schedules and the alternating one: there both calls
have read the customer after the steps 0, 1, and both answer 201. -/
theorem C7_race_amended_witness :
    ((raceSystem.run (List.replicate 4 0 ++ List.replicate 4 1)).response 0 =
        some { status := 201, body := .id 1 } ∧
      (raceSystem.run (List.replicate 4 0 ++ List.replicate 4 1)).response 1 =
        some (httpError "Insufficient points" 400) ∧
      (raceSystem.run (List.replicate 4 0 ++ List.replicate 4 1)).store.balance 1 = some 50) ∧
    (∀ id p, Call.UpdateCustomerPoints id p ∈
        callsMade raceStore (raceSystem.run [0, 1, 0, 1, 0, 1, 0, 1]).store →
      id = 1 ∧ p = 50) ∧
    ((∀ t ∈ (raceSystem.run [0, 1]).tasks, t.phase ≠ .start) ∧
      (raceSystem.run [0, 1]).store.balance 1 = some 150 ∧
      (raceSystem.run ([0, 1] ++ [0, 1, 0, 1, 0, 1])).response 0 =
        some { status := 201, body := .id 1 } ∧
      (raceSystem.run ([0, 1] ++ [0, 1, 0, 1, 0, 1])).response 1 =
        some { status := 201, body := .id 2 } ∧
      ({ status := 201, body := .id 1 } : Response).status = 201 ∧
      ({ status := 201, body := .id 2 } : Response).status = 201 ∧
      (raceSystem.run ([0, 1] ++ [0, 1, 0, 1, 0, 1])).store.redemptions.length = 2 ∧
      (raceSystem.run ([0, 1] ++ [0, 1, 0, 1, 0, 1])).store.balance 1 = some 50) :=
  ⟨(C7_race_amended [0, 1, 0, 1, 0, 1, 0, 1] 4 4 (by decide) (by decide)).1,
   (C7_race_amended [0, 1, 0, 1, 0, 1, 0, 1] 4 4 (by decide) (by decide)).2.2.2.2.2.1,
   by decide, by decide, by decide, by decide,
   (C7_race_amended [0, 1, 0, 1, 0, 1, 0, 1] 4 4 (by decide) (by decide)).2.2.2.2.2.2.1
     [0, 1] [0, 1, 0, 1, 0, 1] { status := 201, body := .id 1 } { status := 201, body := .id 2 }
     (by decide) (by decide) (by decide) (by decide)⟩

end VoucherApi
